import Mathlib

/-! # UTEngine asset export codecs (`SurrealEngine/Editor/Export.cpp`)

A shallow embedding of the exporters of `Editor/Export.cpp` and theorems about the
byte streams they produce.

Conventions of the embedding

* A byte is a `Fin 256`; wider machine integers are `Nat`/`Int`, reduced with an explicit
  `%` wherever the C++ narrows or wraps.
* `std::string` is a `String` whose characters are its bytes.
* A C++ local `MemoryStreamWriter` is threaded through the functions as a value.
* An export ends in one of three ways (`Outcome`): it returns its buffer, it leaves through
  `Exception::Throw`, or it reaches an operation whose behaviour C++ leaves undefined (a read
  outside an array, a null dereference, a float-to-int conversion out of range). In the last
  two cases the outcome records the contents of the function's local writer at that point.
-/

namespace UTEngine

/-! ## Bytes and little-endian encodings -/

abbrev Byte := Fin 256

/-- Narrowing of an unsigned value to `uint8_t` (the low eight bits). -/
def toByte (n : Nat) : Byte := ⟨n % 256, Nat.mod_lt n (by decide)⟩

/-- The two bytes of a `uint16_t`, low byte first. -/
def u16le (n : Nat) : List Byte := [toByte n, toByte (n / 256)]

/-- The four bytes of a `uint32_t`, low byte first. -/
def u32le (n : Nat) : List Byte :=
  [toByte n, toByte (n / 256), toByte (n / 65536), toByte (n / 16777216)]

/-- Conversion of an integer to `uint16_t`. -/
def toU16 (i : Int) : Nat := (i % 65536).toNat

/-- Conversion of an integer to `uint32_t` (also: the two's-complement bit pattern of an
`int`). -/
def toU32 (i : Int) : Nat := (i % 4294967296).toNat

/-- Conversion of an integer to `size_t` (64 bits). -/
def toSizeT (i : Int) : Nat := (i % 18446744073709551616).toNat

/-- The bytes of a `std::string`. -/
def strBytes (s : String) : List Byte := s.toList.map (fun c => toByte c.toNat)

/-- Little-endian `uint16_t` stored at offset `off` of a byte sequence. -/
def readU16LE (bytes : List Byte) (off : Nat) : Option Nat :=
  match bytes[off]?, bytes[off + 1]? with
  | some b0, some b1 => some (b0.val + 256 * b1.val)
  | _, _ => none

/-- Little-endian `uint32_t` stored at offset `off` of a byte sequence. -/
def readU32LE (bytes : List Byte) (off : Nat) : Option Nat :=
  match bytes[off]?, bytes[off + 1]?, bytes[off + 2]?, bytes[off + 3]? with
  | some b0, some b1, some b2, some b3 =>
      some (b0.val + 256 * b1.val + 65536 * b2.val + 16777216 * b3.val)
  | _, _, _, _ => none

/-! ## The output buffer -/

/-- Modelled from the spec: `Utils/MemoryStreamWriter.h` is not among the source files. The spec
describes it as "a growable, seekable byte sink supporting write-then-rewind-and-patch", with
little-endian byte order throughout and buffers "pre-reserved where size is known ahead ... to
avoid incremental reallocation". `data` is the content, `pos` the write cursor and `capacity`
the space requested through `Reserve`. -/
structure MemoryStreamWriter where
  data : List Byte := []
  pos : Nat := 0
  capacity : Nat := 0
  deriving DecidableEq, Repr

namespace MemoryStreamWriter

/-- Modelled from the spec: `Write(ptr, size)`; the bytes replace what lies under the cursor,
grow the buffer past its end, and advance the cursor. -/
def Write (s : MemoryStreamWriter) (bytes : List Byte) : MemoryStreamWriter :=
  { s with
    data := s.data.take s.pos ++ bytes ++ s.data.drop (s.pos + bytes.length)
    pos := s.pos + bytes.length }

/-- Modelled from the spec: `Reserve(n)` pre-reserves space; content and cursor are unchanged. -/
def Reserve (s : MemoryStreamWriter) (n : Nat) : MemoryStreamWriter :=
  { s with capacity := max s.capacity n }

/-- Modelled from the spec: `Tell()`, the cursor. -/
def Tell (s : MemoryStreamWriter) : Nat := s.pos

/-- Modelled from the spec: `Seek(offset, SEEK_SET)`. -/
def SeekSet (s : MemoryStreamWriter) (offset : Nat) : MemoryStreamWriter :=
  { s with pos := offset }

/-- Modelled from the spec: `MemoryStreamWriter(const Array<uint8_t>&)`, a writer holding a copy
of the given bytes. -/
def ofData (bytes : List Byte) : MemoryStreamWriter :=
  { data := bytes, pos := bytes.length, capacity := 0 }

/-- Modelled from the spec: `operator<<(uint8_t)` and `operator<<(int8_t)`. -/
def putU8 (s : MemoryStreamWriter) (b : Byte) : MemoryStreamWriter := s.Write [b]

/-- Modelled from the spec: `operator<<(uint16_t)`, little-endian. -/
def putU16 (s : MemoryStreamWriter) (n : Nat) : MemoryStreamWriter := s.Write (u16le n)

/-- Modelled from the spec: `operator<<(uint32_t)`, little-endian. -/
def putU32 (s : MemoryStreamWriter) (n : Nat) : MemoryStreamWriter := s.Write (u32le n)

/-- Modelled from the spec: `operator<<(const std::string&)`, the characters without a
terminator. -/
def putStr (s : MemoryStreamWriter) (txt : String) : MemoryStreamWriter := s.Write (strBytes txt)

end MemoryStreamWriter

/-! ## Outcomes -/

/-- The fatal errors raised through `Exception::Throw`, with the values their messages name. -/
inductive ExportError where
  | tooManyTriangles (numPolygons : Nat) (meshName : String)
  | abnormallyLargeTexture (usize vsize : Int)
  | unknownTextureFormat (ext : String)
  | unimplementedTextureType (texName : String) (format : Int)
  deriving DecidableEq, Repr

/-- The text handed to `Exception::Throw`. -/
def ExportError.message : ExportError → String
  | .tooManyTriangles n name => "Too many triangles (" ++ toString n ++ ") to export in " ++ name
  | .abnormallyLargeTexture u v =>
      "Abnormally large indexed texture: " ++ toString u ++ "x" ++ toString v
  | .unknownTextureFormat ext => "Unknown texture export format: " ++ ext
  | .unimplementedTextureType name fmt =>
      name ++ "Unimplemented for texture type" ++ toString fmt

/-- How a call of an exporter ends. `written` is the function's local output writer at the
moment control left it. -/
inductive Outcome where
  | returned (data : MemoryStreamWriter)
  | thrown (err : ExportError) (written : MemoryStreamWriter)
  | undefined (written : MemoryStreamWriter)
  deriving DecidableEq, Repr

/-- Sequencing: continue with `k` on the writer of a call that returned; a throw or an undefined
operation ends the sequence. -/
def Outcome.andThen (o : Outcome) (k : MemoryStreamWriter → Outcome) : Outcome :=
  match o with
  | .returned data => k data
  | .thrown e w => .thrown e w
  | .undefined w => .undefined w

/-- A counting loop `for (int i = start; i < start + count; i++) body(i)` over a writer; it
stops at the first iteration that does not complete. -/
def forUp (body : Nat → MemoryStreamWriter → Outcome) :
    Nat → Nat → MemoryStreamWriter → Outcome
  | 0, _, s => .returned s
  | count + 1, i, s => (body i s).andThen (forUp body count (i + 1))

/-- A descending loop `for (int y = n; y > 0; y--) body(y)` over a writer. -/
def forDown (body : Nat → MemoryStreamWriter → Outcome) :
    Nat → MemoryStreamWriter → Outcome
  | 0, s => .returned s
  | y + 1, s => (body (y + 1) s).andThen (forDown body y)

/-- An element of an array or buffer read at an `int` index; `none` is a read outside it. -/
def readAt {α : Type} (l : List α) (i : Int) : Option α :=
  if i < 0 then none else l[i.toNat]?

/-! ## Meshes -/

/-- A finite `float` value `mant * 2 ^ exp`. Every finite IEEE value has this form; the
products `x * 8.0` and `x * 4.0` the exporter forms in `double` are exact on such values. -/
structure FloatVal where
  mant : Int
  exp : Int
  deriving DecidableEq, Repr

namespace FloatVal

/-- Unary minus. -/
def neg (f : FloatVal) : FloatVal := { f with mant := -f.mant }

/-- Multiplication by the constant `2 ^ k` (`8.0` is `k = 3`, `4.0` is `k = 2`). -/
def scale (f : FloatVal) (k : Nat) : FloatVal := { f with exp := f.exp + k }

/-- The value rounded toward zero, as a mathematical integer. -/
def trunc (f : FloatVal) : Int :=
  if 0 ≤ f.exp then f.mant * 2 ^ f.exp.toNat else Int.tdiv f.mant (2 ^ (-f.exp).toNat)

/-- The conversion `(int)value`: truncation toward zero, undefined behaviour (`none`) when the
truncated value is not representable in a 32-bit `int`. -/
def toInt (f : FloatVal) : Option Int :=
  if -2147483648 ≤ f.trunc ∧ f.trunc ≤ 2147483647 then some f.trunc else none

end FloatVal

structure vec3 where
  x : FloatVal
  y : FloatVal
  z : FloatVal
  deriving DecidableEq, Repr

structure MeshUV where
  s : Nat
  t : Nat
  deriving DecidableEq, Repr

structure MeshTri where
  Indices : Fin 3 → Nat
  UV : Fin 3 → MeshUV
  PolyFlags : Nat
  TextureIndex : Nat

structure MeshWedge where
  Vertex : Nat
  U : Nat
  V : Nat
  deriving DecidableEq, Repr

structure MeshFace where
  Indices : Fin 3 → Nat
  MaterialIndex : Nat

structure MeshMaterial where
  PolyFlags : Nat
  TextureIndex : Nat
  deriving DecidableEq, Repr

/-- The fields of `UMesh` and of its subclass `ULodMesh` that the exporters read. `ClassName`
is `mesh->Class->Name.ToString()`; `Faces`, `Wedges`, `Materials` and `SpecialFaces` are the
`ULodMesh` members reached through the `reinterpret_cast`. -/
structure UMesh where
  Name : String
  ClassName : String
  Verts : List vec3
  Tris : List MeshTri
  AnimFrames : Int
  FrameVerts : Int
  Faces : List MeshFace
  Wedges : List MeshWedge
  Materials : List MeshMaterial
  SpecialFaces : List MeshFace

/-- The polygon-flag masks. Their declarations are not among the source files, so the exporters take
them as a parameter; a flag is set in `flags` when `flags &&& mask` is non-zero. -/
structure PolyFlagMasks where
  PF_TwoSided : Nat
  PF_Modulated : Nat
  PF_Masked : Nat
  PF_Translucent : Nat
  deriving DecidableEq, Repr

namespace JmtFlags

def Normal : Nat := 0
def TwoSided : Nat := 1
def Translucent : Nat := 2
def MaskedTwoSided : Nat := 3
def ModulatedTwoSided : Nat := 4
def WeaponTriangle : Nat := 8

end JmtFlags

/-- `UINT16_MAX`. -/
def UINT16_MAX : Nat := 65535

structure U3DAnivHeader where
  NumFrames : Nat
  FrameSize : Nat
  deriving DecidableEq, Repr

structure U3DDataHeader where
  NumPolygons : Nat
  NumVertices : Nat
  BogusRot : Nat
  BogusFrame : Nat
  BogusNormX : Nat
  BogusNormY : Nat
  BogusNormZ : Nat
  FixScale : Nat
  Unused : Fin 3 → Nat
  Unknown : Fin 12 → Nat

/-- The record of one triangle. `Type_` is the member `Type` of the source. `Type`, `Color`,
`TexNum` and `Flags` are `int8_t` there; the model keeps the byte that is stored. -/
structure U3DDataTriangle where
  Vertex : Fin 3 → Nat
  Type_ : Nat
  Color : Nat
  VertexUV : Fin 3 → Fin 2 → Nat
  TexNum : Nat
  Flags : Nat

namespace MemoryStreamWriter

/-- `operator<<(MemoryStreamWriter&, U3DAnivHeader&)`. -/
def putAnivHeader (s : MemoryStreamWriter) (hdr : U3DAnivHeader) : MemoryStreamWriter :=
  (s.putU16 hdr.NumFrames).putU16 hdr.FrameSize

/-- `operator<<(MemoryStreamWriter&, U3DDataHeader&)`; the two loops over the fixed-size arrays
`Unused[3]` and `Unknown[12]` are folds over their indices. -/
def putDataHeader (s : MemoryStreamWriter) (hdr : U3DDataHeader) : MemoryStreamWriter :=
  let s := s.putU16 hdr.NumPolygons
  let s := s.putU16 hdr.NumVertices
  let s := s.putU16 hdr.BogusRot
  let s := s.putU16 hdr.BogusFrame
  let s := s.putU32 hdr.BogusNormX
  let s := s.putU32 hdr.BogusNormY
  let s := s.putU32 hdr.BogusNormZ
  let s := s.putU32 hdr.FixScale
  let s := (List.finRange 3).foldl (fun s i => s.putU32 (hdr.Unused i)) s
  (List.finRange 12).foldl (fun s i => s.putU8 (toByte (hdr.Unknown i))) s

/-- `operator<<(MemoryStreamWriter&, U3DDataTriangle&)`; `VertexUV` is written as the six raw
bytes of the `uint8_t[3][2]` array, row by row. -/
def putDataTriangle (s : MemoryStreamWriter) (tri : U3DDataTriangle) : MemoryStreamWriter :=
  let s := (List.finRange 3).foldl (fun s i => s.putU16 (tri.Vertex i)) s
  let s := s.putU8 (toByte tri.Type_)
  let s := s.putU8 (toByte tri.Color)
  let s := s.Write ((List.finRange 3).flatMap
    (fun i => [toByte (tri.VertexUV i 0), toByte (tri.VertexUV i 1)]))
  let s := s.putU8 (toByte tri.TexNum)
  s.putU8 (toByte tri.Flags)

end MemoryStreamWriter

namespace Exporter

/-- `Exporter::ExportSkeletalMesh`. -/
def ExportSkeletalMesh (_mesh : UMesh) : Outcome := .returned {}

/-- The packed word of one vertex in `Exporter::ExportMeshAnim`:
`((int)(-x * 8.0) & 0x7ff) | (((int)(-y * 8.0) & 0x7ff) << 11) | (((int)(z * 4.0) & 0x3ff) << 22)`
converted to `uint32_t`. The bitwise operators act on the 32-bit two's-complement patterns of
the three `int` values. -/
def packVertex (vtx : vec3) : Option Nat :=
  match (vtx.x.neg.scale 3).toInt, (vtx.y.neg.scale 3).toInt, (vtx.z.scale 2).toInt with
  | some a, some b, some c =>
      some (((toU32 a &&& 0x7ff) ||| ((toU32 b &&& 0x7ff) <<< 11)
        ||| ((toU32 c &&& 0x3ff) <<< 22)) % 4294967296)
  | _, _, _ => none

/-- `Exporter::ExportMeshAnim`. A null `mesh` is `none`. The `int` expressions `FrameVerts * 4`
and `i * FrameVerts + k` are computed exactly; the cast `(size_t)` of a negative index gives an
index outside every array, as `readAt` does. -/
def ExportMeshAnim (mesh : Option UMesh) : Outcome :=
  let data : MemoryStreamWriter := {}
  match mesh with
  | none => .returned data
  | some mesh =>
    if mesh.ClassName = "SkeletalMesh" then .returned data
    else
      let hdr : U3DAnivHeader :=
        { NumFrames := toU16 mesh.AnimFrames, FrameSize := toU16 (mesh.FrameVerts * 4) }
      let data := data.putAnivHeader hdr
      forUp (fun i data =>
        forUp (fun k data =>
          let index := (i : Int) * mesh.FrameVerts + (k : Int)
          match readAt mesh.Verts index with
          | none => .undefined data
          | some vtx =>
            match packVertex vtx with
            | none => .undefined data
            | some uvtx => .returned (data.putU32 uvtx))
          mesh.FrameVerts.toNat 0 data)
        mesh.AnimFrames.toNat 0 data

/-- The body of the face loop of `Exporter::ExportLodMesh` up to the write: the record built
for face `i`. The reads `Faces[i]`, `Wedges[face.Indices[k]]` and
`Materials[face.MaterialIndex]` are outside their arrays when the result is `none`. -/
def lodRecord (pf : PolyFlagMasks) (mesh : UMesh) (i : Nat) : Option U3DDataTriangle :=
  match mesh.Faces[i]? with
  | none => none
  | some face =>
    match mesh.Wedges[face.Indices 0]?, mesh.Wedges[face.Indices 1]?,
        mesh.Wedges[face.Indices 2]?, mesh.Materials[face.MaterialIndex]? with
    | some w0, some w1, some w2, some mat =>
      let wedge : Fin 3 → MeshWedge := ![w0, w1, w2]
      some
        { Vertex := fun k => (wedge k).Vertex % 65536
          VertexUV := fun k j => if j = 0 then (wedge k).U % 256 else (wedge k).V % 256
          Type_ :=
            if mesh.SpecialFaces.length = 1 ∧ i = toSizeT ((mesh.Faces.length : Int) - 1) then
              JmtFlags.WeaponTriangle
            else if mat.PolyFlags &&& pf.PF_TwoSided ≠ 0 then
              if mat.PolyFlags &&& pf.PF_Modulated ≠ 0 then JmtFlags.ModulatedTwoSided
              else if mat.PolyFlags &&& pf.PF_Masked ≠ 0 then JmtFlags.MaskedTwoSided
              else if mat.PolyFlags &&& pf.PF_Translucent ≠ 0 then JmtFlags.Translucent
              else JmtFlags.TwoSided
            else JmtFlags.Normal
          Color := 127
          TexNum := mat.TextureIndex % 256
          Flags := 0 }
    | _, _, _, _ => none

/-- `Exporter::ExportLodMesh`. `hdr` is the content of the local `U3DDataHeader hdr;` before the
two assignments: the declaration has no initialiser, so the remaining fields are whatever the
caller supplies here. -/
def ExportLodMesh (pf : PolyFlagMasks) (hdr : U3DDataHeader) (mesh : UMesh) : Outcome :=
  let data : MemoryStreamWriter := {}
  let numPolygons := mesh.Faces.length
  if numPolygons > UINT16_MAX then
    .thrown (.tooManyTriangles numPolygons mesh.Name) data
  else
    let hdr := { hdr with NumPolygons := numPolygons % 65536, NumVertices := toU16 mesh.FrameVerts }
    let data := data.putDataHeader hdr
    forUp (fun i data =>
      match lodRecord pf mesh i with
      | none => .undefined data
      | some tri => .returned (data.putDataTriangle tri))
      numPolygons 0 data

/-- The body of the triangle loop of `Exporter::ExportMeshData` up to the write: the record
built for the triangle `mt`. -/
def meshRecord (pf : PolyFlagMasks) (mt : MeshTri) : U3DDataTriangle :=
  { Vertex := fun i => mt.Indices i % 65536
    VertexUV := fun i j => if j = 0 then (mt.UV i).s % 256 else (mt.UV i).t % 256
    Type_ :=
      if mt.PolyFlags &&& pf.PF_TwoSided ≠ 0 then
        if mt.PolyFlags &&& pf.PF_Modulated ≠ 0 then JmtFlags.ModulatedTwoSided
        else if mt.PolyFlags &&& pf.PF_Masked ≠ 0 then JmtFlags.MaskedTwoSided
        else if mt.PolyFlags &&& pf.PF_Translucent ≠ 0 then JmtFlags.Translucent
        else JmtFlags.TwoSided
      else JmtFlags.Normal
    Color := 127
    TexNum := mt.TextureIndex % 256
    Flags := 0 }

/-- `Exporter::ExportMeshData`. A null `mesh` is `none`; `hdr` is the uninitialised content of
the local header, as in `ExportLodMesh`. -/
def ExportMeshData (pf : PolyFlagMasks) (hdr : U3DDataHeader) (mesh : Option UMesh) : Outcome :=
  let data : MemoryStreamWriter := {}
  match mesh with
  | none => .returned data
  | some mesh =>
    if mesh.ClassName = "LodMesh" then ExportLodMesh pf hdr mesh
    else if mesh.ClassName = "SkeletalMesh" then ExportSkeletalMesh mesh
    else
      let numPolygons := mesh.Tris.length
      if numPolygons > UINT16_MAX then
        .thrown (.tooManyTriangles numPolygons mesh.Name) data
      else
        let hdr :=
          { hdr with NumPolygons := numPolygons % 65536, NumVertices := toU16 mesh.FrameVerts }
        let data := data.putDataHeader hdr
        .returned (mesh.Tris.foldl (fun data mt => data.putDataTriangle (meshRecord pf mt)) data)

end Exporter

/-! ## Objects and their exported properties -/

/-- Which object `Exporter::ExportObject` hands to `GetExportText` as the source of default
values: `obj->Class` or `obj->Class->BaseStruct`. -/
inductive DefaultsFrom where
  | ownClass
  | baseStruct
  deriving DecidableEq, Repr

/-- Modelled from the spec: `UObject/UProperty.h` is not among the source files. A property of
an object's class, seen from the object under export. `Exported` is
`AnyFlags(prop->Flags, ObjectFlags::TagExp)` (the spec's "exported" flag of a schema entry), and
`GetExportText tabs defobj i` is the text that `prop->GetExportText(txt, tabs, obj, defobj, i)`
appends to `txt` for element `i` ("indented text of the form `Name=Value` or `Name(i)=Value`"). -/
structure UProperty where
  Name : String
  ArrayDimension : Int
  Exported : Bool
  GetExportText : String → DefaultsFrom → Nat → String

/-- The parts of a `UObject` that `Exporter::ExportObject` reads. `Properties` is
`obj->Class->Properties`, `ClassIsOwnClass` is `obj->Class == obj->Class->Class`, and
`ClassGetPropertyAsString` is `obj->Class->GetPropertyAsString`. The last field,
`GetPropertyAsString`, is the same accessor called on the object itself: the string value of a
property of this object. `Exporter::ExportObject` does not call it. -/
structure UObject where
  Name : String
  Properties : List UProperty
  ClassIsOwnClass : Bool
  ClassGetPropertyAsString : String → String
  GetPropertyAsString : String → String

namespace Exporter

/-- The inner loop of `Exporter::ExportObject`: the elements `i`, `i + 1`, ... of one property,
`count` of them. -/
def ExportObject.elements (obj : UObject) (tablevel : Nat) (prop : UProperty) :
    Nat → Nat → String → String
  | 0, _, txt => txt
  | count + 1, i, txt =>
    if prop.Exported then
      let defobj := if obj.ClassIsOwnClass then DefaultsFrom.baseStruct else DefaultsFrom.ownClass
      if prop.Name = "Tag" ∧ obj.ClassGetPropertyAsString prop.Name = obj.Name then
        ExportObject.elements obj tablevel prop count (i + 1) txt
      else
        let tabs := String.mk (List.replicate tablevel '\t')
        ExportObject.elements obj tablevel prop count (i + 1)
          (txt ++ prop.GetExportText tabs defobj i)
    else ExportObject.elements obj tablevel prop count (i + 1) txt

/-- `Exporter::ExportObject`. The parameter `bInline` is not read by the source. -/
def ExportObject (obj : UObject) (tablevel : Nat) (_bInline : Bool) : String :=
  obj.Properties.foldl
    (fun txt prop => ExportObject.elements obj tablevel prop prop.ArrayDimension.toNat 0 txt) ""

end Exporter

/-! ## Textures -/

/-- `TextureFormat`: the 8-bit paletted format, or any other enumerator with its numeric
value. -/
inductive TextureFormat where
  | P8
  | other (code : Int)
  deriving DecidableEq, Repr

structure UPalette where
  Colors : List Nat
  deriving DecidableEq, Repr

structure UnrealMipmap where
  Data : List Byte
  deriving DecidableEq, Repr

/-- The parts of a `UTexture` (and of its procedural subclasses) that the exporters read.
`Palette` is `none` for a null `tex->Palette()`; `USize` and `VSize` are C++ `int`s. -/
structure UTexture where
  Name : String
  ClassName : String
  ActualFormat : TextureFormat
  USize : Int
  VSize : Int
  Palette : Option UPalette
  Mipmaps : List UnrealMipmap
  toUObject : UObject

/-- The four components `UnpackRgba` stores through its reference parameters. -/
structure Rgba where
  r : Nat
  g : Nat
  b : Nat
  a : Nat
  deriving DecidableEq, Repr

/-- `UnpackRgba`. -/
def UnpackRgba (rgba : Nat) : Rgba :=
  { r := rgba &&& 0xff
    g := (rgba >>> 8) &&& 0xff
    b := (rgba >>> 16) &&& 0xff
    a := (rgba >>> 24) &&& 0xff }

structure BmpHeader where
  signature : Nat := 0
  fileSize : Nat := 0
  reserved : Nat := 0
  pixelOffset : Nat := 0
  dibHeaderSize : Nat := 0
  imageWidth : Nat := 0
  imageHeight : Nat := 0
  planes : Nat := 0
  bitCount : Nat := 0
  compression : Nat := 0
  imageSize : Nat := 0
  pixelsPerMeterX : Nat := 0
  pixelsPerMeterY : Nat := 0
  colorsUsed : Nat := 0
  colorsImportant : Nat := 0
  deriving DecidableEq, Repr

/-- `sizeof(BmpHeader)`: the `uint32_t` after the leading `uint16_t` is aligned to four bytes,
so the struct occupies 56 bytes although 54 are written. -/
def sizeofBmpHeader : Nat := 56

/-- `operator<<(MemoryStreamWriter&, BmpHeader&)`. -/
def MemoryStreamWriter.putBmpHeader (s : MemoryStreamWriter) (bmp : BmpHeader) :
    MemoryStreamWriter :=
  let s := s.putU16 bmp.signature
  let s := s.putU32 bmp.fileSize
  let s := s.putU32 bmp.reserved
  let s := s.putU32 bmp.pixelOffset
  let s := s.putU32 bmp.dibHeaderSize
  let s := s.putU32 bmp.imageWidth
  let s := s.putU32 bmp.imageHeight
  let s := s.putU16 bmp.planes
  let s := s.putU16 bmp.bitCount
  let s := s.putU32 bmp.compression
  let s := s.putU32 bmp.imageSize
  let s := s.putU32 bmp.pixelsPerMeterX
  let s := s.putU32 bmp.pixelsPerMeterY
  let s := s.putU32 bmp.colorsUsed
  s.putU32 bmp.colorsImportant

namespace Exporter

/-- The body of the first loop of the four procedural-texture writers, `for (int i = 0; i < 5;
i++)`: it reads `palette->Colors[(i * 64) - 1]` and writes the line labelled `Color` with the
number `i + 1`. -/
def proceduralSample (palette : UPalette) (i : Nat) (data : MemoryStreamWriter) : Outcome :=
  match readAt palette.Colors ((i : Int) * 64 - 1) with
  | none => .undefined data
  | some rgba =>
    let c := UnpackRgba rgba
    .returned (data.putStr ("\tColor" ++ toString (i + 1) ++ "=(R=" ++ toString c.r
      ++ ",G=" ++ toString c.g ++ ",B=" ++ toString c.b ++ ",A=" ++ toString c.a
      ++ ")\r\n"))

/-- The body of the second loop of the four procedural-texture writers, `for (int i = 0;
i < 256; i++)`: it reads `palette->Colors[i]` and writes the line labelled `paletteLabel` with
the number `i + 1`. -/
def proceduralEntry (paletteLabel : String) (palette : UPalette) (i : Nat)
    (data : MemoryStreamWriter) : Outcome :=
  match readAt palette.Colors (i : Int) with
  | none => .undefined data
  | some rgba =>
    let c := UnpackRgba rgba
    .returned (data.putStr (paletteLabel ++ toString (i + 1) ++ "=(R=" ++ toString c.r
      ++ ",G=" ++ toString c.g ++ ",B=" ++ toString c.b ++ ",A=" ++ toString c.a
      ++ ")\r\n"))

/-- The end of the four procedural-texture writers: the loop over the 256 palette entries and
the closing line. -/
def proceduralDump (paletteLabel : String) (palette : UPalette) (data : MemoryStreamWriter) :
    Outcome :=
  (forUp (proceduralEntry paletteLabel palette) 256 0 data).andThen fun data =>
    .returned (data.putStr "END OBJECT\r\n")

/-- The shape shared by the four procedural-texture writers `ExportFireTexture`,
`ExportWaveTexture`, `ExportWetTexture` and `ExportIceTexture`, which differ in the class tag
of the first line and in the label of the 256-entry dump. -/
def exportProceduralTexture (classTag paletteLabel : String) (tex : UTexture) : Outcome :=
  let data : MemoryStreamWriter := {}
  let data := data.putStr ("BEGIN OBJECT CLASS=" ++ classTag ++ " USIZE=" ++ toString tex.USize
    ++ " VSIZE=" ++ toString tex.VSize ++ "\r\n")
  let data := data.putStr (ExportObject tex.toUObject 1 false)
  match tex.Palette with
  | none => .undefined data
  | some palette =>
    (forUp (proceduralSample palette) 5 0 data).andThen (proceduralDump paletteLabel palette)

/-- `Exporter::ExportFireTexture`. -/
def ExportFireTexture (tex : UTexture) : Outcome :=
  exportProceduralTexture "FireTexture" "\tPaletteColor" tex

/-- `Exporter::ExportWaveTexture`. -/
def ExportWaveTexture (tex : UTexture) : Outcome :=
  exportProceduralTexture "WaveTexture" "\tPalette" tex

/-- `Exporter::ExportWetTexture`. -/
def ExportWetTexture (tex : UTexture) : Outcome :=
  exportProceduralTexture "WetTexture" "\tPalette" tex

/-- `Exporter::ExportIceTexture`. -/
def ExportIceTexture (tex : UTexture) : Outcome :=
  exportProceduralTexture "IceTexture" "\tPalette" tex

/-- The word that a read of `palette->Colors[index]` finds. Inside the palette it is the entry
at `index`. At index -1, one place in front of the first entry, the C++ standard leaves the
read undefined, and a build of the exporter finds there whatever word precedes the array in
memory: `before` is that word when it is given, and `none` leaves the read undefined. The
reads at every other index outside the palette are undefined. -/
def colorAt (before : Option Nat) (palette : UPalette) (index : Int) : Option Nat :=
  if index = -1 then before else readAt palette.Colors index

/-- The body of the first loop of the four procedural-texture writers, as `proceduralSample`,
with the word in front of the palette as a parameter. -/
def proceduralSampleWith (before : Option Nat) (palette : UPalette) (i : Nat)
    (data : MemoryStreamWriter) : Outcome :=
  match colorAt before palette ((i : Int) * 64 - 1) with
  | none => .undefined data
  | some rgba =>
    let c := UnpackRgba rgba
    .returned (data.putStr ("\tColor" ++ toString (i + 1) ++ "=(R=" ++ toString c.r
      ++ ",G=" ++ toString c.g ++ ",B=" ++ toString c.b ++ ",A=" ++ toString c.a
      ++ ")\r\n"))

/-- The shape shared by the four procedural-texture writers, as `exportProceduralTexture`,
with the word in front of the palette as a parameter: the content of that word is no part of
the texture, just as the unassigned fields of the local header of `ExportMeshData` are no part
of the mesh. -/
def exportProceduralTextureWith (before : Option Nat) (classTag paletteLabel : String)
    (tex : UTexture) : Outcome :=
  let data : MemoryStreamWriter := {}
  let data := data.putStr ("BEGIN OBJECT CLASS=" ++ classTag ++ " USIZE=" ++ toString tex.USize
    ++ " VSIZE=" ++ toString tex.VSize ++ "\r\n")
  let data := data.putStr (ExportObject tex.toUObject 1 false)
  match tex.Palette with
  | none => .undefined data
  | some palette =>
    (forUp (proceduralSampleWith before palette) 5 0 data).andThen
      (proceduralDump paletteLabel palette)

/-- `Exporter::ExportFireTexture`, with the word in front of the palette as a parameter. -/
def ExportFireTextureWith (before : Option Nat) (tex : UTexture) : Outcome :=
  exportProceduralTextureWith before "FireTexture" "\tPaletteColor" tex

/-- `Exporter::ExportWaveTexture`, with the word in front of the palette as a parameter. -/
def ExportWaveTextureWith (before : Option Nat) (tex : UTexture) : Outcome :=
  exportProceduralTextureWith before "WaveTexture" "\tPalette" tex

/-- `Exporter::ExportWetTexture`, with the word in front of the palette as a parameter. -/
def ExportWetTextureWith (before : Option Nat) (tex : UTexture) : Outcome :=
  exportProceduralTextureWith before "WetTexture" "\tPalette" tex

/-- `Exporter::ExportIceTexture`, with the word in front of the palette as a parameter. -/
def ExportIceTextureWith (before : Option Nat) (tex : UTexture) : Outcome :=
  exportProceduralTextureWith before "IceTexture" "\tPalette" tex

/-- The header `Exporter::ExportBmpIndexed` writes first: `BmpHeader hdr = { 0 }` followed by
the eight assignments that precede `data << hdr`. -/
def ExportBmpIndexed.initialHeader (tex : UTexture) : BmpHeader :=
  { signature := 0x4d42
    fileSize := 0
    pixelOffset := sizeofBmpHeader + 4 * 256
    dibHeaderSize := 40
    imageWidth := toU32 tex.USize
    imageHeight := toU32 tex.VSize
    planes := 1
    bitCount := 8 }

/-- The palette loop of `Exporter::ExportBmpIndexed`. -/
def ExportBmpIndexed.writePalette (tex : UTexture) (data : MemoryStreamWriter) : Outcome :=
  match tex.Palette with
  | none => .undefined data
  | some palette =>
    forUp (fun i data =>
      match readAt palette.Colors (i : Int) with
      | none => .undefined data
      | some rgba =>
        let c := UnpackRgba rgba
        let bgra := (c.b ||| (c.g <<< 8) ||| (c.r <<< 16) ||| (c.a <<< 24)) % 4294967296
        .returned (data.putU32 bgra))
      256 0 data

/-- The pixel loops of `Exporter::ExportBmpIndexed`, from `uint8_t *pixels = ...` on. -/
def ExportBmpIndexed.writePixels (tex : UTexture) (data : MemoryStreamWriter) : Outcome :=
  match tex.Mipmaps[0]? with
  | none => .undefined data
  | some mip =>
    let pixels := mip.Data
    forDown (fun y data =>
      forUp (fun x data =>
        match readAt pixels (((y : Int) - 1) * tex.USize + (x : Int)) with
        | none => .undefined data
        | some p => .returned (data.putU8 p))
        tex.USize.toNat 0 data)
      tex.VSize.toNat data

/-- `Exporter::ExportBmpIndexed`. The `int` product `usize * vsize` is computed exactly. -/
def ExportBmpIndexed (tex : UTexture) : Outcome :=
  let data : MemoryStreamWriter := {}
  let usize := tex.USize
  let vsize := tex.VSize
  if usize > 8192 ∨ vsize > 8192 then
    .thrown (.abnormallyLargeTexture usize vsize) data
  else
    let data := data.Reserve (toSizeT (sizeofBmpHeader + 4 * 256 + usize * vsize))
    let hdr := ExportBmpIndexed.initialHeader tex
    let data := data.putBmpHeader hdr
    (ExportBmpIndexed.writePalette tex data).andThen fun data =>
    let hdr := { hdr with pixelOffset := data.Tell % 4294967296 }
    (ExportBmpIndexed.writePixels tex data).andThen fun data =>
    let hdr := { hdr with fileSize := data.Tell % 4294967296 }
    let data := data.SeekSet 0
    .returned (data.putBmpHeader hdr)

/-- The writer of `Exporter::ExportBmpIndexed` when the pixel loops have ended, before
`data.Seek(0, SEEK_SET)` and the second `data << hdr`. -/
def ExportBmpIndexed.firstPass (tex : UTexture) : Outcome :=
  let data : MemoryStreamWriter := {}
  if tex.USize > 8192 ∨ tex.VSize > 8192 then
    .thrown (.abnormallyLargeTexture tex.USize tex.VSize) data
  else
    let data := data.Reserve (toSizeT (sizeofBmpHeader + 4 * 256 + tex.USize * tex.VSize))
    let data := data.putBmpHeader (ExportBmpIndexed.initialHeader tex)
    (ExportBmpIndexed.writePalette tex data).andThen (ExportBmpIndexed.writePixels tex)

/-- `Exporter::GetImageP8`. The palette pointer is dereferenced inside the loops only. -/
def GetImageP8 (tex : UTexture) : Outcome :=
  let data : MemoryStreamWriter := {}
  match tex.Mipmaps[0]? with
  | none => .undefined data
  | some mip =>
    let pixels := mip.Data
    let usize := tex.USize
    let vsize := tex.VSize
    forUp (fun y data =>
      forUp (fun x data =>
        match readAt pixels ((y : Int) * usize + (x : Int)) with
        | none => .undefined data
        | some color =>
          match tex.Palette with
          | none => .undefined data
          | some palette =>
            match readAt palette.Colors (color.val : Int) with
            | none => .undefined data
            | some rgba => .returned (data.putU32 rgba))
        usize.toNat 0 data)
      vsize.toNat 0 data

/-- `Exporter::GetImage`. The function has no writer of its own when it throws. -/
def GetImage (tex : UTexture) : Outcome :=
  match tex.ActualFormat with
  | .P8 => GetImageP8 tex
  | .other code => .thrown (.unimplementedTextureType tex.Name code) {}

/-- `Exporter::ExportPng`. `compress image width height` stands for the external call
`tdefl_write_image_to_png_file_in_memory_ex(image, width, height, 4, &pLen,
MZ_BEST_COMPRESSION, 0)` of the miniz library and gives the `pLen` bytes it produces. -/
def ExportPng (compress : List Byte → Int → Int → List Byte) (tex : UTexture) : Outcome :=
  (GetImage tex).andThen fun image =>
    let data : MemoryStreamWriter := {}
    .returned (data.Write (compress image.data tex.USize tex.VSize))

/-- `Exporter::ExportTexture`. A null `tex` is `none`. -/
def ExportTexture (compress : List Byte → Int → Int → List Byte) (tex : Option UTexture)
    (ext : String) : Outcome :=
  match tex with
  | none => .returned {}
  | some tex =>
    if tex.ClassName = "FireTexture" then ExportFireTexture tex
    else if tex.ClassName = "WetTexture" then ExportWetTexture tex
    else if tex.ClassName = "WaveTexture" then ExportWaveTexture tex
    else if tex.ClassName = "IceTexture" then ExportIceTexture tex
    else if tex.ActualFormat = TextureFormat.P8 ∧ ext = "bmp" then ExportBmpIndexed tex
    else if ext = "png" then ExportPng compress tex
    else .thrown (.unknownTextureFormat ext) {}

end Exporter

/-! ## Classes, fonts and audio assets -/

/-- A range-based `for` over a list, ended by the first body that does not return. -/
def forEach {α : Type} (body : α → MemoryStreamWriter → Outcome) :
    List α → MemoryStreamWriter → Outcome
  | [], s => .returned s
  | x :: xs, s => (body x s).andThen (forEach body xs)

/-- `UTextBuffer`: the raw script text of a class. -/
structure UTextBuffer where
  Text : String

/-- The parts of a `UClass` that `Exporter::ExportClass` reads. A null `cls->ScriptText` is
`none`; `DefaultObject` is `cls->GetDefaultObject<UObject>()`. -/
structure UClass where
  ScriptText : Option UTextBuffer
  DefaultObject : UObject

/-- `FontCharacter`: the rectangle of a glyph on the texture of its page. -/
structure FontCharacter where
  StartU : Int
  StartV : Int
  USize : Int
  VSize : Int
  deriving DecidableEq, Repr

/-- `FontPage`. A null `Texture` pointer is `none`. -/
structure FontPage where
  Texture : Option UTexture
  Characters : List FontCharacter

/-- The part of a `UFont` that `Exporter::ExportFont` reads: `font->GetPages()`. -/
structure UFont where
  Pages : List FontPage

/-- The part of a `UMusic` that `Exporter::ExportMusic` reads. -/
structure UMusic where
  Data : List Byte

/-- The part of a `USound` that `Exporter::ExportSound` reads. -/
structure USound where
  Data : List Byte

/-- `UAnimation`, a skeletal animation. `Exporter::ExportSkeletalAnim` reads none of its
members; the name stands for the object. -/
structure UAnimation where
  Name : String

namespace Exporter

/-- `Exporter::ExportClass`. -/
def ExportClass (cls : UClass) : MemoryStreamWriter :=
  let text : MemoryStreamWriter := {}
  match cls.ScriptText with
  | none => text
  | some scriptText =>
    let text := text.putStr scriptText.Text
    let text := text.putStr "\r\ndefaultproperties\r\n\x7b\r\n"
    let text := text.putStr (ExportObject cls.DefaultObject 1 false)
    text

/-- The body of the inner loop of `Exporter::ExportFont` for the character `c` at position
`i`. -/
def ExportFont.character (i : Nat) (c : FontCharacter) (text : MemoryStreamWriter) :
    MemoryStreamWriter :=
  let StartU := c.StartU
  let StartV := c.StartV
  let USize := c.VSize
  let VSize := c.USize
  if StartU = 0 ∧ StartV = 0 ∧ USize = 0 ∧ VSize = 0 then text
  else
    let text := text.putStr
      ("\t\tChar" ++ toString i ++ "(StartU=" ++ toString StartU ++ ",")
    let text := text.putStr ("StartV=" ++ toString StartV ++ ",")
    let text := text.putStr ("USize=" ++ toString USize ++ ",")
    text.putStr ("VSize=" ++ toString VSize ++ ")\r\n")

/-- The body of the outer loop of `Exporter::ExportFont`: one page. -/
def ExportFont.page (page : FontPage) (text : MemoryStreamWriter) : Outcome :=
  let text := text.putStr "\tBEGIN PAGE\r\n"
  match page.Texture with
  | none => .undefined text
  | some texture =>
    let text := text.putStr ("\t\tTexture=\x27" ++ texture.Name ++ "\x27\r\n")
    (forUp (fun i text =>
        match page.Characters[i]? with
        | none => .undefined text
        | some c => .returned (ExportFont.character i c text))
      page.Characters.length 0 text).andThen fun text =>
    .returned (text.putStr "\tEND PAGE\r\n")

/-- `Exporter::ExportFont`. -/
def ExportFont (font : UFont) : Outcome :=
  let text : MemoryStreamWriter := {}
  let pages := font.Pages
  let text := text.putStr "BEGIN OBJECT CLASS=Font\r\n"
  (forEach ExportFont.page pages text).andThen fun text =>
  .returned (text.putStr "END OBJECT\r\n")

/-- `Exporter::ExportMusic`. A null `music` is `none`. -/
def ExportMusic (music : Option UMusic) : MemoryStreamWriter :=
  match music with
  | none => {}
  | some music => MemoryStreamWriter.ofData music.Data

/-- `Exporter::ExportSkeletalAnim`. A null `anim` is `none`. -/
def ExportSkeletalAnim (_anim : Option UAnimation) : MemoryStreamWriter := {}

/-- `Exporter::ExportSound`. A null `sound` is `none`. -/
def ExportSound (sound : Option USound) : MemoryStreamWriter :=
  match sound with
  | none => {}
  | some sound => MemoryStreamWriter.ofData sound.Data

end Exporter

/-! ## The export commandlet -/

namespace StdString

/-- `s.find_first_of(c)`; `std::string::npos` is `none`. -/
def find_first_of (s : String) (c : Char) : Option Nat :=
  s.data.findIdx? (fun d => d == c)

/-- `s.find_last_not_of(c)`; `std::string::npos` is `none`. -/
def find_last_not_of (s : String) (c : Char) : Option Nat :=
  match s.data.reverse.findIdx? (fun d => d != c) with
  | none => none
  | some j => some (s.data.length - 1 - j)

/-- `pos + 1` in `size_t` arithmetic: `npos + 1` wraps to 0. -/
def succ (pos : Option Nat) : Nat :=
  match pos with
  | none => 0
  | some i => i + 1

/-- `s.substr(pos, count)`, where the count `npos` (`none`) takes the rest of the string. The
commandlet never passes a `pos` beyond the size of `s`. -/
def substr (s : String) (pos : Nat) (count : Option Nat) : String :=
  match count with
  | none => ⟨s.data.drop pos⟩
  | some n => ⟨(s.data.drop pos).take n⟩

/-- `std::transform(s.begin(), s.end(), s.begin(), tolower)`. -/
def toLower (s : String) : String := ⟨s.data.map Char.toLower⟩

/-- The lexicographic comparison behind `std::string::compare`: the first position where the
strings differ decides, and a proper prefix is smaller. -/
def compareChars : List Char → List Char → Int
  | [], [] => 0
  | [], _ :: _ => -1
  | _ :: _, [] => 1
  | a :: as, b :: bs => if a = b then compareChars as bs else if a < b then -1 else 1

/-- `a.compare(b)`: zero when the strings are equal, negative or positive by their order. -/
def compare (a b : String) : Int := compareChars a.data b.data

end StdString

/-- `enum class ExportCommand`. -/
inductive ExportCommand where
  | All
  | Scripts
  | Textures
  | Fonts
  | Sounds
  | Music
  | Meshes
  | Level
  | Unknown
  deriving DecidableEq, Repr

/-- What `ExportCommandlet::OnCommand` has done when it returns early or reaches its `switch`:
the message about the root folder, the message about an unknown command, or the call of the
export function of `cmd` with the package list. -/
inductive OnCommandResult where
  | rootFolderEmpty
  | unknownCommand (args : String)
  | dispatch (cmd : ExportCommand) (packages : List String)
  deriving DecidableEq, Repr

/-- The variables the loop of `OnCommand` assigns. -/
structure SplitState where
  cmdArgs : String
  packages : List String
  deriving DecidableEq, Repr

/-- Modelled from the spec: `DebuggerApp`, `Commandlet`, `FilePath` and the engine are declared
outside the source files. The strings `NewLine()`, `console->NewLine()`, `ColorEscape(n)`
and `ResetEscape()`, the function `FilePath::combine`, the root folder of the game and the
external image compressor are given here. -/
structure CommandletEnv where
  NewLine : String
  consoleNewLine : String
  ColorEscape : Nat → String
  ResetEscape : String
  combine : String → String → String
  gameRootFolder : String
  compress : List Byte → Int → Int → List Byte

/-- The calls a commandlet makes to its collaborators, in the order of a run:
`console->WriteOutput`, `Directory::make_directory`, `File::write_all_bytes`, and the calls of
`Exporter::ExportTexture` (with the name of the texture and the extension) and of
`Exporter::ExportFont` (with the name of the font). -/
inductive CommandletCall where
  | WriteOutput (text : String)
  | make_directory (path : String)
  | write_all_bytes (filename : String) (bytes : List Byte)
  | ExportTexture (name ext : String)
  | ExportFont (name : String)
  deriving DecidableEq, Repr

/-- How a run of a commandlet function ends: it returns, an exporter throws, or an exporter
reaches undefined behaviour. -/
inductive RunEnd where
  | returned
  | thrown (err : ExportError)
  | undefined
  deriving DecidableEq, Repr

/-- A run of a commandlet function: its calls and its end. -/
structure Run where
  calls : List CommandletCall
  finish : RunEnd
  deriving DecidableEq, Repr

/-- A texture of a package with the answer of `tex->IsA("FractalTexture")`. -/
structure PackageTexture where
  texture : UTexture
  IsFractalTexture : Bool

/-- An entry of `packageObjects` in `ExportTextures`: the name of the package and the result of
`package->GetAllObjects<UTexture>()`. -/
structure TexturePackage where
  name : String
  textures : List PackageTexture

/-- A font of a package with `font->Name.ToString()`. -/
structure PackageFont where
  Name : String
  font : UFont

/-- An entry of `packageObjects` in `ExportFonts`: the name of the package and the result of
`package->GetAllObjects<UFont>()`. -/
structure FontPackage where
  name : String
  fonts : List PackageFont

namespace ExportCommandlet

/-- The table `commands` of `GetCommand`. -/
def commands : List (String × ExportCommand) :=
  [("all", .All), ("scripts", .Scripts), ("textures", .Textures), ("fonts", .Fonts),
   ("sounds", .Sounds), ("music", .Music), ("meshes", .Meshes), ("level", .Level)]

/-- `GetCommand`: the command of the first entry of the table that the lowercased word
equals. -/
def GetCommand (command : String) : ExportCommand :=
  let lowerCmd := StdString.toLower command
  match commands.find? (fun iter => StdString.compare lowerCmd iter.1 == 0) with
  | some iter => iter.2
  | none => .Unknown

/-- The body of the `do ... while` loop of `OnCommand`. -/
def OnCommand.splitBody (sep : Option Nat) (s : SplitState) : SplitState :=
  let cmdArgs := StdString.substr s.cmdArgs 0 sep
  { cmdArgs := cmdArgs, packages := s.packages ++ [cmdArgs] }

/-- The loop `do { ... } while (sep != std::string::npos);` of `OnCommand`, followed for at most
`fuel` iterations: `none` when the loop has not ended within them. -/
def OnCommand.splitLoop (sep : Option Nat) : Nat → SplitState → Option SplitState
  | 0, _ => none
  | fuel + 1, s =>
    let s := OnCommand.splitBody sep s
    if sep ≠ none then OnCommand.splitLoop sep fuel s else some s

/-- `ExportCommandlet::OnCommand` up to its `switch`. The loop is followed for at most `fuel`
iterations, and the result is `none` when it has not ended within them. -/
def OnCommand (fuel : Nat) (gameRootFolder : String) (args : String) :
    Option OnCommandResult :=
  if gameRootFolder = "" then some .rootFolderEmpty
  else
    let argsStripped :=
      StdString.substr args 0 (some (StdString.succ (StdString.find_last_not_of args ' ')))
    let argsSep := StdString.find_first_of argsStripped ' '
    let cmdString := StdString.substr argsStripped 0 argsSep
    let cmdArgs := StdString.substr argsStripped (StdString.succ argsSep) none
    let cmd := GetCommand cmdString
    if cmd = .Unknown then some (.unknownCommand args)
    else if argsStripped.length ≠ cmdArgs.length then
      let sep := StdString.find_first_of cmdArgs ' '
      (OnCommand.splitLoop sep fuel { cmdArgs := cmdArgs, packages := [] }).map
        (fun s => .dispatch cmd s.packages)
    else some (.dispatch cmd [])

/-- The list `formats`. -/
def formats : List String := ["bmp", "png"]

/-- The loop of `ExportTextures` and of `ExportFonts` that computes `validExt`:
`for (format : formats) if (format.compare(desiredExt)) { validExt = true; break; }`. -/
def validExt (desiredExt : String) : List String → Bool
  | [] => false
  | format :: rest =>
    if StdString.compare format desiredExt ≠ 0 then true else validExt desiredExt rest

/-- The prompt for the texture format in `ExportTextures` and `ExportFonts`. -/
def formatPrompt (env : CommandletEnv) : List CommandletCall :=
  [.WriteOutput ("Input desired texture format:" ++ env.consoleNewLine)]
    ++ formats.map (fun format => .WriteOutput ("\t" ++ format ++ env.consoleNewLine))

/-- The loop over the textures of one package in `ExportTextures`. -/
def ExportTextures.textures (env : CommandletEnv) (desiredExt pkgpath texturespath : String) :
    List PackageTexture → Bool → List CommandletCall → Run × Bool
  | [], pkgpathcreated, calls => (⟨calls, .returned⟩, pkgpathcreated)
  | tex :: rest, pkgpathcreated, calls =>
    let ext := if tex.IsFractalTexture then "fx" else desiredExt
    let calls := calls ++ [.ExportTexture tex.texture.Name ext]
    match Exporter.ExportTexture env.compress (some tex.texture) ext with
    | .thrown err _ => (⟨calls, .thrown err⟩, pkgpathcreated)
    | .undefined _ => (⟨calls, .undefined⟩, pkgpathcreated)
    | .returned stream =>
      if stream.data.length > 0 then
        let calls :=
          if !pkgpathcreated then
            calls ++ [.make_directory pkgpath, .make_directory texturespath]
          else calls
        let filename := env.combine texturespath (tex.texture.Name ++ "." ++ ext)
        ExportTextures.textures env desiredExt pkgpath texturespath rest true
          (calls ++ [.write_all_bytes filename stream.data])
      else
        ExportTextures.textures env desiredExt pkgpath texturespath rest pkgpathcreated calls

/-- The loop over `packageObjects` in `ExportTextures`. -/
def ExportTextures.packages (env : CommandletEnv) (desiredExt : String) :
    List TexturePackage → List CommandletCall → Run
  | [], calls => ⟨calls, .returned⟩
  | pkgobject :: rest, calls =>
    let name := pkgobject.name
    let pkgpath := env.combine env.gameRootFolder name
    let texturespath := env.combine pkgpath "Textures"
    let calls := calls ++ [.WriteOutput ("Exporting textures from " ++ env.ColorEscape 96
      ++ name ++ env.ResetEscape ++ env.NewLine)]
    match (ExportTextures.textures env desiredExt pkgpath texturespath pkgobject.textures
        false calls).1 with
    | ⟨calls, .returned⟩ => ExportTextures.packages env desiredExt rest calls
    | run => run

/-- `ExportCommandlet::ExportTextures` from the message about the packages on: `packages` is
its argument, `packageObjects` is the list its culling loop has built, and `input` is the
answer of `console->GetInput()`. -/
def ExportTextures (env : CommandletEnv) (packages : List String)
    (packageObjects : List TexturePackage) (input : String) : Run :=
  let calls : List CommandletCall :=
    if packages.length = 0 then [.WriteOutput ("Checking all packages..." ++ env.NewLine)]
    else []
  if packageObjects.length = 0 then
    ⟨calls ++ [.WriteOutput ("No textures found" ++ env.NewLine)], .returned⟩
  else
    let calls := calls ++ formatPrompt env
    let desiredExt := StdString.toLower input
    let validExt := validExt desiredExt formats
    if !validExt then
      ⟨calls ++ [.WriteOutput ("Unknown format " ++ desiredExt ++ env.consoleNewLine)],
        .returned⟩
    else ExportTextures.packages env desiredExt packageObjects calls

/-- The loop over the pages of a font in `ExportFonts`. -/
def ExportFonts.pages (env : CommandletEnv) (desiredExt path : String) :
    List FontPage → List CommandletCall → Run
  | [], calls => ⟨calls, .returned⟩
  | page :: rest, calls =>
    let calls := calls ++
      [.ExportTexture (match page.Texture with
        | some texture => texture.Name
        | none => "") desiredExt]
    match Exporter.ExportTexture env.compress page.Texture desiredExt with
    | .thrown err _ => ⟨calls, .thrown err⟩
    | .undefined _ => ⟨calls, .undefined⟩
    | .returned texstream =>
      match page.Texture with
      | none => ⟨calls, .undefined⟩
      | some texture =>
        let filename := env.combine path (texture.Name ++ "." ++ desiredExt)
        ExportFonts.pages env desiredExt path rest
          (calls ++ [.write_all_bytes filename texstream.data])

/-- The loop over the fonts of one package in `ExportFonts`. -/
def ExportFonts.fonts (env : CommandletEnv) (desiredExt pkgpath path : String) :
    List PackageFont → Bool → List CommandletCall → Run × Bool
  | [], pkgpathcreated, calls => (⟨calls, .returned⟩, pkgpathcreated)
  | font :: rest, pkgpathcreated, calls =>
    let calls := calls ++ [.ExportFont font.Name]
    match Exporter.ExportFont font.font with
    | .thrown err _ => (⟨calls, .thrown err⟩, pkgpathcreated)
    | .undefined _ => (⟨calls, .undefined⟩, pkgpathcreated)
    | .returned stream =>
      if stream.data.length > 0 then
        let calls :=
          if !pkgpathcreated then calls ++ [.make_directory pkgpath, .make_directory path]
          else calls
        let filename := env.combine path (font.Name ++ ".ufnt")
        let calls := calls ++ [.write_all_bytes filename stream.data]
        match ExportFonts.pages env desiredExt path font.font.Pages calls with
        | ⟨calls, .returned⟩ => ExportFonts.fonts env desiredExt pkgpath path rest true calls
        | run => (run, true)
      else ExportFonts.fonts env desiredExt pkgpath path rest pkgpathcreated calls

/-- The loop over `packageObjects` in `ExportFonts`. -/
def ExportFonts.packages (env : CommandletEnv) (desiredExt : String) :
    List FontPackage → List CommandletCall → Run
  | [], calls => ⟨calls, .returned⟩
  | pkgobject :: rest, calls =>
    let name := pkgobject.name
    let pkgpath := env.combine env.gameRootFolder name
    let path := env.combine pkgpath "Fonts"
    let calls := calls ++ [.WriteOutput ("Exporting fonts from " ++ env.ColorEscape 96
      ++ name ++ env.ResetEscape ++ env.NewLine)]
    match (ExportFonts.fonts env desiredExt pkgpath path pkgobject.fonts false calls).1 with
    | ⟨calls, .returned⟩ => ExportFonts.packages env desiredExt rest calls
    | run => run

/-- `ExportCommandlet::ExportFonts` from the message about the packages on, with the same
parameters as `ExportTextures`. -/
def ExportFonts (env : CommandletEnv) (packages : List String)
    (packageObjects : List FontPackage) (input : String) : Run :=
  let calls : List CommandletCall :=
    if packages.length = 0 then [.WriteOutput ("Checking all packages..." ++ env.NewLine)]
    else []
  if packageObjects.length = 0 then
    ⟨calls ++ [.WriteOutput ("No fonts found" ++ env.NewLine)], .returned⟩
  else
    let calls := calls ++ formatPrompt env
    let desiredExt := StdString.toLower input
    let validExt := validExt desiredExt formats
    if !validExt then
      ⟨calls ++ [.WriteOutput ("Unknown format " ++ desiredExt ++ env.consoleNewLine)],
        .returned⟩
    else ExportFonts.packages env desiredExt packageObjects calls

end ExportCommandlet

/-! ## Byte images and auxiliary definitions -/

open Exporter

/-- The 48 bytes `putDataHeader` emits for a header. -/
def U3DDataHeader.bytes (hdr : U3DDataHeader) : List Byte :=
  u16le hdr.NumPolygons ++ u16le hdr.NumVertices ++ u16le hdr.BogusRot ++ u16le hdr.BogusFrame
    ++ u32le hdr.BogusNormX ++ u32le hdr.BogusNormY ++ u32le hdr.BogusNormZ ++ u32le hdr.FixScale
    ++ (List.finRange 3).flatMap (fun i => u32le (hdr.Unused i))
    ++ (List.finRange 12).flatMap (fun i => [toByte (hdr.Unknown i)])

/-- The 16 bytes `putDataTriangle` emits for a triangle record. -/
def U3DDataTriangle.bytes (tri : U3DDataTriangle) : List Byte :=
  (List.finRange 3).flatMap (fun i => u16le (tri.Vertex i))
    ++ [toByte tri.Type_] ++ [toByte tri.Color]
    ++ (List.finRange 3).flatMap (fun i => [toByte (tri.VertexUV i 0), toByte (tri.VertexUV i 1)])
    ++ [toByte tri.TexNum] ++ [toByte tri.Flags]

/-- A writer whose cursor stands at the end of its content. -/
def MemoryStreamWriter.atEnd (d : List Byte) (c : Nat) : MemoryStreamWriter :=
  { data := d, pos := d.length, capacity := c }

/-- The wedge and material indices of every face lie inside the wedge and material tables. -/
def UMesh.LodIndicesInRange (mesh : UMesh) : Prop :=
  ∀ face ∈ mesh.Faces,
    (∀ k : Fin 3, face.Indices k < mesh.Wedges.length) ∧
      face.MaterialIndex < mesh.Materials.length

instance (mesh : UMesh) : Decidable mesh.LodIndicesInRange := by
  unfold UMesh.LodIndicesInRange; infer_instance

/-- The polygon count `ExportMeshData` checks: the face count of a `LodMesh`, the triangle count
of any other mesh. -/
def UMesh.polygonCount (mesh : UMesh) : Nat :=
  if mesh.ClassName = "LodMesh" then mesh.Faces.length else mesh.Tris.length

/-- The header `ExportMeshData` and `ExportLodMesh` write for `n` polygons. -/
def dataHeader (hdr : U3DDataHeader) (n : Nat) (frameVerts : Int) : U3DDataHeader :=
  { hdr with NumPolygons := n % 65536, NumVertices := toU16 frameVerts }

/-- The bytes `ExportLodMesh` writes for face `i` (nothing when a read misses its array). -/
def lodRecordBytes (pf : PolyFlagMasks) (mesh : UMesh) (i : Nat) : List Byte :=
  match lodRecord pf mesh i with
  | some tri => tri.bytes
  | none => []

/-- The 54 bytes `putBmpHeader` emits for a header. -/
def BmpHeader.bytes (bmp : BmpHeader) : List Byte :=
  u16le bmp.signature ++ u32le bmp.fileSize ++ u32le bmp.reserved ++ u32le bmp.pixelOffset
    ++ u32le bmp.dibHeaderSize ++ u32le bmp.imageWidth ++ u32le bmp.imageHeight
    ++ u16le bmp.planes ++ u16le bmp.bitCount ++ u32le bmp.compression ++ u32le bmp.imageSize
    ++ u32le bmp.pixelsPerMeterX ++ u32le bmp.pixelsPerMeterY ++ u32le bmp.colorsUsed
    ++ u32le bmp.colorsImportant

/-- The word `bgra` that the palette loop of `ExportBmpIndexed` forms from a packed colour. -/
def bgraWord (rgba : Nat) : Nat :=
  ((UnpackRgba rgba).b ||| ((UnpackRgba rgba).g <<< 8) ||| ((UnpackRgba rgba).r <<< 16)
    ||| ((UnpackRgba rgba).a <<< 24)) % 4294967296

/-- The 1024 bytes of the palette table of the indexed bitmap. -/
def bmpPaletteBytes (colors : List Nat) : List Byte :=
  (List.range 256).flatMap (fun i => u32le (bgraWord (colors.getD i 0)))

/-- Row `sy` of the source buffer, `w` bytes from offset `sy * w`. -/
def bmpRowBytes (pixels : List Byte) (w sy : Nat) : List Byte :=
  (List.range w).flatMap (fun x => [pixels.getD (sy * w + x) 0])

/-- The pixel section of the indexed bitmap: the `h` rows of the source, last row first. -/
def bmpPixelBytes (pixels : List Byte) (w h : Nat) : List Byte :=
  (List.range h).flatMap (fun r => bmpRowBytes pixels w (h - 1 - r))

/-- The header `ExportBmpIndexed` writes over the first one after the rewind, for a `w` by `h`
image: the pixel offset is the cursor after the palette, the file size the cursor after the
pixel rows. -/
def ExportBmpIndexed.finalHeader (tex : UTexture) (w h : Nat) : BmpHeader :=
  { ExportBmpIndexed.initialHeader tex with pixelOffset := 1078, fileSize := 1078 + w * h }

/-- The conversion `(int)` of the value is defined: its truncation is a 32-bit `int`. -/
def FloatVal.FitsInt (f : FloatVal) : Prop :=
  -2147483648 ≤ f.trunc ∧ f.trunc ≤ 2147483647

instance (f : FloatVal) : Decidable f.FitsInt := by
  unfold FloatVal.FitsInt; infer_instance

/-- The three conversions `ExportMeshAnim` applies to a vertex are defined. -/
def vec3.FitsInt (v : vec3) : Prop :=
  (v.x.neg.scale 3).FitsInt ∧ (v.y.neg.scale 3).FitsInt ∧ (v.z.scale 2).FitsInt

instance (v : vec3) : Decidable v.FitsInt := by
  unfold vec3.FitsInt; infer_instance

/-- The packed word written in terms of residues: the low 11 bits of `a`, of `b` and the low
10 bits of `c`, placed at bit 0, bit 11 and bit 22. -/
def packedWord (a b c : Int) : Nat :=
  (a % 2048).toNat + 2048 * (b % 2048).toNat + 4194304 * (c % 1024).toNat

/-- The 4 bytes of the header of the vertex-animation stream. -/
def U3DAnivHeader.bytes (hdr : U3DAnivHeader) : List Byte :=
  u16le hdr.NumFrames ++ u16le hdr.FrameSize

/-- The packed word of the vertex at position `idx` of the vertex buffer (0 if there is none). -/
def vertexWord (verts : List vec3) (idx : Nat) : Nat :=
  match verts[idx]? with
  | some v => (packVertex v).getD 0
  | none => 0


/-- The character is the all-zero entry that marks an unused slot of a font page. -/
def FontCharacter.isSentinel (c : FontCharacter) : Bool :=
  decide (c.StartU = 0 ∧ c.StartV = 0 ∧ c.USize = 0 ∧ c.VSize = 0)

/-- The name of the texture of a font page, empty when the page has none. -/
def FontPage.textureName (page : FontPage) : String :=
  match page.Texture with
  | none => ""
  | some texture => texture.Name

/-- The bytes of a font export whose pages hold the bytes `body page` between the line of the
texture and the line that ends the page. -/
def fontBytes (font : UFont) (body : FontPage → List Byte) : List Byte :=
  strBytes "BEGIN OBJECT CLASS=Font\r\n"
    ++ font.Pages.flatMap (fun page =>
        strBytes "\tBEGIN PAGE\r\n"
          ++ strBytes ("\t\tTexture=\x27" ++ page.textureName ++ "\x27\r\n")
          ++ body page
          ++ strBytes "\tEND PAGE\r\n")
    ++ strBytes "END OBJECT\r\n"

/-- The text `Exporter::ExportFont` writes after the label of a character: the four pieces the
source appends, in its order. -/
def fontCharFields (c : FontCharacter) : String :=
  "(StartU=" ++ toString c.StartU ++ "," ++ ("StartV=" ++ toString c.StartV ++ ",")
    ++ ("USize=" ++ toString c.VSize ++ ",") ++ ("VSize=" ++ toString c.USize ++ ")\r\n")

/-- The bytes `ExportFont.character` appends for the character `c` at position `i`. -/
def fontCharBytes (i : Nat) (c : FontCharacter) : List Byte :=
  if c.isSentinel then [] else strBytes ("\t\tChar" ++ toString i ++ fontCharFields c)

/-- The triangle of the generic exporter that stands for a face of a LOD mesh, in the words of
the specification: its vertex index k is `Wedges[face.Indices[k]].Vertex`, its UV k is
`(Wedges[face.Indices[k]].U, Wedges[face.Indices[k]].V)`, and its polygon flags and texture
index are those of `Materials[face.MaterialIndex]`. There is none when an index lies outside
its table. -/
def lodFaceTriangle (mesh : UMesh) (face : MeshFace) : Option MeshTri :=
  match mesh.Wedges[face.Indices 0]?, mesh.Wedges[face.Indices 1]?,
      mesh.Wedges[face.Indices 2]?, mesh.Materials[face.MaterialIndex]? with
  | some w0, some w1, some w2, some mat =>
    some
      { Indices := fun k => (![w0, w1, w2] k).Vertex
        UV := fun k => ⟨(![w0, w1, w2] k).U, (![w0, w1, w2] k).V⟩
        PolyFlags := mat.PolyFlags
        TextureIndex := mat.TextureIndex }
  | _, _, _, _ => none

/-- The packed colour `GetImageP8` writes for the pixel at position `idx` of the first mip
level: the palette entry selected by the index byte there (0 when a read misses its array). -/
def p8Color (tex : UTexture) (idx : Nat) : Nat :=
  match tex.Mipmaps[0]?, tex.Palette with
  | some mip, some palette =>
    match mip.Data[idx]? with
    | some color => palette.Colors.getD color.val 0
    | none => 0
  | _, _ => 0

/-- The line of one colour in the text block of a procedural texture: the label, the number
`n`, and the unpacked components of `rgba` in decimal, ended by CR LF. -/
def colorLine (label : String) (n : Nat) (rgba : Nat) : String :=
  label ++ toString n ++ "=(R=" ++ toString (UnpackRgba rgba).r
    ++ ",G=" ++ toString (UnpackRgba rgba).g ++ ",B=" ++ toString (UnpackRgba rgba).b
    ++ ",A=" ++ toString (UnpackRgba rgba).a ++ ")\r\n"

/-- The first bytes of the text block of a procedural texture: the line `BEGIN OBJECT` with the
class tag and the dimensions, and the serialized properties of the texture. -/
def proceduralHead (classTag : String) (tex : UTexture) : List Byte :=
  strBytes ("BEGIN OBJECT CLASS=" ++ classTag ++ " USIZE=" ++ toString tex.USize
      ++ " VSIZE=" ++ toString tex.VSize ++ "\r\n")
    ++ strBytes (ExportObject tex.toUObject 1 false)

/-- The five lines of the first loop of a procedural-texture writer, when the word in front of
the palette is `before`: `Color1` shows that word, and `ColorN` for N = 2..5 shows the entry
at index 64 * (N - 1) - 1. -/
def proceduralSampleBytes (palette : UPalette) (before : Nat) : List Byte :=
  strBytes (colorLine "\tColor" 1 before)
    ++ (List.range' 2 4).flatMap (fun n =>
        strBytes (colorLine "\tColor" n (palette.Colors.getD (64 * (n - 1) - 1) 0)))

/-- The bytes of the second loop of a procedural-texture writer and of its last line: the 256
palette entries under the label `paletteLabel`, numbered from 1, and `END OBJECT`. -/
def proceduralDumpBytes (paletteLabel : String) (palette : UPalette) : List Byte :=
  (List.range 256).flatMap (fun i =>
      strBytes (colorLine paletteLabel (i + 1) (palette.Colors.getD i 0)))
    ++ strBytes "END OBJECT\r\n"
/-! ## Sample assets -/

namespace Sample

/-- The polygon-flag masks of the Unreal engine: `PF_TwoSided = 0x100`, `PF_Modulated = 0x40`,
`PF_Masked = 0x2`, `PF_Translucent = 0x4`. -/
def polyFlags : PolyFlagMasks :=
  { PF_TwoSided := 0x100, PF_Modulated := 0x40, PF_Masked := 0x2, PF_Translucent := 0x4 }

/-- A header whose unassigned fields happen to be zero. -/
def zeroHeader : U3DDataHeader :=
  { NumPolygons := 0, NumVertices := 0, BogusRot := 0, BogusFrame := 0, BogusNormX := 0,
    BogusNormY := 0, BogusNormZ := 0, FixScale := 0, Unused := fun _ => 0, Unknown := fun _ => 0 }

/-- A two-sided, modulated triangle. -/
def triangle : MeshTri :=
  { Indices := ![0, 1, 2], UV := ![⟨10, 11⟩, ⟨12, 13⟩, ⟨14, 15⟩], PolyFlags := 0x140,
    TextureIndex := 5 }

/-- A generic mesh of one frame with the single vertex `(1.0, 2.0, 3.0)` and two triangles. -/
def mesh : UMesh :=
  { Name := "Cube", ClassName := "Mesh"
    Verts := [⟨⟨1, 0⟩, ⟨1, 1⟩, ⟨3, 0⟩⟩]
    Tris := [triangle, triangle]
    AnimFrames := 1, FrameVerts := 1
    Faces := [], Wedges := [], Materials := [], SpecialFaces := [] }

/-- A generic mesh with 65536 triangles. -/
def bigMesh : UMesh := { mesh with Tris := List.replicate 65536 triangle }

/-- A LOD mesh with two faces over three wedges, one two-sided material and one special face. -/
def lodMesh : UMesh :=
  { Name := "Gun", ClassName := "LodMesh"
    Verts := [], Tris := []
    AnimFrames := 1, FrameVerts := 3
    Faces := [⟨![0, 1, 2], 0⟩, ⟨![2, 1, 0], 0⟩]
    Wedges := [⟨0, 1, 2⟩, ⟨1, 3, 4⟩, ⟨2, 5, 6⟩]
    Materials := [⟨0x100, 7⟩]
    SpecialFaces := [⟨![0, 1, 2], 0⟩] }

/-- An object without exported properties. -/
def object : UObject :=
  { Name := "Tex", Properties := [], ClassIsOwnClass := false,
    ClassGetPropertyAsString := fun _ => "", GetPropertyAsString := fun _ => "" }

/-- A 256-entry palette; entry `i` packs `R = i`, `G = 2i`, `B = 3i` (mod 256), `A = 255 - i`. -/
def palette : UPalette :=
  { Colors := (List.range 256).map
      (fun i => i + 256 * (2 * i % 256) + 65536 * (3 * i % 256) + 16777216 * (255 - i)) }

/-- A 2 by 2 paletted texture whose top row is `1 2` and whose bottom row is `3 4`. -/
def texture : UTexture :=
  { Name := "Tex", ClassName := "Texture", ActualFormat := TextureFormat.P8
    USize := 2, VSize := 2
    Palette := some palette
    Mipmaps := [⟨[1, 2, 3, 4]⟩]
    toUObject := object }

/-- The same texture in a pixel format other than P8. -/
def rgbaTexture : UTexture := { texture with ActualFormat := TextureFormat.other 5 }

/-- A compressor that produces nothing; it stands in for the external library. -/
def noCompress : List Byte → Int → Int → List Byte := fun _ _ _ => []

end Sample


namespace Sample

/-- A font of one page on the sample texture. The slots 0 and 2 are unused; the character at
position 1 has `StartU = 1`, `StartV = 2`, `USize = 3`, `VSize = 4`, and the one at position 3
has only `VSize = 5`. -/
def font : UFont :=
  { Pages := [{ Texture := some texture
                Characters := [⟨0, 0, 0, 0⟩, ⟨1, 2, 3, 4⟩, ⟨0, 0, 0, 0⟩, ⟨0, 0, 0, 5⟩] }] }

end Sample

namespace Sample

/-- An exported property named Tag whose export text shows the value "Tex". -/
def tagProperty : UProperty :=
  { Name := "Tag", ArrayDimension := 1, Exported := true,
    GetExportText := fun tabs _ _ => tabs ++ "Tag=Tex\r\n" }

/-- An object named "Tex" whose own Tag is "Tex", of a class whose Tag is "Texture". -/
def taggedObject : UObject :=
  { Name := "Tex", Properties := [tagProperty], ClassIsOwnClass := false,
    ClassGetPropertyAsString := fun _ => "Texture", GetPropertyAsString := fun _ => "Tex" }

/-- An exported property named Tag whose export text shows the value "Lamp". -/
def lampTagProperty : UProperty :=
  { Name := "Tag", ArrayDimension := 1, Exported := true,
    GetExportText := fun tabs _ _ => tabs ++ "Tag=Lamp\r\n" }

/-- An object named "Tex" whose own Tag is "Lamp", of a class whose Tag is "Tex". -/
def retaggedObject : UObject :=
  { Name := "Tex", Properties := [lampTagProperty], ClassIsOwnClass := false,
    ClassGetPropertyAsString := fun _ => "Tex", GetPropertyAsString := fun _ => "Lamp" }

/-- A class with a script text, whose default object has no exported properties. -/
def scriptClass : UClass :=
  { ScriptText := some ⟨"class Lamp expands Actor;"⟩, DefaultObject := object }

end Sample

namespace Sample

/-- The sample texture as a texture of the class FireTexture. -/
def fireTexture : UTexture := { texture with ClassName := "FireTexture" }

end Sample

namespace Sample

/-- A generic mesh of one frame with 16384 vertices at the origin. -/
def wideMesh : UMesh :=
  { mesh with Verts := List.replicate 16384 ⟨⟨0, 0⟩, ⟨0, 0⟩, ⟨0, 0⟩⟩, FrameVerts := 16384 }

end Sample

namespace Sample

/-- The sample mesh as a mesh of the class SkeletalMesh, with its vertices and triangles. -/
def skeletalMesh : UMesh := { mesh with ClassName := "SkeletalMesh" }

/-- A header whose unassigned fields hold other values than those of `zeroHeader`. -/
def staleHeader : U3DDataHeader :=
  { NumPolygons := 7, NumVertices := 7, BogusRot := 65535, BogusFrame := 65535,
    BogusNormX := 4294967295, BogusNormY := 4294967295, BogusNormZ := 4294967295,
    FixScale := 4294967295, Unused := fun _ => 4294967295, Unknown := fun _ => 255 }

end Sample

namespace Sample

/-- An environment with plain strings: the new line is a line feed, there are no colour
escapes, and paths are joined with a slash. -/
def env : CommandletEnv :=
  { NewLine := "\n", consoleNewLine := "\n", ColorEscape := fun _ => "", ResetEscape := "",
    combine := fun a b => a ++ "/" ++ b, gameRootFolder := "Game", compress := noCompress }

/-- A package with the sample texture, which is not a fractal texture. -/
def texturePackage : TexturePackage := { name := "Pkg", textures := [⟨texture, false⟩] }

/-- A package with the sample font. -/
def fontPackage : FontPackage := { name := "Pkg", fonts := [⟨"Font", font⟩] }

end Sample
/-! ## Lemmas on the writer and the loops -/

namespace MemoryStreamWriter

theorem empty_eq_atEnd : ({} : MemoryStreamWriter) = atEnd [] 0 := rfl

theorem Write_atEnd (d : List Byte) (c : Nat) (b : List Byte) :
    (atEnd d c).Write b = atEnd (d ++ b) c := by
  simp [Write, atEnd]

theorem putU8_atEnd (d : List Byte) (c : Nat) (b : Byte) :
    (atEnd d c).putU8 b = atEnd (d ++ [b]) c := Write_atEnd d c [b]

theorem putU16_atEnd (d : List Byte) (c : Nat) (n : Nat) :
    (atEnd d c).putU16 n = atEnd (d ++ u16le n) c := Write_atEnd d c _

theorem putU32_atEnd (d : List Byte) (c : Nat) (n : Nat) :
    (atEnd d c).putU32 n = atEnd (d ++ u32le n) c := Write_atEnd d c _

theorem putStr_atEnd (d : List Byte) (c : Nat) (t : String) :
    (atEnd d c).putStr t = atEnd (d ++ strBytes t) c := Write_atEnd d c _

theorem foldl_Write_atEnd {α : Type} (f : α → List Byte) (l : List α) (d : List Byte) (c : Nat) :
    l.foldl (fun s x => s.Write (f x)) (atEnd d c) = atEnd (d ++ l.flatMap f) c := by
  induction l generalizing d with
  | nil => simp
  | cons x xs ih => simp [Write_atEnd, ih, List.append_assoc]

theorem putDataHeader_atEnd (d : List Byte) (c : Nat) (hdr : U3DDataHeader) :
    (atEnd d c).putDataHeader hdr = atEnd (d ++ hdr.bytes) c := by
  simp only [putDataHeader, putU16, putU32, putU8, Write_atEnd, foldl_Write_atEnd,
    U3DDataHeader.bytes, List.append_assoc]

theorem putDataTriangle_atEnd (d : List Byte) (c : Nat) (tri : U3DDataTriangle) :
    (atEnd d c).putDataTriangle tri = atEnd (d ++ tri.bytes) c := by
  simp only [putDataTriangle, putU16, putU8, Write_atEnd, foldl_Write_atEnd,
    U3DDataTriangle.bytes, List.append_assoc]

end MemoryStreamWriter

theorem length_u16le (n : Nat) : (u16le n).length = 2 := rfl

theorem length_u32le (n : Nat) : (u32le n).length = 4 := rfl

theorem length_flatMap_const {α β : Type} (f : α → List β) (n : Nat) (l : List α)
    (h : ∀ x ∈ l, (f x).length = n) : (l.flatMap f).length = n * l.length := by
  induction l with
  | nil => simp
  | cons x xs ih =>
    simp only [List.flatMap_cons, List.length_append, List.length_cons]
    rw [ih (fun y hy => h y (List.mem_cons_of_mem _ hy)), h x (List.mem_cons_self _ _)]
    ring

theorem length_dataHeaderBytes (hdr : U3DDataHeader) : hdr.bytes.length = 48 := by
  simp only [U3DDataHeader.bytes, List.length_append, length_u16le, length_u32le]
  rw [length_flatMap_const (fun i => u32le (hdr.Unused i)) 4 _ (fun _ _ => rfl),
    length_flatMap_const (fun i => [toByte (hdr.Unknown i)]) 1 _ (fun _ _ => rfl)]
  simp

theorem length_triangleBytes (tri : U3DDataTriangle) : tri.bytes.length = 16 := by
  simp only [U3DDataTriangle.bytes, List.length_append, List.length_cons, List.length_nil]
  rw [length_flatMap_const (fun i => u16le (tri.Vertex i)) 2 _ (fun _ _ => rfl),
    length_flatMap_const (fun i => [toByte (tri.VertexUV i 0), toByte (tri.VertexUV i 1)]) 2 _
      (fun _ _ => rfl)]
  simp

@[simp] theorem Outcome.andThen_returned (s : MemoryStreamWriter)
    (k : MemoryStreamWriter → Outcome) : (Outcome.returned s).andThen k = k s := rfl

@[simp] theorem Outcome.andThen_thrown (e : ExportError) (w : MemoryStreamWriter)
    (k : MemoryStreamWriter → Outcome) : (Outcome.thrown e w).andThen k = .thrown e w := rfl

@[simp] theorem Outcome.andThen_undefined (w : MemoryStreamWriter)
    (k : MemoryStreamWriter → Outcome) : (Outcome.undefined w).andThen k = .undefined w := rfl

theorem forUp_atEnd (body : Nat → MemoryStreamWriter → Outcome) (f : Nat → List Byte) (c : Nat) :
    ∀ (n start : Nat) (d : List Byte),
      (∀ i, start ≤ i → i < start + n → ∀ d1,
        body i (MemoryStreamWriter.atEnd d1 c) = .returned (MemoryStreamWriter.atEnd (d1 ++ f i) c)) →
      forUp body n start (MemoryStreamWriter.atEnd d c)
        = .returned (MemoryStreamWriter.atEnd (d ++ (List.range' start n).flatMap f) c)
  | 0, _, d, _ => by simp [forUp]
  | n + 1, start, d, h => by
    have h0 := h start (Nat.le_refl _) (by omega) d
    have ih := forUp_atEnd body f c n (start + 1) (d ++ f start)
      (fun i hi1 hi2 d1 => h i (by omega) (by omega) d1)
    simp only [forUp, h0, Outcome.andThen_returned, ih, List.range'_succ, List.flatMap_cons,
      List.append_assoc]

theorem forUp_not_thrown (body : Nat → MemoryStreamWriter → Outcome)
    (hb : ∀ i s e w, body i s ≠ .thrown e w) :
    ∀ (n start : Nat) (s : MemoryStreamWriter) e w, forUp body n start s ≠ .thrown e w
  | 0, _, s, e, w => by simp [forUp]
  | n + 1, start, s, e, w => by
    simp only [forUp]
    cases hbs : body start s with
    | returned s1 => exact forUp_not_thrown body hb n (start + 1) s1 e w
    | thrown e1 w1 => exact absurd hbs (hb _ _ _ _)
    | undefined w1 => simp

theorem forUp_returned_body (body : Nat → MemoryStreamWriter → Outcome) :
    ∀ (n start : Nat) (s out : MemoryStreamWriter), forUp body n start s = .returned out →
      ∀ i, start ≤ i → i < start + n → ∃ s1 s2, body i s1 = .returned s2
  | 0, _, _, _, _, i, h1, h2 => by omega
  | n + 1, start, s, out, h, i, h1, h2 => by
    simp only [forUp] at h
    cases hb : body start s with
    | returned s1 =>
      rw [hb] at h
      by_cases hi : i = start
      · exact ⟨s, s1, hi ▸ hb⟩
      · exact forUp_returned_body body n (start + 1) s1 out h i (by omega) (by omega)
    | thrown e w => rw [hb] at h; simp at h
    | undefined w => rw [hb] at h; simp at h

theorem getElem?_flatMap_const {α β : Type} (f : α → List β) (n : Nat) :
    ∀ (l : List α), (∀ x ∈ l, (f x).length = n) → ∀ (i j : Nat) (x : α), l[i]? = some x → j < n →
      (l.flatMap f)[n * i + j]? = (f x)[j]?
  | [], _, i, j, x, hx, _ => by simp at hx
  | y :: ys, h, 0, j, x, hx, hj => by
    simp only [List.getElem?_cons_zero, Option.some.injEq] at hx
    subst hx
    have hl := h y (List.mem_cons_self _ _)
    simp only [List.flatMap_cons, Nat.mul_zero, Nat.zero_add]
    rw [List.getElem?_append_left (by omega)]
  | y :: ys, h, i + 1, j, x, hx, hj => by
    simp only [List.getElem?_cons_succ] at hx
    have hl := h y (List.mem_cons_self _ _)
    have ih := getElem?_flatMap_const f n ys (fun z hz => h z (List.mem_cons_of_mem _ hz)) i j x hx hj
    simp only [List.flatMap_cons]
    rw [List.getElem?_append_right (by rw [hl]; nlinarith), hl, ← ih]
    congr 1
    rw [Nat.mul_add]; omega

theorem foldl_putDataTriangle_atEnd {α : Type} (g : α → U3DDataTriangle) (l : List α)
    (d : List Byte) (c : Nat) :
    l.foldl (fun data x => data.putDataTriangle (g x)) (MemoryStreamWriter.atEnd d c)
      = MemoryStreamWriter.atEnd (d ++ l.flatMap (fun x => (g x).bytes)) c := by
  induction l generalizing d with
  | nil => simp
  | cons x xs ih => simp [MemoryStreamWriter.putDataTriangle_atEnd, ih, List.append_assoc]

theorem ExportMeshData_generic (pf : PolyFlagMasks) (hdr : U3DDataHeader) (mesh : UMesh)
    (hl : mesh.ClassName ≠ "LodMesh") (hs : mesh.ClassName ≠ "SkeletalMesh")
    (hn : mesh.Tris.length ≤ 65535) :
    ExportMeshData pf hdr (some mesh) = .returned (MemoryStreamWriter.atEnd
      ((dataHeader hdr mesh.Tris.length mesh.FrameVerts).bytes
        ++ mesh.Tris.flatMap (fun mt => (meshRecord pf mt).bytes)) 0) := by
  have hn1 : ¬ mesh.Tris.length > UINT16_MAX := by simp [UINT16_MAX]; omega
  simp only [ExportMeshData, hl, hs, hn1, if_false, MemoryStreamWriter.empty_eq_atEnd,
    MemoryStreamWriter.putDataHeader_atEnd, List.nil_append, foldl_putDataTriangle_atEnd,
    dataHeader]

theorem lodRecord_isSome (pf : PolyFlagMasks) (mesh : UMesh) (hr : mesh.LodIndicesInRange)
    (i : Nat) (hi : i < mesh.Faces.length) : ∃ tri, lodRecord pf mesh i = some tri := by
  have hf : mesh.Faces[i]? = some mesh.Faces[i] := List.getElem?_eq_getElem hi
  obtain ⟨hw, hm⟩ := hr mesh.Faces[i] (List.getElem_mem _)
  have h0 := List.getElem?_eq_getElem (hw 0)
  have h1 := List.getElem?_eq_getElem (hw 1)
  have h2 := List.getElem?_eq_getElem (hw 2)
  have h3 := List.getElem?_eq_getElem hm
  simp only [lodRecord, hf, h0, h1, h2, h3]
  exact ⟨_, rfl⟩

theorem ExportLodMesh_returned (pf : PolyFlagMasks) (hdr : U3DDataHeader) (mesh : UMesh)
    (hn : mesh.Faces.length ≤ 65535)
    (hr : ∀ i, i < mesh.Faces.length → ∃ tri, lodRecord pf mesh i = some tri) :
    ExportLodMesh pf hdr mesh = .returned (MemoryStreamWriter.atEnd
      ((dataHeader hdr mesh.Faces.length mesh.FrameVerts).bytes
        ++ (List.range mesh.Faces.length).flatMap (lodRecordBytes pf mesh)) 0) := by
  have hn1 : ¬ mesh.Faces.length > UINT16_MAX := by simp [UINT16_MAX]; omega
  simp only [ExportLodMesh, hn1, if_false, MemoryStreamWriter.empty_eq_atEnd,
    MemoryStreamWriter.putDataHeader_atEnd, List.nil_append]
  rw [forUp_atEnd _ (lodRecordBytes pf mesh) 0 mesh.Faces.length 0]
  · rw [List.range_eq_range']; rfl
  · intro i _ hi d1
    obtain ⟨tri, ht⟩ := hr i (by omega)
    simp only [ht, lodRecordBytes, MemoryStreamWriter.putDataTriangle_atEnd]

theorem ExportLodMesh_returned_inv (pf : PolyFlagMasks) (hdr : U3DDataHeader) (mesh : UMesh)
    (out : MemoryStreamWriter) (h : ExportLodMesh pf hdr mesh = .returned out) :
    mesh.Faces.length ≤ 65535 ∧
      ∀ i, i < mesh.Faces.length → ∃ tri, lodRecord pf mesh i = some tri := by
  by_cases hn1 : mesh.Faces.length > UINT16_MAX
  · simp [ExportLodMesh, hn1] at h
  · simp only [ExportLodMesh, hn1, if_false] at h
    refine ⟨by simp [UINT16_MAX] at hn1; omega, fun i hi => ?_⟩
    obtain ⟨s1, s2, hb⟩ := forUp_returned_body _ _ _ _ _ h i (Nat.zero_le _) (by omega)
    cases ht : lodRecord pf mesh i with
    | none => rw [ht] at hb; simp at hb
    | some tri => exact ⟨tri, rfl⟩

theorem ExportLodMesh_not_thrown_of_le (pf : PolyFlagMasks) (hdr : U3DDataHeader) (mesh : UMesh)
    (hn : mesh.Faces.length ≤ 65535) (e : ExportError) (w : MemoryStreamWriter) :
    ExportLodMesh pf hdr mesh ≠ .thrown e w := by
  have hn1 : ¬ mesh.Faces.length > UINT16_MAX := by simp [UINT16_MAX]; omega
  simp only [ExportLodMesh, hn1, if_false]
  apply forUp_not_thrown
  intro i s e w
  cases lodRecord pf mesh i <;> simp

/-- Claim C1. For a generic mesh (counted by its triangle list) and for a LOD mesh (counted by
its face list), `ExportMeshData` leaves through the too-many-triangles error exactly when the
polygon count exceeds 65535; whenever it throws, the error is that one, it names the count and
the mesh, and the output writer is still empty (no header byte has been written). -/
theorem ExportMeshData_tooManyTriangles_iff (pf : PolyFlagMasks) (hdr : U3DDataHeader)
    (mesh : UMesh) (hs : mesh.ClassName ≠ "SkeletalMesh") :
    ((∃ n name w, ExportMeshData pf hdr (some mesh) = .thrown (.tooManyTriangles n name) w)
        ↔ 65535 < mesh.polygonCount) ∧
      (∀ e w, ExportMeshData pf hdr (some mesh) = .thrown e w →
        e = .tooManyTriangles mesh.polygonCount mesh.Name ∧ w = {}) := by
  by_cases hl : mesh.ClassName = "LodMesh"
  · have hE : ExportMeshData pf hdr (some mesh) = ExportLodMesh pf hdr mesh := by
      simp [ExportMeshData, hl]
    have hc : mesh.polygonCount = mesh.Faces.length := by simp [UMesh.polygonCount, hl]
    rw [hE, hc]
    by_cases hn : mesh.Faces.length ≤ 65535
    · have hnt := ExportLodMesh_not_thrown_of_le pf hdr mesh hn
      refine ⟨⟨fun ⟨n, name, w, h⟩ => absurd h (hnt _ _), fun h => by omega⟩,
        fun e w h => absurd h (hnt _ _)⟩
    · have hn1 : mesh.Faces.length > UINT16_MAX := by simp [UINT16_MAX]; omega
      have hT : ExportLodMesh pf hdr mesh
          = .thrown (.tooManyTriangles mesh.Faces.length mesh.Name) {} := by
        simp [ExportLodMesh, hn1]
      rw [hT]
      refine ⟨⟨fun _ => by omega, fun _ => ⟨_, _, _, rfl⟩⟩, fun e w h => ?_⟩
      simp only [Outcome.thrown.injEq] at h
      exact ⟨h.1.symm, h.2.symm⟩
  · have hc : mesh.polygonCount = mesh.Tris.length := by simp [UMesh.polygonCount, hl]
    rw [hc]
    by_cases hn : mesh.Tris.length ≤ 65535
    · rw [ExportMeshData_generic pf hdr mesh hl hs hn]
      refine ⟨⟨fun ⟨n, name, w, h⟩ => by simp at h, fun h => by omega⟩, fun e w h => by simp at h⟩
    · have hn1 : mesh.Tris.length > UINT16_MAX := by simp [UINT16_MAX]; omega
      have hT : ExportMeshData pf hdr (some mesh)
          = .thrown (.tooManyTriangles mesh.Tris.length mesh.Name) {} := by
        simp [ExportMeshData, hl, hs, hn1]
      rw [hT]
      refine ⟨⟨fun _ => by omega, fun _ => ⟨_, _, _, rfl⟩⟩, fun e w h => ?_⟩
      simp only [Outcome.thrown.injEq] at h
      exact ⟨h.1.symm, h.2.symm⟩

theorem U3DDataTriangle.bytes_eq (tri : U3DDataTriangle) :
    tri.bytes = [toByte (tri.Vertex 0), toByte (tri.Vertex 0 / 256),
      toByte (tri.Vertex 1), toByte (tri.Vertex 1 / 256),
      toByte (tri.Vertex 2), toByte (tri.Vertex 2 / 256),
      toByte tri.Type_, toByte tri.Color,
      toByte (tri.VertexUV 0 0), toByte (tri.VertexUV 0 1),
      toByte (tri.VertexUV 1 0), toByte (tri.VertexUV 1 1),
      toByte (tri.VertexUV 2 0), toByte (tri.VertexUV 2 1),
      toByte tri.TexNum, toByte tri.Flags] := rfl

theorem U3DDataTriangle.bytes_type (tri : U3DDataTriangle) :
    tri.bytes[6]? = some (toByte tri.Type_) := rfl

/-- Byte `j` of record `i` of a stream made of a 48-byte header and 16-byte records. -/
theorem getElem?_header_records {α : Type} (hb : List Byte) (hh : hb.length = 48)
    (f : α → List Byte) (l : List α) (hf : ∀ x ∈ l, (f x).length = 16) (i j : Nat) (x : α)
    (hx : l[i]? = some x) (hj : j < 16) :
    (hb ++ l.flatMap f)[48 + 16 * i + j]? = (f x)[j]? := by
  rw [List.getElem?_append_right (by omega), hh,
    ← getElem?_flatMap_const f 16 l hf i j x hx hj]
  congr 1
  omega

/-- Claim C2. In the stream `ExportMeshData` returns for a generic mesh (it returns one whenever
the mesh has at most 65535 triangles), the type-code byte of the record of triangle `i` (offset
6 of the 16-byte record at `48 + 16 * i`) is ModulatedTwoSided (4) when TwoSided and Modulated
are set, otherwise MaskedTwoSided (3) when TwoSided and Masked are set, otherwise Translucent
(2) when TwoSided and Translucent are set, otherwise TwoSided (1) when TwoSided is set, and
Normal (0) whenever TwoSided is unset, whatever the other three bits are. -/
theorem ExportMeshData_typeCode (pf : PolyFlagMasks) (hdr : U3DDataHeader) (mesh : UMesh)
    (hl : mesh.ClassName ≠ "LodMesh") (hs : mesh.ClassName ≠ "SkeletalMesh")
    (i : Nat) (mt : MeshTri) (hi : mesh.Tris[i]? = some mt) :
    (mesh.Tris.length ≤ 65535 → ∃ out, ExportMeshData pf hdr (some mesh) = .returned out) ∧
    ∀ out, ExportMeshData pf hdr (some mesh) = .returned out →
      (mt.PolyFlags &&& pf.PF_TwoSided ≠ 0 → mt.PolyFlags &&& pf.PF_Modulated ≠ 0 →
        out.data[48 + 16 * i + 6]? = some 4) ∧
      (mt.PolyFlags &&& pf.PF_TwoSided ≠ 0 → mt.PolyFlags &&& pf.PF_Modulated = 0 →
        mt.PolyFlags &&& pf.PF_Masked ≠ 0 → out.data[48 + 16 * i + 6]? = some 3) ∧
      (mt.PolyFlags &&& pf.PF_TwoSided ≠ 0 → mt.PolyFlags &&& pf.PF_Modulated = 0 →
        mt.PolyFlags &&& pf.PF_Masked = 0 → mt.PolyFlags &&& pf.PF_Translucent ≠ 0 →
        out.data[48 + 16 * i + 6]? = some 2) ∧
      (mt.PolyFlags &&& pf.PF_TwoSided ≠ 0 → mt.PolyFlags &&& pf.PF_Modulated = 0 →
        mt.PolyFlags &&& pf.PF_Masked = 0 → mt.PolyFlags &&& pf.PF_Translucent = 0 →
        out.data[48 + 16 * i + 6]? = some 1) ∧
      (mt.PolyFlags &&& pf.PF_TwoSided = 0 → out.data[48 + 16 * i + 6]? = some 0) := by
  refine ⟨fun hn => ⟨_, ExportMeshData_generic pf hdr mesh hl hs hn⟩, fun out hout => ?_⟩
  have hn : mesh.Tris.length ≤ 65535 := by
    by_contra hc
    have hn1 : mesh.Tris.length > UINT16_MAX := by simp [UINT16_MAX]; omega
    simp [ExportMeshData, hl, hs, hn1] at hout
  rw [ExportMeshData_generic pf hdr mesh hl hs hn] at hout
  simp only [Outcome.returned.injEq] at hout
  have hb : out.data[48 + 16 * i + 6]? = some (toByte (meshRecord pf mt).Type_) := by
    rw [← hout]
    simp only [MemoryStreamWriter.atEnd]
    rw [getElem?_header_records _ (length_dataHeaderBytes _) _ mesh.Tris
      (fun x _ => length_triangleBytes _) i 6 mt hi (by omega)]
    rfl
  rw [hb]
  refine ⟨?_, ?_, ?_, ?_, ?_⟩
  · intro h1 h2; simp [meshRecord, h1, h2, JmtFlags.ModulatedTwoSided]; rfl
  · intro h1 h2 h3; simp [meshRecord, h1, h2, h3, JmtFlags.MaskedTwoSided]; rfl
  · intro h1 h2 h3 h4; simp [meshRecord, h1, h2, h3, h4, JmtFlags.Translucent]; rfl
  · intro h1 h2 h3 h4; simp [meshRecord, h1, h2, h3, h4, JmtFlags.TwoSided]; rfl
  · intro h1; simp [meshRecord, h1, JmtFlags.Normal]; rfl

theorem length_lodRecordBytes (pf : PolyFlagMasks) (mesh : UMesh)
    (hr : ∀ i, i < mesh.Faces.length → ∃ tri, lodRecord pf mesh i = some tri)
    (i : Nat) (hi : i ∈ List.range mesh.Faces.length) : (lodRecordBytes pf mesh i).length = 16 := by
  obtain ⟨tri, ht⟩ := hr i (List.mem_range.mp hi)
  simp [lodRecordBytes, ht, length_triangleBytes]

theorem lodRecord_type_last (pf : PolyFlagMasks) (mesh : UMesh) (tri : U3DDataTriangle)
    (h1 : 1 ≤ mesh.Faces.length) (hn : mesh.Faces.length ≤ 65535)
    (hsp : mesh.SpecialFaces.length = 1)
    (ht : lodRecord pf mesh (mesh.Faces.length - 1) = some tri) :
    tri.Type_ = JmtFlags.WeaponTriangle := by
  have hlast : mesh.Faces.length - 1 = toSizeT ((mesh.Faces.length : Int) - 1) := by
    unfold toSizeT; omega
  unfold lodRecord at ht
  split at ht
  · simp at ht
  · split at ht
    · simp only [Option.some.injEq] at ht
      rw [← ht]
      simp [hsp, ← hlast]
    · simp at ht

/-- Claim C3. For a LOD mesh with at least one face and exactly one special-face entry, every
stream `ExportLodMesh` returns has `48 + 16 * n` bytes and the record of the last face, at
offset `48 + 16 * (n - 1)`, carries the type code WeaponTriangle (8) at its offset 6, whatever
the polygon flags of that face's material; a stream is returned whenever the mesh has at most
65535 faces and its wedge and material indices lie inside their tables. -/
theorem ExportLodMesh_last_face_weaponTriangle (pf : PolyFlagMasks) (hdr : U3DDataHeader)
    (mesh : UMesh) (h1 : 1 ≤ mesh.Faces.length) (hsp : mesh.SpecialFaces.length = 1) :
    (mesh.Faces.length ≤ 65535 → mesh.LodIndicesInRange →
      ∃ out, ExportLodMesh pf hdr mesh = .returned out) ∧
    ∀ out, ExportLodMesh pf hdr mesh = .returned out →
      out.data.length = 48 + 16 * mesh.Faces.length ∧
      out.data[48 + 16 * (mesh.Faces.length - 1) + 6]? = some 8 := by
  refine ⟨fun hn hr => ⟨_, ExportLodMesh_returned pf hdr mesh hn
    (lodRecord_isSome pf mesh hr)⟩, fun out hout => ?_⟩
  obtain ⟨hn, hr⟩ := ExportLodMesh_returned_inv pf hdr mesh out hout
  rw [ExportLodMesh_returned pf hdr mesh hn hr] at hout
  simp only [Outcome.returned.injEq] at hout
  rw [← hout]
  refine ⟨?_, ?_⟩
  · simp only [MemoryStreamWriter.atEnd, List.length_append, length_dataHeaderBytes]
    rw [length_flatMap_const (lodRecordBytes pf mesh) 16]
    · simp
    · exact length_lodRecordBytes pf mesh hr
  · obtain ⟨tri, ht⟩ := hr (mesh.Faces.length - 1) (by omega)
    have hty := lodRecord_type_last pf mesh tri h1 hn hsp ht
    simp only [MemoryStreamWriter.atEnd]
    rw [getElem?_header_records _ (length_dataHeaderBytes _) _ _
      (length_lodRecordBytes pf mesh hr) (mesh.Faces.length - 1) 6 (mesh.Faces.length - 1)
      (by rw [List.getElem?_range (by omega)]) (by omega)]
    simp only [lodRecordBytes, ht, U3DDataTriangle.bytes_type, hty]
    rfl

/-! ## Lemmas on the indexed bitmap -/

theorem readAt_natCast {α : Type} (l : List α) (n : Nat) : readAt l (n : Int) = l[n]? := by
  simp [readAt]

theorem getElem?_eq_some_getD {α : Type} (l : List α) (n : Nat) (a : α) (h : n < l.length) :
    l[n]? = some (l.getD n a) := by
  simp [List.getD, List.getElem?_eq_getElem h]

theorem forDown_atEnd (body : Nat → MemoryStreamWriter → Outcome) (f : Nat → List Byte) (c : Nat) :
    ∀ (n : Nat) (d : List Byte),
      (∀ sy, sy < n → ∀ d1, body (sy + 1) (MemoryStreamWriter.atEnd d1 c)
        = .returned (MemoryStreamWriter.atEnd (d1 ++ f sy) c)) →
      forDown body n (MemoryStreamWriter.atEnd d c)
        = .returned (MemoryStreamWriter.atEnd
            (d ++ (List.range n).flatMap (fun r => f (n - 1 - r))) c)
  | 0, d, _ => by simp [forDown]
  | n + 1, d, h => by
    have h0 := h n (by omega) d
    have ih := forDown_atEnd body f c n (d ++ f n) (fun sy hsy d1 => h sy (by omega) d1)
    simp only [forDown, h0, Outcome.andThen_returned, ih, List.range_succ_eq_map,
      List.flatMap_cons, List.append_assoc, List.flatMap_map]
    congr 3
    have hf : (fun r => f (n - 1 - r)) = (fun a => f (n + 1 - 1 - a.succ)) := by
      funext r
      congr 1
      omega
    rw [hf]
    rfl

namespace MemoryStreamWriter

theorem Write_Write (s : MemoryStreamWriter) (a b : List Byte) (h : s.pos ≤ s.data.length) :
    (s.Write a).Write b = s.Write (a ++ b) := by
  have ht : (List.take s.pos s.data).length = s.pos := by
    rw [List.length_take]; omega
  have h1 : List.take (s.pos + a.length)
      (List.take s.pos s.data ++ a ++ List.drop (s.pos + a.length) s.data)
      = List.take s.pos s.data ++ a := by
    rw [List.take_append_of_le_length (by rw [List.length_append, ht])]
    exact List.take_of_length_le (by rw [List.length_append, ht])
  have h2 : List.drop (s.pos + a.length + b.length)
      (List.take s.pos s.data ++ a ++ List.drop (s.pos + a.length) s.data)
      = List.drop (s.pos + (a ++ b).length) s.data := by
    rw [List.drop_append_eq_append_drop, List.drop_of_length_le (by rw [List.length_append, ht]; omega),
      List.length_append, ht, List.nil_append, List.drop_drop, List.length_append]
    congr 1
    omega
  unfold Write
  simp only [h1, h2]
  simp only [List.append_assoc, List.length_append, Nat.add_assoc]

end MemoryStreamWriter

namespace MemoryStreamWriter

theorem putBmpHeader_eq_Write (s : MemoryStreamWriter) (bmp : BmpHeader)
    (h : s.pos ≤ s.data.length) : s.putBmpHeader bmp = s.Write bmp.bytes := by
  have hw := fun a b => Write_Write s a b h
  simp only [putBmpHeader, putU16, putU32, hw, BmpHeader.bytes, List.append_assoc]

theorem putBmpHeader_atEnd (d : List Byte) (c : Nat) (bmp : BmpHeader) :
    (atEnd d c).putBmpHeader bmp = atEnd (d ++ bmp.bytes) c := by
  rw [putBmpHeader_eq_Write _ _ (by simp [atEnd]), Write_atEnd]

end MemoryStreamWriter

theorem length_bmpHeaderBytes (bmp : BmpHeader) : bmp.bytes.length = 54 := by
  simp [BmpHeader.bytes, length_u16le, length_u32le]

theorem writePalette_atEnd (tex : UTexture) (pal : UPalette) (hp : tex.Palette = some pal)
    (hc : 256 ≤ pal.Colors.length) (d : List Byte) (c : Nat) :
    ExportBmpIndexed.writePalette tex (MemoryStreamWriter.atEnd d c)
      = .returned (MemoryStreamWriter.atEnd (d ++ bmpPaletteBytes pal.Colors) c) := by
  simp only [ExportBmpIndexed.writePalette, hp]
  rw [forUp_atEnd _ (fun i => u32le (bgraWord (pal.Colors.getD i 0))) c 256 0 d]
  · rw [bmpPaletteBytes, List.range_eq_range']
  · intro i _ hi d1
    rw [readAt_natCast, getElem?_eq_some_getD _ _ 0 (by omega)]
    simp only [MemoryStreamWriter.putU32_atEnd, bgraWord]

theorem length_bmpRowBytes (pixels : List Byte) (w sy : Nat) :
    (bmpRowBytes pixels w sy).length = w := by
  rw [bmpRowBytes, length_flatMap_const (fun x => [pixels.getD (sy * w + x) 0]) 1 _
    (fun _ _ => rfl)]
  simp

theorem length_bmpPixelBytes (pixels : List Byte) (w h : Nat) :
    (bmpPixelBytes pixels w h).length = w * h := by
  rw [bmpPixelBytes, length_flatMap_const _ w _ (fun _ _ => length_bmpRowBytes _ _ _)]
  simp

theorem length_bmpPaletteBytes (colors : List Nat) : (bmpPaletteBytes colors).length = 1024 := by
  rw [bmpPaletteBytes, length_flatMap_const (fun i => u32le (bgraWord (colors.getD i 0))) 4 _
    (fun _ _ => rfl)]
  simp

theorem writePixels_atEnd (tex : UTexture) (w h : Nat) (mip : UnrealMipmap)
    (hu : tex.USize = w) (hv : tex.VSize = h) (hm : tex.Mipmaps[0]? = some mip)
    (hd : w * h ≤ mip.Data.length) (d : List Byte) (c : Nat) :
    ExportBmpIndexed.writePixels tex (MemoryStreamWriter.atEnd d c)
      = .returned (MemoryStreamWriter.atEnd (d ++ bmpPixelBytes mip.Data w h) c) := by
  simp only [ExportBmpIndexed.writePixels, hm, hu, hv, Int.toNat_ofNat]
  rw [forDown_atEnd _ (bmpRowBytes mip.Data w) c h d]
  · rfl
  · intro sy hsy d1
    rw [forUp_atEnd _ (fun x => [mip.Data.getD (sy * w + x) 0]) c w 0 d1]
    · rw [bmpRowBytes, List.range_eq_range']
    · intro x _ hx d2
      have hidx : (((sy + 1 : Nat) : Int) - 1) * (w : Int) + (x : Int)
          = ((sy * w + x : Nat) : Int) := by
        push_cast; ring
      have hlt : sy * w + x < mip.Data.length := by
        have : (sy + 1) * w ≤ h * w := Nat.mul_le_mul_right w hsy
        nlinarith
      rw [hidx, readAt_natCast, getElem?_eq_some_getD _ _ 0 hlt]
      simp only [MemoryStreamWriter.putU8_atEnd]

theorem drop_header_append (hb rest : List Byte) (n : Nat) (h : hb.length = n) :
    List.drop n (hb ++ rest) = rest := by
  subst h
  exact List.drop_left hb rest


theorem Reserve_empty (n : Nat) :
    ({} : MemoryStreamWriter).Reserve n = MemoryStreamWriter.atEnd [] n := by
  simp [MemoryStreamWriter.Reserve, MemoryStreamWriter.atEnd]

theorem ExportBmpIndexed_firstPass_returned (tex : UTexture) (w h : Nat) (pal : UPalette)
    (mip : UnrealMipmap) (hu : tex.USize = w) (hv : tex.VSize = h) (hw : w ≤ 8192)
    (hh : h ≤ 8192) (hp : tex.Palette = some pal) (hc : 256 ≤ pal.Colors.length)
    (hm : tex.Mipmaps[0]? = some mip) (hd : w * h ≤ mip.Data.length) :
    ExportBmpIndexed.firstPass tex = .returned (MemoryStreamWriter.atEnd
      ((ExportBmpIndexed.initialHeader tex).bytes ++ (bmpPaletteBytes pal.Colors
        ++ bmpPixelBytes mip.Data w h))
      (toSizeT (sizeofBmpHeader + 4 * 256 + tex.USize * tex.VSize))) := by
  have hguard : ¬ (tex.USize > 8192 ∨ tex.VSize > 8192) := by
    rw [hu, hv]; omega
  unfold ExportBmpIndexed.firstPass
  rw [if_neg hguard]
  simp only [Reserve_empty]
  rw [MemoryStreamWriter.putBmpHeader_atEnd, writePalette_atEnd tex pal hp hc,
    Outcome.andThen_returned, writePixels_atEnd tex w h mip hu hv hm hd, List.nil_append,
    List.append_assoc]

theorem Tell_atEnd (d : List Byte) (c : Nat) : (MemoryStreamWriter.atEnd d c).Tell = d.length :=
  rfl

theorem SeekSet_Write_atEnd (hb0 hb rest : List Byte) (c : Nat)
    (h : hb0.length = hb.length) :
    ((MemoryStreamWriter.atEnd (hb0 ++ rest) c).SeekSet 0).Write hb
      = { data := hb ++ rest, pos := hb.length, capacity := c } := by
  unfold MemoryStreamWriter.Write MemoryStreamWriter.SeekSet MemoryStreamWriter.atEnd
  simp only [List.take_zero, List.nil_append, Nat.zero_add]
  rw [drop_header_append hb0 rest hb.length h]

theorem ExportBmpIndexed_returned (tex : UTexture) (w h : Nat) (pal : UPalette)
    (mip : UnrealMipmap) (hu : tex.USize = w) (hv : tex.VSize = h) (hw : w ≤ 8192)
    (hh : h ≤ 8192) (hp : tex.Palette = some pal) (hc : 256 ≤ pal.Colors.length)
    (hm : tex.Mipmaps[0]? = some mip) (hd : w * h ≤ mip.Data.length) :
    ExportBmpIndexed tex = .returned
      { data := (ExportBmpIndexed.finalHeader tex w h).bytes ++ (bmpPaletteBytes pal.Colors
          ++ bmpPixelBytes mip.Data w h)
        pos := 54
        capacity := toSizeT (sizeofBmpHeader + 4 * 256 + tex.USize * tex.VSize) } := by
  have hguard : ¬ (tex.USize > 8192 ∨ tex.VSize > 8192) := by
    rw [hu, hv]; omega
  have hwh : w * h ≤ 8192 * 8192 := Nat.mul_le_mul hw hh
  have l1 : ((ExportBmpIndexed.initialHeader tex).bytes ++ bmpPaletteBytes pal.Colors).length
      % 4294967296 = 1078 := by
    rw [List.length_append, length_bmpHeaderBytes, length_bmpPaletteBytes]
  have l2 : ((ExportBmpIndexed.initialHeader tex).bytes ++ bmpPaletteBytes pal.Colors
      ++ bmpPixelBytes mip.Data w h).length % 4294967296 = 1078 + w * h := by
    rw [List.length_append, List.length_append, length_bmpHeaderBytes, length_bmpPaletteBytes,
      length_bmpPixelBytes]
    omega
  unfold ExportBmpIndexed
  simp only []
  rw [if_neg hguard]
  simp only [Reserve_empty]
  rw [MemoryStreamWriter.putBmpHeader_atEnd, writePalette_atEnd tex pal hp hc,
    Outcome.andThen_returned, writePixels_atEnd tex w h mip hu hv hm hd,
    Outcome.andThen_returned, List.nil_append,
    MemoryStreamWriter.putBmpHeader_eq_Write _ _ (Nat.zero_le _), Tell_atEnd, Tell_atEnd,
    l1, l2, List.append_assoc,
    SeekSet_Write_atEnd _ _ _ _ ((length_bmpHeaderBytes _).trans (length_bmpHeaderBytes _).symm),
    length_bmpHeaderBytes]
  rfl

theorem or_shiftLeft_eq_add (lo hi k : Nat) (h : lo < 2 ^ k) :
    lo ||| (hi <<< k) = lo + hi * 2 ^ k := by
  rw [Nat.shiftLeft_eq, Nat.or_comm, Nat.mul_comm hi, ← Nat.mul_add_lt_is_or h, Nat.add_comm]

theorem and_0xff (v : Nat) : v &&& 0xff = v % 256 :=
  Nat.and_pow_two_sub_one_eq_mod v 8

/-- The components `UnpackRgba` yields are the four bytes of the packed value, low byte first. -/
theorem UnpackRgba_eq (v : Nat) :
    UnpackRgba v = { r := v % 256, g := v / 256 % 256, b := v / 65536 % 256,
                     a := v / 16777216 % 256 } := by
  simp only [UnpackRgba, and_0xff, Nat.shiftRight_eq_div_pow]

theorem bgraWord_eq (v : Nat) :
    bgraWord v = v / 65536 % 256 + 256 * (v / 256 % 256) + 65536 * (v % 256)
      + 16777216 * (v / 16777216 % 256) := by
  simp only [bgraWord, UnpackRgba_eq]
  rw [or_shiftLeft_eq_add _ _ 8 (by omega), or_shiftLeft_eq_add _ _ 16 (by omega),
    or_shiftLeft_eq_add _ _ 24 (by omega)]
  omega

theorem u32le_of_bytes (b0 b1 b2 b3 : Nat) (h0 : b0 < 256) (h1 : b1 < 256) (h2 : b2 < 256) :
    u32le (b0 + 256 * b1 + 65536 * b2 + 16777216 * b3)
      = [toByte b0, toByte b1, toByte b2, toByte b3] := by
  simp only [u32le, toByte, List.cons.injEq, Fin.mk.injEq, and_true]
  refine ⟨?_, ?_, ?_, ?_⟩ <;> omega

theorem toByte_mod (n : Nat) : toByte (n % 256) = toByte n := by
  simp only [toByte, Fin.mk.injEq]
  omega

theorem u32le_bgraWord (v : Nat) :
    u32le (bgraWord v) = [toByte (v / 65536), toByte (v / 256), toByte v, toByte (v / 16777216)] := by
  rw [bgraWord_eq, u32le_of_bytes _ _ _ _ (Nat.mod_lt _ (by decide)) (Nat.mod_lt _ (by decide))
    (Nat.mod_lt _ (by decide)), toByte_mod, toByte_mod, toByte_mod, toByte_mod]

theorem readU32LE_of_getElem (l : List Byte) (off n : Nat) (hn : n < 4294967296)
    (h0 : l[off]? = some (toByte n)) (h1 : l[off + 1]? = some (toByte (n / 256)))
    (h2 : l[off + 2]? = some (toByte (n / 65536)))
    (h3 : l[off + 3]? = some (toByte (n / 16777216))) : readU32LE l off = some n := by
  unfold readU32LE
  rw [h0, h1, h2, h3]
  simp only [Option.some.injEq, toByte]
  omega

theorem readU16LE_of_getElem (l : List Byte) (off n : Nat) (hn : n < 65536)
    (h0 : l[off]? = some (toByte n)) (h1 : l[off + 1]? = some (toByte (n / 256))) :
    readU16LE l off = some n := by
  unfold readU16LE
  rw [h0, h1]
  simp only [Option.some.injEq, toByte]
  omega


theorem BmpHeader.bytes_explicit (bmp : BmpHeader) :
    bmp.bytes = [toByte bmp.signature, toByte (bmp.signature / 256),
      toByte bmp.fileSize, toByte (bmp.fileSize / 256), toByte (bmp.fileSize / 65536),
      toByte (bmp.fileSize / 16777216),
      toByte bmp.reserved, toByte (bmp.reserved / 256), toByte (bmp.reserved / 65536),
      toByte (bmp.reserved / 16777216),
      toByte bmp.pixelOffset, toByte (bmp.pixelOffset / 256), toByte (bmp.pixelOffset / 65536),
      toByte (bmp.pixelOffset / 16777216),
      toByte bmp.dibHeaderSize, toByte (bmp.dibHeaderSize / 256),
      toByte (bmp.dibHeaderSize / 65536), toByte (bmp.dibHeaderSize / 16777216),
      toByte bmp.imageWidth, toByte (bmp.imageWidth / 256), toByte (bmp.imageWidth / 65536),
      toByte (bmp.imageWidth / 16777216),
      toByte bmp.imageHeight, toByte (bmp.imageHeight / 256), toByte (bmp.imageHeight / 65536),
      toByte (bmp.imageHeight / 16777216),
      toByte bmp.planes, toByte (bmp.planes / 256),
      toByte bmp.bitCount, toByte (bmp.bitCount / 256),
      toByte bmp.compression, toByte (bmp.compression / 256), toByte (bmp.compression / 65536),
      toByte (bmp.compression / 16777216),
      toByte bmp.imageSize, toByte (bmp.imageSize / 256), toByte (bmp.imageSize / 65536),
      toByte (bmp.imageSize / 16777216),
      toByte bmp.pixelsPerMeterX, toByte (bmp.pixelsPerMeterX / 256),
      toByte (bmp.pixelsPerMeterX / 65536), toByte (bmp.pixelsPerMeterX / 16777216),
      toByte bmp.pixelsPerMeterY, toByte (bmp.pixelsPerMeterY / 256),
      toByte (bmp.pixelsPerMeterY / 65536), toByte (bmp.pixelsPerMeterY / 16777216),
      toByte bmp.colorsUsed, toByte (bmp.colorsUsed / 256), toByte (bmp.colorsUsed / 65536),
      toByte (bmp.colorsUsed / 16777216),
      toByte bmp.colorsImportant, toByte (bmp.colorsImportant / 256),
      toByte (bmp.colorsImportant / 65536), toByte (bmp.colorsImportant / 16777216)] := by
  simp only [BmpHeader.bytes, u16le, u32le, List.cons_append, List.nil_append]


/-- The fifteen fields of a written header, read back as little-endian integers. -/
theorem BmpHeader.read_bytes (bmp : BmpHeader) (rest : List Byte)
    (h1 : bmp.signature < 65536) (h2 : bmp.fileSize < 4294967296)
    (h3 : bmp.reserved < 4294967296) (h4 : bmp.pixelOffset < 4294967296)
    (h5 : bmp.dibHeaderSize < 4294967296) (h6 : bmp.imageWidth < 4294967296)
    (h7 : bmp.imageHeight < 4294967296) (h8 : bmp.planes < 65536) (h9 : bmp.bitCount < 65536)
    (h10 : bmp.compression < 4294967296) (h11 : bmp.imageSize < 4294967296)
    (h12 : bmp.pixelsPerMeterX < 4294967296) (h13 : bmp.pixelsPerMeterY < 4294967296)
    (h14 : bmp.colorsUsed < 4294967296) (h15 : bmp.colorsImportant < 4294967296) :
    readU16LE (bmp.bytes ++ rest) 0 = some bmp.signature ∧
    readU32LE (bmp.bytes ++ rest) 2 = some bmp.fileSize ∧
    readU32LE (bmp.bytes ++ rest) 6 = some bmp.reserved ∧
    readU32LE (bmp.bytes ++ rest) 10 = some bmp.pixelOffset ∧
    readU32LE (bmp.bytes ++ rest) 14 = some bmp.dibHeaderSize ∧
    readU32LE (bmp.bytes ++ rest) 18 = some bmp.imageWidth ∧
    readU32LE (bmp.bytes ++ rest) 22 = some bmp.imageHeight ∧
    readU16LE (bmp.bytes ++ rest) 26 = some bmp.planes ∧
    readU16LE (bmp.bytes ++ rest) 28 = some bmp.bitCount ∧
    readU32LE (bmp.bytes ++ rest) 30 = some bmp.compression ∧
    readU32LE (bmp.bytes ++ rest) 34 = some bmp.imageSize ∧
    readU32LE (bmp.bytes ++ rest) 38 = some bmp.pixelsPerMeterX ∧
    readU32LE (bmp.bytes ++ rest) 42 = some bmp.pixelsPerMeterY ∧
    readU32LE (bmp.bytes ++ rest) 46 = some bmp.colorsUsed ∧
    readU32LE (bmp.bytes ++ rest) 50 = some bmp.colorsImportant := by
  refine ⟨?_, ?_, ?_, ?_, ?_, ?_, ?_, ?_, ?_, ?_, ?_, ?_, ?_, ?_, ?_⟩
  · apply readU16LE_of_getElem _ 0 _ h1 <;>
      simp only [BmpHeader.bytes_explicit, List.cons_append, List.getElem?_cons_succ,
        List.getElem?_cons_zero]
  · apply readU32LE_of_getElem _ 2 _ h2 <;>
      simp only [BmpHeader.bytes_explicit, List.cons_append, List.getElem?_cons_succ,
        List.getElem?_cons_zero]
  · apply readU32LE_of_getElem _ 6 _ h3 <;>
      simp only [BmpHeader.bytes_explicit, List.cons_append, List.getElem?_cons_succ,
        List.getElem?_cons_zero]
  · apply readU32LE_of_getElem _ 10 _ h4 <;>
      simp only [BmpHeader.bytes_explicit, List.cons_append, List.getElem?_cons_succ,
        List.getElem?_cons_zero]
  · apply readU32LE_of_getElem _ 14 _ h5 <;>
      simp only [BmpHeader.bytes_explicit, List.cons_append, List.getElem?_cons_succ,
        List.getElem?_cons_zero]
  · apply readU32LE_of_getElem _ 18 _ h6 <;>
      simp only [BmpHeader.bytes_explicit, List.cons_append, List.getElem?_cons_succ,
        List.getElem?_cons_zero]
  · apply readU32LE_of_getElem _ 22 _ h7 <;>
      simp only [BmpHeader.bytes_explicit, List.cons_append, List.getElem?_cons_succ,
        List.getElem?_cons_zero]
  · apply readU16LE_of_getElem _ 26 _ h8 <;>
      simp only [BmpHeader.bytes_explicit, List.cons_append, List.getElem?_cons_succ,
        List.getElem?_cons_zero]
  · apply readU16LE_of_getElem _ 28 _ h9 <;>
      simp only [BmpHeader.bytes_explicit, List.cons_append, List.getElem?_cons_succ,
        List.getElem?_cons_zero]
  · apply readU32LE_of_getElem _ 30 _ h10 <;>
      simp only [BmpHeader.bytes_explicit, List.cons_append, List.getElem?_cons_succ,
        List.getElem?_cons_zero]
  · apply readU32LE_of_getElem _ 34 _ h11 <;>
      simp only [BmpHeader.bytes_explicit, List.cons_append, List.getElem?_cons_succ,
        List.getElem?_cons_zero]
  · apply readU32LE_of_getElem _ 38 _ h12 <;>
      simp only [BmpHeader.bytes_explicit, List.cons_append, List.getElem?_cons_succ,
        List.getElem?_cons_zero]
  · apply readU32LE_of_getElem _ 42 _ h13 <;>
      simp only [BmpHeader.bytes_explicit, List.cons_append, List.getElem?_cons_succ,
        List.getElem?_cons_zero]
  · apply readU32LE_of_getElem _ 46 _ h14 <;>
      simp only [BmpHeader.bytes_explicit, List.cons_append, List.getElem?_cons_succ,
        List.getElem?_cons_zero]
  · apply readU32LE_of_getElem _ 50 _ h15 <;>
      simp only [BmpHeader.bytes_explicit, List.cons_append, List.getElem?_cons_succ,
        List.getElem?_cons_zero]


theorem length_bmpHeaderBytes_append (bmp : BmpHeader) (rest : List Byte) :
    (bmp.bytes ++ rest).length = 54 + rest.length := by
  rw [List.length_append, length_bmpHeaderBytes]

theorem BmpHeader.getElem?_bytes_append (bmp : BmpHeader) (rest : List Byte) (k : Nat)
    (hk : 54 ≤ k) : (bmp.bytes ++ rest)[k]? = rest[k - 54]? := by
  rw [List.getElem?_append_right (by rw [length_bmpHeaderBytes]; exact hk),
    length_bmpHeaderBytes]

/-! ## The indexed bitmap and the texture dispatch -/

/-- The length and the `fileSize` field of the bitmap of a well-formed `w` by `h` texture, and its
relation to the buffer built before the rewind. -/
theorem ExportBmpIndexed_fileSize_wf (tex : UTexture) (w h : Nat) (pal : UPalette)
    (mip : UnrealMipmap) (hu : tex.USize = w) (hv : tex.VSize = h) (hw : w ≤ 8192)
    (hh : h ≤ 8192) (hp : tex.Palette = some pal) (hc : 256 ≤ pal.Colors.length)
    (hm : tex.Mipmaps[0]? = some mip) (hd : w * h ≤ mip.Data.length) :
    ∃ body out, Exporter.ExportBmpIndexed.firstPass tex = .returned body ∧
      Exporter.ExportBmpIndexed tex = .returned out ∧
      out = (body.SeekSet 0).putBmpHeader (ExportBmpIndexed.finalHeader tex w h) ∧
      out.data.length = 14 + 40 + 1024 + w * h ∧
      readU32LE out.data 2 = some out.data.length ∧
      out.data.length = body.data.length ∧
      ∀ k, 54 ≤ k → out.data[k]? = body.data[k]? := by
  have hwh : w * h ≤ 8192 * 8192 := Nat.mul_le_mul hw hh
  have hlen : ((ExportBmpIndexed.finalHeader tex w h).bytes ++ (bmpPaletteBytes pal.Colors
      ++ bmpPixelBytes mip.Data w h)).length = 14 + 40 + 1024 + w * h := by
    rw [List.length_append, List.length_append, length_bmpHeaderBytes, length_bmpPaletteBytes,
      length_bmpPixelBytes]
    omega
  refine ⟨_, _, ExportBmpIndexed_firstPass_returned tex w h pal mip hu hv hw hh hp hc hm hd,
    ExportBmpIndexed_returned tex w h pal mip hu hv hw hh hp hc hm hd, ?_, hlen, ?_, ?_, ?_⟩
  · rw [MemoryStreamWriter.putBmpHeader_eq_Write _ _ (Nat.zero_le _),
      SeekSet_Write_atEnd _ _ _ _
        ((length_bmpHeaderBytes _).trans (length_bmpHeaderBytes _).symm),
      length_bmpHeaderBytes]
  · dsimp only
    rw [hlen]
    apply readU32LE_of_getElem _ 2 _ (by omega) <;>
      simp only [BmpHeader.bytes_explicit, List.cons_append, List.getElem?_cons_succ,
        List.getElem?_cons_zero] <;> rfl
  · dsimp only [MemoryStreamWriter.atEnd]
    rw [length_bmpHeaderBytes_append, length_bmpHeaderBytes_append]
  · intro k hk
    dsimp only [MemoryStreamWriter.atEnd]
    rw [BmpHeader.getElem?_bytes_append _ _ _ hk, BmpHeader.getElem?_bytes_append _ _ _ hk]
theorem toU32_natCast (n : Nat) (h : n < 4294967296) : toU32 (n : Int) = n := by
  unfold toU32
  omega

theorem getElem?_bmpPixelBytes (pixels : List Byte) (w h r x : Nat) (hr : r < h) (hx : x < w)
    (hd : w * h ≤ pixels.length) :
    (bmpPixelBytes pixels w h)[r * w + x]? = pixels[(h - 1 - r) * w + x]? := by
  have hlt : (h - 1 - r) * w + x < pixels.length := by
    have h1 : (h - 1 - r + 1) * w ≤ h * w := Nat.mul_le_mul_right w (by omega)
    nlinarith
  rw [Nat.mul_comm r w, bmpPixelBytes,
    getElem?_flatMap_const (fun r => bmpRowBytes pixels w (h - 1 - r)) w (List.range h)
      (fun _ _ => length_bmpRowBytes _ _ _) r x r (List.getElem?_range hr) hx,
    bmpRowBytes]
  have h0 := getElem?_flatMap_const (fun x => [pixels.getD ((h - 1 - r) * w + x) 0]) 1
    (List.range w) (fun _ _ => rfl) x 0 x (List.getElem?_range hx) (by omega)
  rw [Nat.one_mul, Nat.add_zero] at h0
  rw [h0, getElem?_eq_some_getD _ _ 0 hlt]
  rfl

theorem getElem?_bmpPaletteBytes (colors : List Nat) (i j : Nat) (hi : i < 256) (hj : j < 4) :
    (bmpPaletteBytes colors)[4 * i + j]?
      = [toByte (colors.getD i 0 / 65536), toByte (colors.getD i 0 / 256),
          toByte (colors.getD i 0), toByte (colors.getD i 0 / 16777216)][j]? := by
  rw [bmpPaletteBytes,
    getElem?_flatMap_const (fun i => u32le (bgraWord (colors.getD i 0))) 4 (List.range 256)
      (fun _ _ => rfl) i j i (List.getElem?_range hi) hj, u32le_bgraWord]

/-- The pixel section of the bitmap of a well-formed `w` by `h` texture. -/
theorem ExportBmpIndexed_rows_bottom_up_wf (tex : UTexture) (w h : Nat) (pal : UPalette)
    (mip : UnrealMipmap) (hu : tex.USize = w) (hv : tex.VSize = h) (hw : w ≤ 8192)
    (hh : h ≤ 8192) (hp : tex.Palette = some pal) (hc : 256 ≤ pal.Colors.length)
    (hm : tex.Mipmaps[0]? = some mip) (hd : w * h ≤ mip.Data.length) :
    ∃ out, Exporter.ExportBmpIndexed tex = .returned out ∧
      readU32LE out.data 10 = some 1078 ∧
      ∀ r x, r < h → x < w →
        (h - 1 - r) * w + x < mip.Data.length ∧
        out.data[1078 + r * w + x]? = mip.Data[(h - 1 - r) * w + x]? := by
  refine ⟨_, ExportBmpIndexed_returned tex w h pal mip hu hv hw hh hp hc hm hd, ?_, ?_⟩
  · dsimp only
    apply readU32LE_of_getElem _ 10 _ (by omega) <;>
      simp only [BmpHeader.bytes_explicit, List.cons_append, List.getElem?_cons_succ,
        List.getElem?_cons_zero] <;> rfl
  · intro r x hr hx
    have hlt : (h - 1 - r) * w + x < mip.Data.length := by
      have h1 : (h - 1 - r + 1) * w ≤ h * w := Nat.mul_le_mul_right w (by omega)
      nlinarith
    refine ⟨hlt, ?_⟩
    have e : 1078 + r * w + x - 54 - 1024 = r * w + x := by omega
    dsimp only
    rw [BmpHeader.getElem?_bytes_append _ _ _ (by omega),
      List.getElem?_append_right (by rw [length_bmpPaletteBytes]; omega),
      length_bmpPaletteBytes, e, getElem?_bmpPixelBytes mip.Data w h r x hr hx hd]
/-- The header fields of the bitmap of a well-formed `w` by `h` texture. -/
theorem ExportBmpIndexed_header_wf (tex : UTexture) (w h : Nat) (pal : UPalette)
    (mip : UnrealMipmap) (hu : tex.USize = w) (hv : tex.VSize = h) (hw : w ≤ 8192)
    (hh : h ≤ 8192) (hp : tex.Palette = some pal) (hc : 256 ≤ pal.Colors.length)
    (hm : tex.Mipmaps[0]? = some mip) (hd : w * h ≤ mip.Data.length) :
    ∃ out, Exporter.ExportBmpIndexed tex = .returned out ∧
      out.data.length = 1078 + w * h ∧
      readU16LE out.data 0 = some 0x4D42 ∧
      readU32LE out.data 6 = some 0 ∧
      readU32LE out.data 10 = some 1078 ∧
      readU32LE out.data 14 = some 40 ∧
      readU32LE out.data 18 = some w ∧
      readU32LE out.data 22 = some h ∧
      readU16LE out.data 26 = some 1 ∧
      readU16LE out.data 28 = some 8 ∧
      readU32LE out.data 30 = some 0 ∧
      readU32LE out.data 34 = some 0 ∧
      readU32LE out.data 38 = some 0 ∧
      readU32LE out.data 42 = some 0 ∧
      readU32LE out.data 46 = some 0 ∧
      readU32LE out.data 50 = some 0 := by
  have hwh : w * h ≤ 8192 * 8192 := Nat.mul_le_mul hw hh
  have hW : toU32 tex.USize = w := by rw [hu]; exact toU32_natCast w (by omega)
  have hH : toU32 tex.VSize = h := by rw [hv]; exact toU32_natCast h (by omega)
  have hlen : ((ExportBmpIndexed.finalHeader tex w h).bytes ++ (bmpPaletteBytes pal.Colors
      ++ bmpPixelBytes mip.Data w h)).length = 1078 + w * h := by
    rw [length_bmpHeaderBytes_append, List.length_append, length_bmpPaletteBytes,
      length_bmpPixelBytes]
    omega
  have hfs : (ExportBmpIndexed.finalHeader tex w h).fileSize < 4294967296 := by
    show 1078 + w * h < 4294967296
    omega
  have hiw : (ExportBmpIndexed.finalHeader tex w h).imageWidth = w := hW
  have hih : (ExportBmpIndexed.finalHeader tex w h).imageHeight = h := hH
  obtain ⟨r1, -, r3, r4, r5, r6, r7, r8, r9, r10, r11, r12, r13, r14, r15⟩ :=
    BmpHeader.read_bytes (ExportBmpIndexed.finalHeader tex w h)
      (bmpPaletteBytes pal.Colors ++ bmpPixelBytes mip.Data w h)
      (by show 19778 < 65536; omega) hfs (by show 0 < 4294967296; omega)
      (by show 1078 < 4294967296; omega) (by show 40 < 4294967296; omega)
      (by rw [hiw]; omega) (by rw [hih]; omega) (by show 1 < 65536; omega)
      (by show 8 < 65536; omega) (by show 0 < 4294967296; omega)
      (by show 0 < 4294967296; omega) (by show 0 < 4294967296; omega)
      (by show 0 < 4294967296; omega) (by show 0 < 4294967296; omega)
      (by show 0 < 4294967296; omega)
  rw [hiw] at r6
  rw [hih] at r7
  exact ⟨_, ExportBmpIndexed_returned tex w h pal mip hu hv hw hh hp hc hm hd, hlen,
    r1, r3, r4, r5, r6, r7, r8, r9, r10, r11, r12, r13, r14, r15⟩
theorem UnpackRgba_u32le (v : Nat) :
    u32le v = [toByte (UnpackRgba v).r, toByte (UnpackRgba v).g, toByte (UnpackRgba v).b,
      toByte (UnpackRgba v).a] := by
  rw [UnpackRgba_eq]
  simp only [toByte_mod]
  rfl

/-- The palette table of the bitmap of a well-formed `w` by `h` texture. -/
theorem ExportBmpIndexed_palette_bgra_wf (tex : UTexture) (w h : Nat) (pal : UPalette)
    (mip : UnrealMipmap) (hu : tex.USize = w) (hv : tex.VSize = h) (hw : w ≤ 8192)
    (hh : h ≤ 8192) (hp : tex.Palette = some pal) (hc : 256 ≤ pal.Colors.length)
    (hm : tex.Mipmaps[0]? = some mip) (hd : w * h ≤ mip.Data.length) :
    ∃ out, Exporter.ExportBmpIndexed tex = .returned out ∧
      ∀ i, i < 256 → ∃ v, pal.Colors[i]? = some v ∧
        out.data[54 + 4 * i]? = some (toByte (UnpackRgba v).b) ∧
        out.data[54 + 4 * i + 1]? = some (toByte (UnpackRgba v).g) ∧
        out.data[54 + 4 * i + 2]? = some (toByte (UnpackRgba v).r) ∧
        out.data[54 + 4 * i + 3]? = some (toByte (UnpackRgba v).a) ∧
        out.data[54 + 4 * i]? = (u32le v)[2]? ∧
        out.data[54 + 4 * i + 1]? = (u32le v)[1]? ∧
        out.data[54 + 4 * i + 2]? = (u32le v)[0]? ∧
        out.data[54 + 4 * i + 3]? = (u32le v)[3]? := by
  have hun := UnpackRgba_u32le
  refine ⟨_, ExportBmpIndexed_returned tex w h pal mip hu hv hw hh hp hc hm hd, fun i hi => ?_⟩
  have hv0 : pal.Colors[i]? = some (pal.Colors.getD i 0) :=
    getElem?_eq_some_getD _ _ 0 (by omega)
  have key : ∀ j, j < 4 →
      ((ExportBmpIndexed.finalHeader tex w h).bytes ++ (bmpPaletteBytes pal.Colors
        ++ bmpPixelBytes mip.Data w h))[54 + 4 * i + j]?
      = [toByte (UnpackRgba (pal.Colors.getD i 0)).b, toByte (UnpackRgba (pal.Colors.getD i 0)).g,
          toByte (UnpackRgba (pal.Colors.getD i 0)).r,
          toByte (UnpackRgba (pal.Colors.getD i 0)).a][j]? := by
    intro j hj
    have e : 54 + 4 * i + j - 54 = 4 * i + j := by omega
    rw [BmpHeader.getElem?_bytes_append _ _ _ (by omega), e,
      List.getElem?_append_left (by rw [length_bmpPaletteBytes]; omega),
      getElem?_bmpPaletteBytes _ i j hi hj, UnpackRgba_eq]
    simp only [toByte_mod]
  have k0 := key 0 (by omega)
  have k1 := key 1 (by omega)
  have k2 := key 2 (by omega)
  have k3 := key 3 (by omega)
  rw [Nat.add_zero] at k0
  refine ⟨_, hv0, k0, k1, k2, k3, ?_, ?_, ?_, ?_⟩
  · rw [hun]; exact k0
  · rw [hun]; exact k1
  · rw [hun]; exact k2
  · rw [hun]; exact k3
theorem Outcome.andThen_ne_thrown (o : Outcome) (k : MemoryStreamWriter → Outcome)
    (ho : ∀ e w, o ≠ .thrown e w) (hk : ∀ s e w, k s ≠ .thrown e w) :
    ∀ e w, o.andThen k ≠ .thrown e w := by
  intro e w
  cases o with
  | returned s => exact hk s e w
  | thrown e1 w1 => exact absurd rfl (ho e1 w1)
  | undefined w1 => simp

theorem forDown_not_thrown (body : Nat → MemoryStreamWriter → Outcome)
    (hb : ∀ i s e w, body i s ≠ .thrown e w) :
    ∀ (n : Nat) (s : MemoryStreamWriter) e w, forDown body n s ≠ .thrown e w
  | 0, s, e, w => by simp [forDown]
  | n + 1, s, e, w => by
    simp only [forDown]
    exact Outcome.andThen_ne_thrown _ _ (hb _ _) (forDown_not_thrown body hb n) e w

theorem writePalette_not_thrown (tex : UTexture) (s : MemoryStreamWriter) (e : ExportError)
    (w : MemoryStreamWriter) : ExportBmpIndexed.writePalette tex s ≠ .thrown e w := by
  unfold ExportBmpIndexed.writePalette
  cases tex.Palette with
  | none => simp
  | some pal =>
    apply forUp_not_thrown
    intro i s e w
    dsimp only
    cases readAt pal.Colors (i : Int) <;> simp

theorem writePixels_not_thrown (tex : UTexture) (s : MemoryStreamWriter) (e : ExportError)
    (w : MemoryStreamWriter) : ExportBmpIndexed.writePixels tex s ≠ .thrown e w := by
  unfold ExportBmpIndexed.writePixels
  cases tex.Mipmaps[0]? with
  | none => simp
  | some mip =>
    apply forDown_not_thrown
    intro y s e w
    apply forUp_not_thrown
    intro x s e w
    dsimp only
    cases readAt mip.Data (((y : Int) - 1) * tex.USize + (x : Int)) <;> simp

theorem Outcome.andThen_eq_returned (o : Outcome) (k : MemoryStreamWriter → Outcome)
    (out : MemoryStreamWriter) (h : o.andThen k = .returned out) :
    ∃ s, o = .returned s ∧ k s = .returned out := by
  cases o with
  | returned s => exact ⟨s, rfl, h⟩
  | thrown e w => simp at h
  | undefined w => simp at h

theorem forDown_returned_body (body : Nat → MemoryStreamWriter → Outcome) :
    ∀ (n : Nat) (s out : MemoryStreamWriter), forDown body n s = .returned out →
      ∀ y, 1 ≤ y → y ≤ n → ∃ s1 s2, body y s1 = .returned s2
  | 0, _, _, _, y, h1, h2 => by omega
  | n + 1, s, out, h, y, h1, h2 => by
    simp only [forDown] at h
    obtain ⟨s1, hb, hrest⟩ := Outcome.andThen_eq_returned _ _ _ h
    by_cases hy : y = n + 1
    · exact ⟨s, s1, hy ▸ hb⟩
    · exact forDown_returned_body body n s1 out hrest y h1 (by omega)

theorem readAt_lt {α : Type} (l : List α) (n : Nat) (a : α) (h : readAt l (n : Int) = some a) :
    n < l.length := by
  rw [readAt_natCast] at h
  by_contra hc
  rw [List.getElem?_eq_none (by omega)] at h
  simp at h

theorem writePalette_returned_inv (tex : UTexture) (s out : MemoryStreamWriter)
    (h : ExportBmpIndexed.writePalette tex s = .returned out) :
    ∃ pal, tex.Palette = some pal ∧ 256 ≤ pal.Colors.length := by
  unfold ExportBmpIndexed.writePalette at h
  cases hp : tex.Palette with
  | none => rw [hp] at h; simp at h
  | some pal =>
    rw [hp] at h
    refine ⟨pal, rfl, ?_⟩
    obtain ⟨s1, s2, hb⟩ := forUp_returned_body _ _ _ _ _ h 255 (by omega) (by omega)
    dsimp only at hb
    cases hr : readAt pal.Colors ((255 : Nat) : Int) with
    | none => rw [hr] at hb; simp at hb
    | some a => exact readAt_lt _ _ _ hr

theorem writePixels_returned_inv (tex : UTexture) (w h : Nat) (hu : tex.USize = w)
    (hv : tex.VSize = h) (s out : MemoryStreamWriter)
    (hr : ExportBmpIndexed.writePixels tex s = .returned out) :
    ∃ mip, tex.Mipmaps[0]? = some mip ∧ w * h ≤ mip.Data.length := by
  unfold ExportBmpIndexed.writePixels at hr
  cases hm : tex.Mipmaps[0]? with
  | none => rw [hm] at hr; simp at hr
  | some mip =>
    rw [hm, hu, hv] at hr
    simp only [Int.toNat_ofNat] at hr
    refine ⟨mip, rfl, ?_⟩
    by_cases hz : w = 0 ∨ h = 0
    · rcases hz with hz | hz <;> simp [hz]
    · have hw1 : 1 ≤ w := by omega
      have hh1 : 1 ≤ h := by omega
      obtain ⟨s1, s2, hrow⟩ := forDown_returned_body _ _ _ _ hr h hh1 (Nat.le_refl _)
      obtain ⟨s3, s4, hb⟩ := forUp_returned_body _ _ _ _ _ hrow (w - 1) (by omega) (by omega)
      have hidx : (((h : Nat) : Int) - 1) * (w : Int) + ((w - 1 : Nat) : Int)
          = (((h - 1) * w + (w - 1) : Nat) : Int) := by
        push_cast [Nat.cast_sub hh1, Nat.cast_sub hw1]; ring
      rw [hidx] at hb
      cases hrd : readAt mip.Data (((h - 1) * w + (w - 1) : Nat) : Int) with
      | none => rw [hrd] at hb; simp at hb
      | some a =>
        have hlt := readAt_lt _ _ _ hrd
        have e : (h - 1) * w + (w - 1) + 1 = w * h := by
          obtain ⟨h', rfl⟩ : ∃ h', h = h' + 1 := ⟨h - 1, by omega⟩
          obtain ⟨w', rfl⟩ : ∃ w', w = w' + 1 := ⟨w - 1, by omega⟩
          simp only [Nat.add_sub_cancel]
          ring
        omega

theorem ExportBmpIndexed_returned_inv (tex : UTexture) (w h : Nat) (hu : tex.USize = w)
    (hv : tex.VSize = h) (out : MemoryStreamWriter)
    (hr : ExportBmpIndexed tex = .returned out) :
    w ≤ 8192 ∧ h ≤ 8192 ∧ ∃ pal mip, tex.Palette = some pal ∧ 256 ≤ pal.Colors.length ∧
      tex.Mipmaps[0]? = some mip ∧ w * h ≤ mip.Data.length := by
  unfold ExportBmpIndexed at hr
  simp only [] at hr
  by_cases hg : tex.USize > 8192 ∨ tex.VSize > 8192
  · rw [if_pos hg] at hr
    simp at hr
  · rw [if_neg hg] at hr
    obtain ⟨s1, hpal, hrest⟩ := Outcome.andThen_eq_returned _ _ _ hr
    obtain ⟨s2, hpix, -⟩ := Outcome.andThen_eq_returned _ _ _ hrest
    obtain ⟨pal, hp, hc⟩ := writePalette_returned_inv tex _ _ hpal
    obtain ⟨mip, hm, hd⟩ := writePixels_returned_inv tex w h hu hv _ _ hpix
    rw [hu, hv] at hg
    exact ⟨by omega, by omega, pal, mip, hp, hc, hm, hd⟩

/-- Claim C5. For a paletted texture of natural width `w ≤ 8192` and height `h ≤ 8192`, every
buffer `ExportBmpIndexed` returns has exactly `14 + 40 + 1024 + w * h` bytes and its
little-endian `fileSize` field at bytes 2..5 equals that length; the buffer is the one built
before the rewind with the cursor set to 0 and a header written again, which changes neither
its length nor any byte from offset 54 on. A buffer is returned whenever the palette has at
least 256 entries and the first mip level holds the `w * h` index bytes. -/
theorem ExportBmpIndexed_fileSize (tex : UTexture) (w h : Nat) (hu : tex.USize = w)
    (hv : tex.VSize = h) (hw : w ≤ 8192) (hh : h ≤ 8192) :
    (∀ pal mip, tex.Palette = some pal → 256 ≤ pal.Colors.length →
      tex.Mipmaps[0]? = some mip → w * h ≤ mip.Data.length →
      ∃ out, Exporter.ExportBmpIndexed tex = .returned out) ∧
    ∀ out, Exporter.ExportBmpIndexed tex = .returned out →
      out.data.length = 14 + 40 + 1024 + w * h ∧
      readU32LE out.data 2 = some out.data.length ∧
      ∃ body hdr, Exporter.ExportBmpIndexed.firstPass tex = .returned body ∧
        out = (body.SeekSet 0).putBmpHeader hdr ∧
        out.data.length = body.data.length ∧
        ∀ k, 54 ≤ k → out.data[k]? = body.data[k]? := by
  refine ⟨fun pal mip hp hc hm hd =>
    ⟨_, ExportBmpIndexed_returned tex w h pal mip hu hv hw hh hp hc hm hd⟩, fun out hr => ?_⟩
  obtain ⟨-, -, pal, mip, hp, hc, hm, hd⟩ := ExportBmpIndexed_returned_inv tex w h hu hv out hr
  obtain ⟨body, out1, hb, ho, hrw, hlen, hfs, hbl, hk⟩ :=
    ExportBmpIndexed_fileSize_wf tex w h pal mip hu hv hw hh hp hc hm hd
  have e : out1 = out := Outcome.returned.inj (ho.symm.trans hr)
  subst e
  exact ⟨hlen, hfs, body, _, hb, hrw, hbl, hk⟩

/-- Claim C6. For a paletted texture of natural width `w` and height `h` whose first mip level
is `mip`, every buffer `ExportBmpIndexed` returns stores the pixel offset 1078 in its header
and holds the rows from there on bottom row first and left to right: for `r < h` and `x < w`
the byte at `1078 + r * w + x` is the source index byte at `(h - 1 - r) * w + x`. A buffer is
returned whenever `w, h ≤ 8192`, the palette has at least 256 entries and the mip level holds
the `w * h` index bytes. -/
theorem ExportBmpIndexed_rows_bottom_up (tex : UTexture) (w h : Nat) (hu : tex.USize = w)
    (hv : tex.VSize = h) (mip : UnrealMipmap) (hm : tex.Mipmaps[0]? = some mip) :
    (w ≤ 8192 → h ≤ 8192 → ∀ pal, tex.Palette = some pal → 256 ≤ pal.Colors.length →
      w * h ≤ mip.Data.length → ∃ out, Exporter.ExportBmpIndexed tex = .returned out) ∧
    ∀ out, Exporter.ExportBmpIndexed tex = .returned out →
      readU32LE out.data 10 = some 1078 ∧
      ∀ r x, r < h → x < w →
        (h - 1 - r) * w + x < mip.Data.length ∧
        out.data[1078 + r * w + x]? = mip.Data[(h - 1 - r) * w + x]? := by
  refine ⟨fun hw hh pal hp hc hd =>
    ⟨_, ExportBmpIndexed_returned tex w h pal mip hu hv hw hh hp hc hm hd⟩, fun out hr => ?_⟩
  obtain ⟨hw, hh, pal, mip1, hp, hc, hm1, hd⟩ :=
    ExportBmpIndexed_returned_inv tex w h hu hv out hr
  have em : mip1 = mip := Option.some.inj (hm1.symm.trans hm)
  subst em
  obtain ⟨out1, ho, hoff, hrows⟩ :=
    ExportBmpIndexed_rows_bottom_up_wf tex w h pal mip1 hu hv hw hh hp hc hm hd
  have e : out1 = out := Outcome.returned.inj (ho.symm.trans hr)
  subst e
  exact ⟨hoff, hrows⟩

/-- Claim C7. For a texture of natural width `w` and height `h` that `ExportBmpIndexed`
accepts, every returned buffer has `1078 + w * h` bytes and begins with the 54-byte
little-endian header (14-byte file header and 40-byte DIB header): signature 0x4D42, reserved
0, pixel-data offset 1078 = 14 + 40 + 1024, DIB header size 40, width `w`, height `h`, planes
1, bit depth 8, compression 0 and the five remaining fields 0. A buffer is returned whenever
`w, h ≤ 8192`, the palette has at least 256 entries and the first mip level holds the `w * h`
index bytes. -/
theorem ExportBmpIndexed_header (tex : UTexture) (w h : Nat) (hu : tex.USize = w)
    (hv : tex.VSize = h) :
    (w ≤ 8192 → h ≤ 8192 → ∀ pal mip, tex.Palette = some pal → 256 ≤ pal.Colors.length →
      tex.Mipmaps[0]? = some mip → w * h ≤ mip.Data.length →
      ∃ out, Exporter.ExportBmpIndexed tex = .returned out) ∧
    ∀ out, Exporter.ExportBmpIndexed tex = .returned out →
      out.data.length = 1078 + w * h ∧
      readU16LE out.data 0 = some 0x4D42 ∧
      readU32LE out.data 6 = some 0 ∧
      readU32LE out.data 10 = some 1078 ∧
      readU32LE out.data 14 = some 40 ∧
      readU32LE out.data 18 = some w ∧
      readU32LE out.data 22 = some h ∧
      readU16LE out.data 26 = some 1 ∧
      readU16LE out.data 28 = some 8 ∧
      readU32LE out.data 30 = some 0 ∧
      readU32LE out.data 34 = some 0 ∧
      readU32LE out.data 38 = some 0 ∧
      readU32LE out.data 42 = some 0 ∧
      readU32LE out.data 46 = some 0 ∧
      readU32LE out.data 50 = some 0 := by
  refine ⟨fun hw hh pal mip hp hc hm hd =>
    ⟨_, ExportBmpIndexed_returned tex w h pal mip hu hv hw hh hp hc hm hd⟩, fun out hr => ?_⟩
  obtain ⟨hw, hh, pal, mip, hp, hc, hm, hd⟩ :=
    ExportBmpIndexed_returned_inv tex w h hu hv out hr
  obtain ⟨out1, ho, hrest⟩ :=
    ExportBmpIndexed_header_wf tex w h pal mip hu hv hw hh hp hc hm hd
  have e : out1 = out := Outcome.returned.inj (ho.symm.trans hr)
  subst e
  exact hrest

/-- Claim C8. Unpacking a packed colour `v` gives `R = v & 0xFF`, `G = (v >> 8) & 0xFF`,
`B = (v >> 16) & 0xFF`, `A = (v >> 24) & 0xFF`, which are bytes 0, 1, 2 and 3 of its
little-endian encoding; and in every buffer `ExportBmpIndexed` returns for a texture with
palette `pal`, for every `i < 256` the four bytes at offsets `54 + 4 * i` to `54 + 4 * i + 3`
are `(B, G, R, A)` of palette entry `i`, i.e. the bytes of the source entry with bytes 0 and 2
exchanged and bytes 1 and 3 kept. A buffer is returned whenever the dimensions are natural
numbers `w, h ≤ 8192`, the palette has at least 256 entries and the first mip level holds the
`w * h` index bytes. -/
theorem ExportBmpIndexed_palette_bgra (tex : UTexture) (w h : Nat) (hu : tex.USize = w)
    (hv : tex.VSize = h) (pal : UPalette) (hp : tex.Palette = some pal) :
    (∀ v : Nat,
      (UnpackRgba v).r = v &&& 0xFF ∧ (UnpackRgba v).g = (v >>> 8) &&& 0xFF ∧
      (UnpackRgba v).b = (v >>> 16) &&& 0xFF ∧ (UnpackRgba v).a = (v >>> 24) &&& 0xFF ∧
      u32le v = [toByte (UnpackRgba v).r, toByte (UnpackRgba v).g, toByte (UnpackRgba v).b,
        toByte (UnpackRgba v).a]) ∧
    (w ≤ 8192 → h ≤ 8192 → 256 ≤ pal.Colors.length → ∀ mip, tex.Mipmaps[0]? = some mip →
      w * h ≤ mip.Data.length → ∃ out, Exporter.ExportBmpIndexed tex = .returned out) ∧
    ∀ out, Exporter.ExportBmpIndexed tex = .returned out →
      ∀ i, i < 256 → ∃ v, pal.Colors[i]? = some v ∧
        out.data[54 + 4 * i]? = some (toByte (UnpackRgba v).b) ∧
        out.data[54 + 4 * i + 1]? = some (toByte (UnpackRgba v).g) ∧
        out.data[54 + 4 * i + 2]? = some (toByte (UnpackRgba v).r) ∧
        out.data[54 + 4 * i + 3]? = some (toByte (UnpackRgba v).a) ∧
        out.data[54 + 4 * i]? = (u32le v)[2]? ∧
        out.data[54 + 4 * i + 1]? = (u32le v)[1]? ∧
        out.data[54 + 4 * i + 2]? = (u32le v)[0]? ∧
        out.data[54 + 4 * i + 3]? = (u32le v)[3]? := by
  refine ⟨fun v => ⟨rfl, rfl, rfl, rfl, UnpackRgba_u32le v⟩, fun hw hh hc mip hm hd =>
    ⟨_, ExportBmpIndexed_returned tex w h pal mip hu hv hw hh hp hc hm hd⟩, fun out hr => ?_⟩
  obtain ⟨hw, hh, pal1, mip, hp1, hc, hm, hd⟩ :=
    ExportBmpIndexed_returned_inv tex w h hu hv out hr
  have ep : pal1 = pal := Option.some.inj (hp1.symm.trans hp)
  subst ep
  obtain ⟨out1, ho, hrest⟩ :=
    ExportBmpIndexed_palette_bgra_wf tex w h pal1 mip hu hv hw hh hp hc hm hd
  have e : out1 = out := Outcome.returned.inj (ho.symm.trans hr)
  subst e
  exact hrest

/-- Claim C9. `ExportBmpIndexed` leaves through the oversized-image error exactly when the
width or the height is greater than 8192 (so a dimension of exactly 8192 is accepted);
whenever it throws, the error is that one, carrying the two dimensions, and the output writer
is still untouched: no byte written, cursor at 0 and no space reserved. -/
theorem ExportBmpIndexed_oversized_iff (tex : UTexture) :
    ((∃ u v wr, Exporter.ExportBmpIndexed tex = .thrown (.abnormallyLargeTexture u v) wr)
        ↔ (tex.USize > 8192 ∨ tex.VSize > 8192)) ∧
      (∀ e wr, Exporter.ExportBmpIndexed tex = .thrown e wr →
        e = .abnormallyLargeTexture tex.USize tex.VSize ∧
          wr.data = [] ∧ wr.pos = 0 ∧ wr.capacity = 0) := by
  by_cases hg : tex.USize > 8192 ∨ tex.VSize > 8192
  · have hT : Exporter.ExportBmpIndexed tex
        = .thrown (.abnormallyLargeTexture tex.USize tex.VSize) {} := by
      unfold Exporter.ExportBmpIndexed
      simp only []
      rw [if_pos hg]
    rw [hT]
    refine ⟨⟨fun _ => hg, fun _ => ⟨_, _, _, rfl⟩⟩, fun e wr h => ?_⟩
    simp only [Outcome.thrown.injEq] at h
    exact ⟨h.1.symm, by rw [← h.2], by rw [← h.2], by rw [← h.2]⟩
  · have hN : ∀ e wr, Exporter.ExportBmpIndexed tex ≠ .thrown e wr := by
      unfold Exporter.ExportBmpIndexed
      simp only []
      rw [if_neg hg]
      apply Outcome.andThen_ne_thrown _ _ (writePalette_not_thrown tex _)
      intro s
      apply Outcome.andThen_ne_thrown _ _ (writePixels_not_thrown tex _)
      intro s1 e w
      simp
    exact ⟨⟨fun ⟨u, v, wr, h⟩ => absurd h (hN _ _), fun h => absurd h hg⟩,
      fun e wr h => absurd h (hN _ _)⟩

/-- Claim C10. For a non-null texture whose class is none of FireTexture, WetTexture,
WaveTexture and IceTexture and whose pixel format is not P8, `ExportTexture` with the extension
"png" leaves through the unsupported-pixel-format error, which names the texture and the
numeric format code; no buffer is returned and nothing has been written. -/
theorem ExportTexture_png_unsupported_format (compress : List Byte → Int → Int → List Byte)
    (tex : UTexture) (h1 : tex.ClassName ≠ "FireTexture") (h2 : tex.ClassName ≠ "WetTexture")
    (h3 : tex.ClassName ≠ "WaveTexture") (h4 : tex.ClassName ≠ "IceTexture")
    (hf : tex.ActualFormat ≠ TextureFormat.P8) :
    ∃ code, tex.ActualFormat = TextureFormat.other code ∧
      Exporter.ExportTexture compress (some tex) "png"
        = .thrown (.unimplementedTextureType tex.Name code) {} := by
  cases hfmt : tex.ActualFormat with
  | P8 => exact absurd hfmt hf
  | other code =>
    refine ⟨code, rfl, ?_⟩
    simp [Exporter.ExportTexture, h1, h2, h3, h4, hfmt, Exporter.ExportPng, Exporter.GetImage]
/-! ## The vertex-animation stream -/

theorem and_0x7ff (v : Nat) : v &&& 0x7ff = v % 2048 :=
  Nat.and_pow_two_sub_one_eq_mod v 11

theorem and_0x3ff (v : Nat) : v &&& 0x3ff = v % 1024 :=
  Nat.and_pow_two_sub_one_eq_mod v 10

theorem toU32_mod_2048 (a : Int) : toU32 a % 2048 = (a % 2048).toNat := by
  unfold toU32; omega

theorem toU32_mod_1024 (a : Int) : toU32 a % 1024 = (a % 1024).toNat := by
  unfold toU32; omega

theorem or_pack_eq (A B C : Nat) (hA : A < 2048) (hB : B < 2048) (hC : C < 1024) :
    (A ||| (B <<< 11) ||| (C <<< 22)) % 4294967296 = A + 2048 * B + 4194304 * C := by
  rw [or_shiftLeft_eq_add A B 11 (by omega), or_shiftLeft_eq_add _ C 22 (by omega)]
  omega

theorem packVertex_eq (v : vec3) (hv : v.FitsInt) :
    packVertex v = some (packedWord (v.x.neg.scale 3).trunc (v.y.neg.scale 3).trunc
      (v.z.scale 2).trunc) := by
  obtain ⟨hx, hy, hz⟩ := hv
  have ex : (v.x.neg.scale 3).toInt = some (v.x.neg.scale 3).trunc := by
    exact if_pos hx
  have ey : (v.y.neg.scale 3).toInt = some (v.y.neg.scale 3).trunc := by
    exact if_pos hy
  have ez : (v.z.scale 2).toInt = some (v.z.scale 2).trunc := by
    exact if_pos hz
  unfold packVertex
  rw [ex, ey, ez]
  simp only [and_0x7ff, and_0x3ff, toU32_mod_2048, toU32_mod_1024]
  rw [or_pack_eq _ _ _ (by omega) (by omega) (by omega)]
  rfl

theorem packedWord_fields (a b c : Int) :
    packedWord a b c
        = ((a % 2048).toNat ||| ((b % 2048).toNat <<< 11) ||| ((c % 1024).toNat <<< 22))
            % 4294967296 ∧
      packedWord a b c < 4294967296 ∧
      packedWord a b c % 2048 = (a % 2048).toNat ∧
      packedWord a b c / 2048 % 2048 = (b % 2048).toNat ∧
      packedWord a b c / 4194304 = (c % 1024).toNat := by
  refine ⟨(or_pack_eq _ _ _ (by omega) (by omega) (by omega)).symm, ?_, ?_, ?_, ?_⟩ <;>
    (unfold packedWord; omega)

theorem putAnivHeader_atEnd (d : List Byte) (c : Nat) (hdr : U3DAnivHeader) :
    (MemoryStreamWriter.atEnd d c).putAnivHeader hdr
      = MemoryStreamWriter.atEnd (d ++ hdr.bytes) c := by
  simp only [MemoryStreamWriter.putAnivHeader, MemoryStreamWriter.putU16_atEnd,
    U3DAnivHeader.bytes, List.append_assoc]

theorem vertexWord_eq (verts : List vec3) (idx : Nat) (v : vec3) (hv : verts[idx]? = some v)
    (hf : v.FitsInt) :
    vertexWord verts idx = packedWord (v.x.neg.scale 3).trunc (v.y.neg.scale 3).trunc
      (v.z.scale 2).trunc := by
  unfold vertexWord
  rw [hv]
  dsimp only
  rw [packVertex_eq v hf]
  rfl

theorem frameIndex_cast (mesh : UMesh) (i k : Nat) (hk : k < mesh.FrameVerts.toNat) :
    (i : Int) * mesh.FrameVerts + (k : Int)
      = ((i * mesh.FrameVerts.toNat + k : Nat) : Int) := by
  have hV : mesh.FrameVerts = ((mesh.FrameVerts.toNat : Nat) : Int) := by omega
  rw [hV]; push_cast; simp

theorem ExportMeshAnim_returned (mesh : UMesh) (hs : mesh.ClassName ≠ "SkeletalMesh")
    (hok : ∀ i k, i < mesh.AnimFrames.toNat → k < mesh.FrameVerts.toNat →
      ∃ v, mesh.Verts[i * mesh.FrameVerts.toNat + k]? = some v ∧ v.FitsInt) :
    ExportMeshAnim (some mesh) = .returned (MemoryStreamWriter.atEnd
      (({ NumFrames := toU16 mesh.AnimFrames,
          FrameSize := toU16 (mesh.FrameVerts * 4) } : U3DAnivHeader).bytes
        ++ (List.range mesh.AnimFrames.toNat).flatMap (fun i =>
            (List.range mesh.FrameVerts.toNat).flatMap (fun k =>
              u32le (vertexWord mesh.Verts (i * mesh.FrameVerts.toNat + k))))) 0) := by
  unfold ExportMeshAnim
  simp only [hs, if_false, MemoryStreamWriter.empty_eq_atEnd, putAnivHeader_atEnd,
    List.nil_append]
  rw [forUp_atEnd _ (fun i => (List.range mesh.FrameVerts.toNat).flatMap (fun k =>
      u32le (vertexWord mesh.Verts (i * mesh.FrameVerts.toNat + k)))) 0
      mesh.AnimFrames.toNat 0]
  · simp only [List.range_eq_range']
  · intro i _ hi d1
    rw [forUp_atEnd _ (fun k => u32le (vertexWord mesh.Verts (i * mesh.FrameVerts.toNat + k))) 0
      mesh.FrameVerts.toNat 0]
    · rw [List.range_eq_range']
    · intro k _ hk d2
      obtain ⟨v, hget, hv⟩ := hok i k (by omega) (by omega)
      have hw := vertexWord_eq mesh.Verts _ _ hget hv
      rw [frameIndex_cast mesh i k (by omega), readAt_natCast, hget]
      dsimp only
      rw [packVertex_eq _ hv, hw]
      dsimp only
      rw [MemoryStreamWriter.putU32_atEnd]

theorem vertices_ok_of_length (mesh : UMesh)
    (hlen : mesh.AnimFrames.toNat * mesh.FrameVerts.toNat ≤ mesh.Verts.length)
    (hfit : ∀ v ∈ mesh.Verts, v.FitsInt) :
    ∀ i k, i < mesh.AnimFrames.toNat → k < mesh.FrameVerts.toNat →
      ∃ v, mesh.Verts[i * mesh.FrameVerts.toNat + k]? = some v ∧ v.FitsInt := by
  intro i k hi hk
  have hlt : i * mesh.FrameVerts.toNat + k < mesh.Verts.length := by
    have : (i + 1) * mesh.FrameVerts.toNat ≤ mesh.AnimFrames.toNat * mesh.FrameVerts.toNat :=
      Nat.mul_le_mul_right _ (by omega)
    nlinarith
  exact ⟨_, List.getElem?_eq_getElem hlt, hfit _ (List.getElem_mem hlt)⟩

theorem FitsInt_of_packVertex (v : vec3) (w : Nat) (h : packVertex v = some w) : v.FitsInt := by
  unfold packVertex FloatVal.toInt at h
  unfold vec3.FitsInt FloatVal.FitsInt
  split_ifs at h with h1 h2 h3
  exact ⟨h1, h2, h3⟩

theorem ExportMeshAnim_returned_inv (mesh : UMesh) (hs : mesh.ClassName ≠ "SkeletalMesh")
    (out : MemoryStreamWriter) (hr : ExportMeshAnim (some mesh) = .returned out) :
    ∀ i k, i < mesh.AnimFrames.toNat → k < mesh.FrameVerts.toNat →
      ∃ v, mesh.Verts[i * mesh.FrameVerts.toNat + k]? = some v ∧ v.FitsInt := by
  intro i k hi hk
  unfold ExportMeshAnim at hr
  simp only [hs, if_false] at hr
  obtain ⟨s1, s2, hrow⟩ := forUp_returned_body _ _ _ _ _ hr i (Nat.zero_le _) (by omega)
  obtain ⟨s3, s4, hb⟩ := forUp_returned_body _ _ _ _ _ hrow k (Nat.zero_le _) (by omega)
  rw [frameIndex_cast mesh i k hk, readAt_natCast] at hb
  cases hget : mesh.Verts[i * mesh.FrameVerts.toNat + k]? with
  | none => rw [hget] at hb; simp at hb
  | some v =>
    rw [hget] at hb
    dsimp only at hb
    cases hp : packVertex v with
    | none => rw [hp] at hb; simp at hb
    | some w => exact ⟨v, rfl, FitsInt_of_packVertex v w hp⟩

/-- Clearing in the mask `2 ^ n - 1` the bits of `m` leaves the complement of `m mod 2 ^ n`. -/
theorem ldiff_mask (n m : Nat) : Nat.ldiff (2 ^ n - 1) m = 2 ^ n - 1 - m % 2 ^ n := by
  apply Nat.eq_of_testBit_eq
  intro i
  have hlt : m % 2 ^ n < 2 ^ n := Nat.mod_lt _ (Nat.two_pow_pos n)
  have e : 2 ^ n - 1 - m % 2 ^ n = 2 ^ n - (m % 2 ^ n + 1) := by omega
  rw [Nat.testBit_ldiff, Nat.testBit_two_pow_sub_one, e, Nat.testBit_two_pow_sub_succ hlt,
    Nat.testBit_mod_two_pow]
  by_cases h : i < n <;> simp [h]

/-- On a two's-complement integer, `a & 0x7FF` is the residue of `a` modulo `2 ^ 11`. -/
theorem land_0x7FF (a : Int) : Int.land a 0x7FF = a % 2048 := by
  cases a with
  | ofNat m =>
    show (((m &&& (2 ^ 11 - 1) : Nat)) : Int) = _
    rw [Nat.and_pow_two_sub_one_eq_mod, Int.ofNat_eq_coe]
    omega
  | negSucc m =>
    show ((Nat.ldiff (2 ^ 11 - 1) m : Nat) : Int) = _
    rw [ldiff_mask, Int.negSucc_eq]
    omega

/-- On a two's-complement integer, `a & 0x3FF` is the residue of `a` modulo `2 ^ 10`. -/
theorem land_0x3FF (a : Int) : Int.land a 0x3FF = a % 1024 := by
  cases a with
  | ofNat m =>
    show (((m &&& (2 ^ 10 - 1) : Nat)) : Int) = _
    rw [Nat.and_pow_two_sub_one_eq_mod, Int.ofNat_eq_coe]
    omega
  | negSucc m =>
    show ((Nat.ldiff (2 ^ 10 - 1) m : Nat) : Int) = _
    rw [ldiff_mask, Int.negSucc_eq]
    omega

theorem getElem?_words (hb : List Byte) (hh : hb.length = 4) (g : Nat → Nat) (F V i k j : Nat)
    (hi : i < F) (hk : k < V) (hj : j < 4) :
    (hb ++ (List.range F).flatMap (fun i => (List.range V).flatMap (fun k =>
        u32le (g (i * V + k)))))[4 + 4 * (i * V + k) + j]?
      = (u32le (g (i * V + k)))[j]? := by
  have e : 4 + 4 * (i * V + k) + j - 4 = (4 * V) * i + (4 * k + j) := by
    have : 4 * (i * V + k) = 4 * V * i + 4 * k := by ring
    omega
  have hin : ∀ i0 ∈ List.range F,
      ((List.range V).flatMap (fun k => u32le (g (i0 * V + k)))).length = 4 * V := by
    intro i0 _
    rw [length_flatMap_const (fun k => u32le (g (i0 * V + k))) 4 _ (fun _ _ => rfl),
      List.length_range]
  rw [List.getElem?_append_right (by omega), hh, e,
    getElem?_flatMap_const (fun i => (List.range V).flatMap (fun k => u32le (g (i * V + k))))
      (4 * V) (List.range F) hin i (4 * k + j) i (List.getElem?_range hi) (by omega),
    getElem?_flatMap_const (fun k => u32le (g (i * V + k))) 4 (List.range V) (fun _ _ => rfl)
      k j k (List.getElem?_range hk) hj]

/-- Claim C4. For the vertex `(x, y, z)` at position `k` of frame `i` of a non-skeletal mesh,
with `a = trunc(-x * 8)`, `b = trunc(-y * 8)`, `c = trunc(z * 4)`, the 32-bit word at offset
`4 + 4 * (i * V + k)` of every stream `ExportMeshAnim` returns is
`(a & 0x7FF) | ((b & 0x7FF) << 11) | ((c & 0x3FF) << 22)` modulo `2 ^ 32`, where `&` on the
integers is the two's-complement `Int.land`; bits 0..10 of the word hold `a & 0x7FF`, bits
11..21 hold `b & 0x7FF` and bits 22..31 hold `c & 0x3FF`, without overlap. A stream is returned
whenever the vertex buffer holds the `F * V` vertices and the conversions to `int` are defined
for its vertices. -/
theorem ExportMeshAnim_packed_word (mesh : UMesh) (hs : mesh.ClassName ≠ "SkeletalMesh")
    (i k : Nat) (hi : i < mesh.AnimFrames.toNat) (hk : k < mesh.FrameVerts.toNat) (v : vec3)
    (hv : mesh.Verts[i * mesh.FrameVerts.toNat + k]? = some v) :
    (mesh.AnimFrames.toNat * mesh.FrameVerts.toNat ≤ mesh.Verts.length →
      (∀ v ∈ mesh.Verts, v.FitsInt) →
      ∃ out, Exporter.ExportMeshAnim (some mesh) = .returned out) ∧
    ∀ out, Exporter.ExportMeshAnim (some mesh) = .returned out →
      ∃ word, readU32LE out.data (4 + 4 * (i * mesh.FrameVerts.toNat + k)) = some word ∧
        word = ((Int.land (v.x.neg.scale 3).trunc 0x7FF).toNat
                  ||| ((Int.land (v.y.neg.scale 3).trunc 0x7FF).toNat <<< 11)
                  ||| ((Int.land (v.z.scale 2).trunc 0x3FF).toNat <<< 22)) % 4294967296 ∧
        word % 2048 = (Int.land (v.x.neg.scale 3).trunc 0x7FF).toNat ∧
        word / 2048 % 2048 = (Int.land (v.y.neg.scale 3).trunc 0x7FF).toNat ∧
        word / 4194304 = (Int.land (v.z.scale 2).trunc 0x3FF).toNat := by
  refine ⟨fun hlen hfit =>
    ⟨_, ExportMeshAnim_returned mesh hs (vertices_ok_of_length mesh hlen hfit)⟩,
    fun out hr => ?_⟩
  have hok := ExportMeshAnim_returned_inv mesh hs out hr
  rw [ExportMeshAnim_returned mesh hs hok] at hr
  have e := Outcome.returned.inj hr
  subst e
  obtain ⟨v1, hv1, hfit⟩ := hok i k hi hk
  have ev : v1 = v := Option.some.inj (hv1.symm.trans hv)
  subst ev
  rw [land_0x7FF, land_0x7FF, land_0x3FF]
  have hw := vertexWord_eq mesh.Verts _ v1 hv hfit
  obtain ⟨f1, f2, f3, f4, f5⟩ := packedWord_fields (v1.x.neg.scale 3).trunc
    (v1.y.neg.scale 3).trunc (v1.z.scale 2).trunc
  refine ⟨_, ?_, f1, f3, f4, f5⟩
  have key : ∀ j, j < 4 → (MemoryStreamWriter.atEnd
      (({ NumFrames := toU16 mesh.AnimFrames,
          FrameSize := toU16 (mesh.FrameVerts * 4) } : U3DAnivHeader).bytes
        ++ (List.range mesh.AnimFrames.toNat).flatMap (fun i =>
            (List.range mesh.FrameVerts.toNat).flatMap (fun k =>
              u32le (vertexWord mesh.Verts (i * mesh.FrameVerts.toNat + k))))) 0).data[
        4 + 4 * (i * mesh.FrameVerts.toNat + k) + j]?
      = (u32le (packedWord (v1.x.neg.scale 3).trunc (v1.y.neg.scale 3).trunc
          (v1.z.scale 2).trunc))[j]? := by
    intro j hj
    dsimp only [MemoryStreamWriter.atEnd]
    rw [getElem?_words (U3DAnivHeader.bytes _) rfl (vertexWord mesh.Verts) _ _ i k j hi hk hj,
      hw]
  have k0 := key 0 (by omega)
  rw [Nat.add_zero] at k0
  exact readU32LE_of_getElem _ _ _ f2 k0 (key 1 (by omega)) (key 2 (by omega)) (key 3 (by omega))
/-! ## The claims on the sample assets -/

/-- Claim C1, at the boundary: a generic mesh with 65536 triangles is rejected with the
too-many-triangles error. -/
theorem ExportMeshData_tooManyTriangles_iff_witness :
    Sample.bigMesh.ClassName ≠ "SkeletalMesh" ∧
      ∃ n name w, Exporter.ExportMeshData Sample.polyFlags Sample.zeroHeader (some Sample.bigMesh)
        = .thrown (.tooManyTriangles n name) w :=
  ⟨by decide,
    (ExportMeshData_tooManyTriangles_iff Sample.polyFlags Sample.zeroHeader Sample.bigMesh
      (by decide)).1.2 (by
        have hc : Sample.bigMesh.polygonCount = 65536 := by
          unfold UMesh.polygonCount
          rw [if_neg (by decide)]
          exact List.length_replicate _ _
        rw [hc]
        decide)⟩

/-- Claim C2, on the sample mesh: its first triangle is two-sided and modulated and is exported
with type code 4. -/
theorem ExportMeshData_typeCode_witness :
    Sample.mesh.ClassName ≠ "LodMesh" ∧ Sample.mesh.ClassName ≠ "SkeletalMesh" ∧
      Sample.mesh.Tris[0]? = some Sample.triangle ∧
      ∃ out, Exporter.ExportMeshData Sample.polyFlags Sample.zeroHeader (some Sample.mesh)
          = .returned out ∧ out.data[48 + 16 * 0 + 6]? = some 4 :=
  ⟨by decide, by decide, rfl,
    (ExportMeshData_typeCode Sample.polyFlags Sample.zeroHeader Sample.mesh (by decide)
      (by decide) 0 Sample.triangle rfl).elim fun h1 h2 =>
        (h1 (by decide)).elim fun out ho => ⟨out, ho, (h2 out ho).1 (by decide) (by decide)⟩⟩

/-- Claim C3, on the sample LOD mesh: the record of its second and last face has type code 8
although its material is plain two-sided. -/
theorem ExportLodMesh_last_face_weaponTriangle_witness :
    1 ≤ Sample.lodMesh.Faces.length ∧ Sample.lodMesh.SpecialFaces.length = 1 ∧
      ∃ out, Exporter.ExportLodMesh Sample.polyFlags Sample.zeroHeader Sample.lodMesh
          = .returned out ∧ out.data.length = 80 ∧ out.data[70]? = some 8 :=
  ⟨by decide, by decide,
    (ExportLodMesh_last_face_weaponTriangle Sample.polyFlags Sample.zeroHeader Sample.lodMesh
      (by decide) (by decide)).elim fun h1 h2 =>
        (h1 (by decide) (by decide)).elim fun out ho => ⟨out, ho, (h2 out ho).1, (h2 out ho).2⟩⟩
/-- Claim C4, on the sample mesh: its single vertex `(1.0, 2.0, 3.0)` is written as the word
`(-8 & 0x7FF) | ((-16 & 0x7FF) << 11) | ((12 & 0x3FF) << 22)`, which is 54495224. -/
theorem ExportMeshAnim_packed_word_witness :
    Sample.mesh.ClassName ≠ "SkeletalMesh" ∧
      Sample.mesh.Verts[0 * Sample.mesh.FrameVerts.toNat + 0]? = some ⟨⟨1, 0⟩, ⟨1, 1⟩, ⟨3, 0⟩⟩ ∧
      (∃ out, Exporter.ExportMeshAnim (some Sample.mesh) = .returned out ∧
        readU32LE out.data 4 = some 54495224) ∧
      54495224 = (Int.land (-8) 0x7FF).toNat ||| ((Int.land (-16) 0x7FF).toNat <<< 11)
        ||| ((Int.land 12 0x3FF).toNat <<< 22) := by
  refine ⟨by decide, rfl, ?_, by rw [land_0x7FF, land_0x7FF, land_0x3FF]; decide⟩
  obtain ⟨hex, hall⟩ := ExportMeshAnim_packed_word Sample.mesh (by decide) 0 0 (by decide)
    (by decide) ⟨⟨1, 0⟩, ⟨1, 1⟩, ⟨3, 0⟩⟩ rfl
  obtain ⟨out, ho⟩ := hex (by decide) (by decide)
  obtain ⟨word, hrd, hword, -⟩ := hall out ho
  refine ⟨out, ho, hrd.trans (congrArg some (hword.trans ?_))⟩
  rw [land_0x7FF, land_0x7FF, land_0x3FF]
  decide

theorem Sample.length_palette : 256 ≤ Sample.palette.Colors.length := by
  simp [Sample.palette]

/-- Claim C5, on the 2 by 2 sample texture: a buffer is returned, it has 1082 bytes and its
`fileSize` field holds 1082. -/
theorem ExportBmpIndexed_fileSize_witness :
    Sample.texture.USize = (2 : Nat) ∧ Sample.texture.VSize = (2 : Nat) ∧
      ∃ out, Exporter.ExportBmpIndexed Sample.texture = .returned out ∧
        out.data.length = 1082 ∧ readU32LE out.data 2 = some 1082 := by
  refine ⟨rfl, rfl, ?_⟩
  obtain ⟨hex, hall⟩ := ExportBmpIndexed_fileSize Sample.texture 2 2 rfl rfl (by decide)
    (by decide)
  obtain ⟨out, ho⟩ := hex Sample.palette ⟨[1, 2, 3, 4]⟩ rfl Sample.length_palette rfl
    (by decide)
  obtain ⟨hlen, hfs, -⟩ := hall out ho
  rw [hlen] at hfs
  exact ⟨out, ho, hlen, hfs⟩

/-- Claim C6, on the 2 by 2 sample texture with rows `1 2` and `3 4`: the pixel section reads
`3 4 1 2`. -/
theorem ExportBmpIndexed_rows_bottom_up_witness :
    Sample.texture.USize = (2 : Nat) ∧ Sample.texture.VSize = (2 : Nat) ∧
      Sample.texture.Mipmaps[0]? = some ⟨[1, 2, 3, 4]⟩ ∧
      ∃ out, Exporter.ExportBmpIndexed Sample.texture = .returned out ∧
        out.data[1078]? = some 3 ∧ out.data[1079]? = some 4 ∧
        out.data[1080]? = some 1 ∧ out.data[1081]? = some 2 := by
  refine ⟨rfl, rfl, rfl, ?_⟩
  obtain ⟨hex, hall⟩ := ExportBmpIndexed_rows_bottom_up Sample.texture 2 2 rfl rfl
    ⟨[1, 2, 3, 4]⟩ rfl
  obtain ⟨out, ho⟩ := hex (by decide) (by decide) Sample.palette rfl Sample.length_palette
    (by decide)
  obtain ⟨-, hrows⟩ := hall out ho
  exact ⟨out, ho, (hrows 0 0 (by decide) (by decide)).2, (hrows 0 1 (by decide) (by decide)).2,
    (hrows 1 0 (by decide) (by decide)).2, (hrows 1 1 (by decide) (by decide)).2⟩

/-- Claim C7, on the 2 by 2 sample texture: signature `BM`, pixel offset 1078, width 2,
height 2, one plane, eight bits per pixel. -/
theorem ExportBmpIndexed_header_witness :
    Sample.texture.USize = (2 : Nat) ∧ Sample.texture.VSize = (2 : Nat) ∧
      ∃ out, Exporter.ExportBmpIndexed Sample.texture = .returned out ∧
        readU16LE out.data 0 = some 0x4D42 ∧ readU32LE out.data 10 = some 1078 ∧
        readU32LE out.data 18 = some 2 ∧ readU32LE out.data 22 = some 2 ∧
        readU16LE out.data 26 = some 1 ∧ readU16LE out.data 28 = some 8 := by
  refine ⟨rfl, rfl, ?_⟩
  obtain ⟨hex, hall⟩ := ExportBmpIndexed_header Sample.texture 2 2 rfl rfl
  obtain ⟨out, ho⟩ := hex (by decide) (by decide) Sample.palette ⟨[1, 2, 3, 4]⟩ rfl
    Sample.length_palette rfl (by decide)
  obtain ⟨-, r1, -, r4, -, r6, r7, r8, r9, -⟩ := hall out ho
  exact ⟨out, ho, r1, r4, r6, r7, r8, r9⟩

/-- Claim C8, on the sample texture: palette entry 1 packs `(R, G, B, A) = (1, 2, 3, 254)` and
is stored at offsets 58..61 as `3, 2, 1, 254`. -/
theorem ExportBmpIndexed_palette_bgra_witness :
    Sample.texture.USize = (2 : Nat) ∧ Sample.texture.VSize = (2 : Nat) ∧
      Sample.texture.Palette = some Sample.palette ∧
      ∃ out, Exporter.ExportBmpIndexed Sample.texture = .returned out ∧
        out.data[58]? = some 3 ∧ out.data[59]? = some 2 ∧
        out.data[60]? = some 1 ∧ out.data[61]? = some 254 := by
  refine ⟨rfl, rfl, rfl, ?_⟩
  obtain ⟨-, hex, hall⟩ := ExportBmpIndexed_palette_bgra Sample.texture 2 2 rfl rfl
    Sample.palette rfl
  obtain ⟨out, ho⟩ := hex (by decide) (by decide) Sample.length_palette ⟨[1, 2, 3, 4]⟩ rfl
    (by decide)
  obtain ⟨v, hv, h0, h1, h2, h3, -⟩ := hall out ho 1 (by decide)
  have hv1 : Sample.palette.Colors[1]? = some 4261609985 := by
    simp [Sample.palette, List.getElem?_range]
  rw [hv1] at hv
  simp only [Option.some.injEq] at hv
  subst hv
  exact ⟨out, ho, h0, h1, h2, h3⟩

/-- Claim C10, on the sample texture in a format other than P8: the request for "png" ends in
the unsupported-pixel-format error naming the texture and format code 5. -/
theorem ExportTexture_png_unsupported_format_witness :
    Sample.rgbaTexture.ClassName ≠ "FireTexture" ∧ Sample.rgbaTexture.ClassName ≠ "WetTexture" ∧
      Sample.rgbaTexture.ClassName ≠ "WaveTexture" ∧
      Sample.rgbaTexture.ClassName ≠ "IceTexture" ∧
      Sample.rgbaTexture.ActualFormat ≠ TextureFormat.P8 ∧
      Exporter.ExportTexture Sample.noCompress (some Sample.rgbaTexture) "png"
        = .thrown (.unimplementedTextureType "Tex" 5) {} :=
  ⟨by decide, by decide, by decide, by decide, by decide,
    (ExportTexture_png_unsupported_format Sample.noCompress Sample.rgbaTexture (by decide)
      (by decide) (by decide) (by decide) (by decide)).elim fun code h =>
        (TextureFormat.other.inj h.1) ▸ h.2⟩

/-! ## The texture dispatch by format and extension -/

theorem ExportBmpIndexed_thrown_inv (tex : UTexture) (e : ExportError) (wr : MemoryStreamWriter)
    (h : Exporter.ExportBmpIndexed tex = .thrown e wr) :
    e = .abnormallyLargeTexture tex.USize tex.VSize := by
  unfold Exporter.ExportBmpIndexed at h
  simp only [] at h
  by_cases hg : tex.USize > 8192 ∨ tex.VSize > 8192
  · rw [if_pos hg] at h
    injection h with h1 h2
    exact h1.symm
  · rw [if_neg hg] at h
    exfalso
    revert h
    apply Outcome.andThen_ne_thrown _ _ (writePalette_not_thrown tex _)
    intro s
    apply Outcome.andThen_ne_thrown _ _ (writePixels_not_thrown tex _)
    intro s1 e w
    simp

theorem GetImageP8_not_thrown (tex : UTexture) (e : ExportError) (wr : MemoryStreamWriter) :
    Exporter.GetImageP8 tex ≠ .thrown e wr := by
  unfold Exporter.GetImageP8
  simp only []
  cases tex.Mipmaps[0]? with
  | none => simp
  | some mip =>
    simp only []
    apply forUp_not_thrown
    intro y s e w
    apply forUp_not_thrown
    intro x s e w
    cases readAt mip.Data ((y : Int) * tex.USize + (x : Int)) with
    | none => simp
    | some color =>
      cases tex.Palette with
      | none => simp
      | some palette =>
        simp only []
        split <;> simp

theorem ExportPng_thrown_inv (compress : List Byte → Int → Int → List Byte) (tex : UTexture)
    (e : ExportError) (wr : MemoryStreamWriter)
    (h : Exporter.ExportPng compress tex = .thrown e wr) :
    ∃ code, e = .unimplementedTextureType tex.Name code := by
  unfold Exporter.ExportPng at h
  cases hg : Exporter.GetImage tex with
  | returned s => rw [hg] at h; simp at h
  | undefined w => rw [hg] at h; simp at h
  | thrown e1 w1 =>
    rw [hg] at h
    simp only [Outcome.andThen_thrown, Outcome.thrown.injEq] at h
    unfold Exporter.GetImage at hg
    cases hf : tex.ActualFormat with
    | P8 => rw [hf] at hg; exact absurd hg (GetImageP8_not_thrown tex _ _)
    | other code =>
      rw [hf] at hg
      simp only [Outcome.thrown.injEq] at hg
      exact ⟨code, by rw [← h.1, ← hg.1]⟩

/-- Claim C11. For a non-null texture whose class is none of FireTexture, WetTexture,
WaveTexture and IceTexture, `ExportTexture` is `ExportBmpIndexed` when the format is P8 and the
extension is "bmp", it is `ExportPng` when the extension is "png", and in every other case it
throws the unknown-format error for the extension, with nothing written; it leaves through the
unknown-format error if and only if the extension is not "png" and not (the format is P8 and the
extension is "bmp"). The extension is compared for equality of strings, so that no other
spelling of "bmp" or "png" is accepted. -/
theorem ExportTexture_routing (compress : List Byte → Int → Int → List Byte)
    (tex : UTexture) (ext : String)
    (h1 : tex.ClassName ≠ "FireTexture") (h2 : tex.ClassName ≠ "WetTexture")
    (h3 : tex.ClassName ≠ "WaveTexture") (h4 : tex.ClassName ≠ "IceTexture") :
    (tex.ActualFormat = TextureFormat.P8 → ext = "bmp" →
      Exporter.ExportTexture compress (some tex) ext = Exporter.ExportBmpIndexed tex) ∧
    (ext = "png" →
      Exporter.ExportTexture compress (some tex) ext = Exporter.ExportPng compress tex) ∧
    (ext ≠ "png" → ¬ (tex.ActualFormat = TextureFormat.P8 ∧ ext = "bmp") →
      Exporter.ExportTexture compress (some tex) ext = .thrown (.unknownTextureFormat ext) {}) ∧
    ((∃ e wr, Exporter.ExportTexture compress (some tex) ext
        = .thrown (.unknownTextureFormat e) wr) ↔
      (ext ≠ "png" ∧ ¬ (tex.ActualFormat = TextureFormat.P8 ∧ ext = "bmp"))) := by
  have hbmp : tex.ActualFormat = TextureFormat.P8 → ext = "bmp" →
      Exporter.ExportTexture compress (some tex) ext = Exporter.ExportBmpIndexed tex := by
    intro hf he
    simp [Exporter.ExportTexture, h1, h2, h3, h4, hf, he]
  have hpng : ext = "png" →
      Exporter.ExportTexture compress (some tex) ext = Exporter.ExportPng compress tex := by
    intro he
    subst he
    simp [Exporter.ExportTexture, h1, h2, h3, h4]
  have hother : ext ≠ "png" → ¬ (tex.ActualFormat = TextureFormat.P8 ∧ ext = "bmp") →
      Exporter.ExportTexture compress (some tex) ext
        = .thrown (.unknownTextureFormat ext) {} := by
    intro he hb
    simp only [Exporter.ExportTexture, if_neg h1, if_neg h2, if_neg h3, if_neg h4, if_neg hb,
      if_neg he]
  refine ⟨hbmp, hpng, hother, ?_, ?_⟩
  · rintro ⟨e, wr, h⟩
    by_cases hb : tex.ActualFormat = TextureFormat.P8 ∧ ext = "bmp"
    · rw [hbmp hb.1 hb.2] at h
      have := ExportBmpIndexed_thrown_inv tex _ _ h
      cases this
    · by_cases he : ext = "png"
      · rw [hpng he] at h
        obtain ⟨code, hc⟩ := ExportPng_thrown_inv compress tex _ _ h
        cases hc
      · exact ⟨he, hb⟩
  · rintro ⟨he, hb⟩
    exact ⟨ext, {}, hother he hb⟩

theorem ExportTexture_routing_witness :
    Exporter.ExportTexture Sample.noCompress (some Sample.texture) "bmp"
        = Exporter.ExportBmpIndexed Sample.texture ∧
      Exporter.ExportTexture Sample.noCompress (some Sample.texture) "png"
        = Exporter.ExportPng Sample.noCompress Sample.texture ∧
      Exporter.ExportTexture Sample.noCompress (some Sample.texture) "PNG"
        = .thrown (.unknownTextureFormat "PNG") {} ∧
      Exporter.ExportTexture Sample.noCompress (some Sample.texture) "BMP"
        = .thrown (.unknownTextureFormat "BMP") {} ∧
      Exporter.ExportTexture Sample.noCompress (some Sample.rgbaTexture) "bmp"
        = .thrown (.unknownTextureFormat "bmp") {} :=
  have h := ExportTexture_routing Sample.noCompress Sample.texture
  have r := ExportTexture_routing Sample.noCompress Sample.rgbaTexture "bmp"
    (by decide) (by decide) (by decide) (by decide)
  ⟨(h "bmp" (by decide) (by decide) (by decide) (by decide)).1 rfl rfl,
    (h "png" (by decide) (by decide) (by decide) (by decide)).2.1 rfl,
    (h "PNG" (by decide) (by decide) (by decide) (by decide)).2.2.1 (by decide) (by decide),
    (h "BMP" (by decide) (by decide) (by decide) (by decide)).2.2.1 (by decide) (by decide),
    r.2.2.1 (by decide) (by decide)⟩

/-! ## Fonts -/

theorem strBytes_append (a b : String) : strBytes (a ++ b) = strBytes a ++ strBytes b := by
  simp [strBytes, String.toList]

theorem forEach_atEnd {α : Type} (body : α → MemoryStreamWriter → Outcome) (f : α → List Byte)
    (c : Nat) :
    ∀ (l : List α) (d : List Byte),
      (∀ x ∈ l, ∀ d1, body x (MemoryStreamWriter.atEnd d1 c)
        = .returned (MemoryStreamWriter.atEnd (d1 ++ f x) c)) →
      forEach body l (MemoryStreamWriter.atEnd d c)
        = .returned (MemoryStreamWriter.atEnd (d ++ l.flatMap f) c)
  | [], d, _ => by simp [forEach]
  | x :: xs, d, h => by
    have h0 := h x (List.mem_cons_self _ _) d
    have ih := forEach_atEnd body f c xs (d ++ f x) (fun y hy => h y (List.mem_cons_of_mem _ hy))
    simp only [forEach, h0, Outcome.andThen_returned, ih, List.flatMap_cons, List.append_assoc]

theorem forEach_returned_body {α : Type} (body : α → MemoryStreamWriter → Outcome) :
    ∀ (l : List α) (s out : MemoryStreamWriter), forEach body l s = .returned out →
      ∀ x ∈ l, ∃ s1 s2, body x s1 = .returned s2
  | [], _, _, _, x, hx => by simp at hx
  | y :: ys, s, out, h, x, hx => by
    simp only [forEach] at h
    obtain ⟨s1, h1, h2⟩ := Outcome.andThen_eq_returned _ _ _ h
    rcases List.mem_cons.mp hx with hxy | hxy
    · exact ⟨s, s1, hxy ▸ h1⟩
    · exact forEach_returned_body body ys s1 out h2 x hxy

theorem character_atEnd (i : Nat) (c : FontCharacter) (d : List Byte) (cap : Nat) :
    Exporter.ExportFont.character i c (MemoryStreamWriter.atEnd d cap)
      = MemoryStreamWriter.atEnd (d ++ fontCharBytes i c) cap := by
  unfold Exporter.ExportFont.character fontCharBytes FontCharacter.isSentinel
  simp only []
  by_cases h : c.StartU = 0 ∧ c.StartV = 0 ∧ c.VSize = 0 ∧ c.USize = 0
  · have h' : c.StartU = 0 ∧ c.StartV = 0 ∧ c.USize = 0 ∧ c.VSize = 0 :=
      ⟨h.1, h.2.1, h.2.2.2, h.2.2.1⟩
    rw [if_pos h, decide_eq_true h', if_pos rfl, List.append_nil]
  · have h' : ¬ (c.StartU = 0 ∧ c.StartV = 0 ∧ c.USize = 0 ∧ c.VSize = 0) :=
      fun k => h ⟨k.1, k.2.1, k.2.2.2, k.2.2.1⟩
    rw [if_neg h, decide_eq_false h']
    simp only [MemoryStreamWriter.putStr_atEnd, fontCharFields, strBytes_append,
      List.append_assoc, Bool.false_eq_true, if_false]

theorem enumFrom_flatMap_range' {α β : Type} (g : Nat → α → List β) :
    ∀ (l : List α) (k : Nat),
      (List.range' k l.length).flatMap
          (fun i => (l[i - k]?).elim [] (g i))
        = (l.enumFrom k).flatMap (fun ic => g ic.1 ic.2)
  | [], k => by simp
  | x :: xs, k => by
    have ih := enumFrom_flatMap_range' g xs (k + 1)
    simp only [List.length_cons, List.range'_succ, List.flatMap_cons, Nat.sub_self,
      List.getElem?_cons_zero, List.enumFrom_cons, Option.elim_some]
    rw [← ih]
    congr 1
    apply List.flatMap_congr
    intro i hi
    have hk : k + 1 ≤ i := (List.mem_range'_1.mp hi).1
    have : i - k = (i - (k + 1)) + 1 := by omega
    rw [this, List.getElem?_cons_succ]

theorem page_atEnd (page : FontPage) (texture : UTexture) (ht : page.Texture = some texture)
    (d : List Byte) (cap : Nat) :
    Exporter.ExportFont.page page (MemoryStreamWriter.atEnd d cap)
      = .returned (MemoryStreamWriter.atEnd (d ++ (strBytes "\tBEGIN PAGE\r\n"
          ++ strBytes ("\t\tTexture=\x27" ++ page.textureName ++ "\x27\r\n")
          ++ page.Characters.enum.flatMap (fun ic => fontCharBytes ic.1 ic.2)
          ++ strBytes "\tEND PAGE\r\n")) cap) := by
  unfold Exporter.ExportFont.page FontPage.textureName
  simp only [ht, MemoryStreamWriter.putStr_atEnd]
  rw [forUp_atEnd _ (fun i => (page.Characters[i]?).elim [] (fontCharBytes i)) cap]
  · have := enumFrom_flatMap_range' fontCharBytes page.Characters 0
    simp only [Nat.sub_zero] at this
    simp only [Outcome.andThen_returned, MemoryStreamWriter.putStr_atEnd, List.enum, ← this,
      List.append_assoc]
  · intro i _ hi d1
    have hi' : i < page.Characters.length := by omega
    rw [List.getElem?_eq_getElem hi']
    simp only [character_atEnd, Option.elim_some]

theorem page_returned_inv (page : FontPage) (s out : MemoryStreamWriter)
    (h : Exporter.ExportFont.page page s = .returned out) : ∃ t, page.Texture = some t := by
  unfold Exporter.ExportFont.page at h
  cases ht : page.Texture with
  | none => rw [ht] at h; simp at h
  | some t => exact ⟨t, rfl⟩

theorem ExportFont_returned (font : UFont) (h : ∀ page ∈ font.Pages, ∃ t, page.Texture = some t) :
    Exporter.ExportFont font = .returned (MemoryStreamWriter.atEnd
      (fontBytes font (fun page => page.Characters.enum.flatMap
        (fun ic => fontCharBytes ic.1 ic.2))) 0) := by
  unfold Exporter.ExportFont fontBytes
  simp only [MemoryStreamWriter.empty_eq_atEnd, MemoryStreamWriter.putStr_atEnd, List.nil_append]
  rw [forEach_atEnd _ (fun page => strBytes "\tBEGIN PAGE\r\n"
          ++ strBytes ("\t\tTexture=\x27" ++ page.textureName ++ "\x27\r\n")
          ++ page.Characters.enum.flatMap (fun ic => fontCharBytes ic.1 ic.2)
          ++ strBytes "\tEND PAGE\r\n") 0]
  · simp only [Outcome.andThen_returned, MemoryStreamWriter.putStr_atEnd]
  · intro page hp d1
    obtain ⟨t, ht⟩ := h page hp
    exact page_atEnd page t ht d1 0

theorem ExportFont_returned_inv (font : UFont) (out : MemoryStreamWriter)
    (h : Exporter.ExportFont font = .returned out) :
    ∀ page ∈ font.Pages, ∃ t, page.Texture = some t := by
  unfold Exporter.ExportFont at h
  obtain ⟨s, h1, _⟩ := Outcome.andThen_eq_returned _ _ _ h
  intro page hp
  obtain ⟨s1, s2, hb⟩ := forEach_returned_body _ _ _ _ h1 page hp
  exact page_returned_inv page s1 s2 hb

theorem flatMap_filter_eq {α β : Type} (p : α → Bool) (g : α → List β) :
    ∀ l : List α, (l.filter p).flatMap g = l.flatMap (fun x => if p x then g x else [])
  | [] => rfl
  | x :: xs => by
    have ih := flatMap_filter_eq p g xs
    by_cases hx : p x = true
    · simp [List.filter_cons, hx, ih]
    · simp [List.filter_cons, hx, ih]

theorem fontCharBytes_eq_filter (chars : List FontCharacter) :
    chars.enum.flatMap (fun ic => fontCharBytes ic.1 ic.2)
      = (chars.enum.filter (fun ic => !ic.2.isSentinel)).flatMap
          (fun ic => strBytes ("\t\tChar" ++ toString ic.1 ++ fontCharFields ic.2)) := by
  rw [flatMap_filter_eq]
  apply List.flatMap_congr
  intro ic _
  unfold fontCharBytes
  cases ic.2.isSentinel <;> simp

theorem fontCharBytes_explicit (i : Nat) (c : FontCharacter) :
    fontCharBytes i c
      = if c.StartU = 0 ∧ c.StartV = 0 ∧ c.USize = 0 ∧ c.VSize = 0 then []
        else strBytes ("\t\tChar" ++ toString i ++ "(StartU=" ++ toString c.StartU
          ++ ",StartV=" ++ toString c.StartV ++ ",USize=" ++ toString c.VSize
          ++ ",VSize=" ++ toString c.USize ++ ")\r\n") := by
  have e1 : strBytes ",StartV=" = strBytes "," ++ strBytes "StartV=" := by decide
  have e2 : strBytes ",USize=" = strBytes "," ++ strBytes "USize=" := by decide
  have e3 : strBytes ",VSize=" = strBytes "," ++ strBytes "VSize=" := by decide
  unfold fontCharBytes FontCharacter.isSentinel
  by_cases h : c.StartU = 0 ∧ c.StartV = 0 ∧ c.USize = 0 ∧ c.VSize = 0
  · rw [if_pos h, decide_eq_true h, if_pos rfl]
  · rw [if_neg h, decide_eq_false h]
    simp only [fontCharFields, strBytes_append, List.append_assoc, Bool.false_eq_true, if_false,
      e1, e2, e3]

/-- Claim C13. `ExportFont` returns for every font whose pages have a texture, and whatever it
returns has this content: between the line of the texture and the line `END PAGE` of each page
stand the lines of the characters of the page that are not the all-zero sentinel, in the order
of the list, each labelled `Char` with the 0-based position of the character in the list of the
page (so that the skipped entries count). The characters that have a line are those whose
StartU, StartV, USize and VSize are not all zero. -/
theorem ExportFont_char_lines (font : UFont) :
    ((∀ page ∈ font.Pages, page.Texture.isSome = true) →
      ∃ out, Exporter.ExportFont font = .returned out) ∧
    (∀ out, Exporter.ExportFont font = .returned out →
      out.data = fontBytes font (fun page =>
        (page.Characters.enum.filter (fun ic => !ic.2.isSentinel)).flatMap
          (fun ic => strBytes ("\t\tChar" ++ toString ic.1 ++ fontCharFields ic.2)))) ∧
    (∀ (page : FontPage) (i : Nat) (c : FontCharacter),
      (i, c) ∈ page.Characters.enum.filter (fun ic => !ic.2.isSentinel) ↔
        (page.Characters[i]? = some c ∧
          ¬ (c.StartU = 0 ∧ c.StartV = 0 ∧ c.USize = 0 ∧ c.VSize = 0))) := by
  refine ⟨?_, ?_, ?_⟩
  · intro h
    refine ⟨_, ExportFont_returned font (fun page hp => ?_)⟩
    have := h page hp
    cases ht : page.Texture with
    | none => rw [ht] at this; simp at this
    | some t => exact ⟨t, rfl⟩
  · intro out h
    have hw := ExportFont_returned_inv font out h
    rw [ExportFont_returned font hw] at h
    injection h with h
    subst h
    show fontBytes font _ = fontBytes font _
    congr 1
    funext page
    exact fontCharBytes_eq_filter page.Characters
  · intro page i c
    simp only [List.mem_filter, List.mk_mem_enum_iff_getElem?, FontCharacter.isSentinel,
      Bool.not_eq_true', decide_eq_false_iff_not]

theorem ExportFont_char_lines_witness :
    ∃ out, Exporter.ExportFont Sample.font = .returned out ∧
      out.data = strBytes ("BEGIN OBJECT CLASS=Font\r\n\tBEGIN PAGE\r\n\t\tTexture=\x27Tex\x27\r\n"
        ++ "\t\tChar1(StartU=1,StartV=2,USize=4,VSize=3)\r\n"
        ++ "\t\tChar3(StartU=0,StartV=0,USize=5,VSize=0)\r\n"
        ++ "\tEND PAGE\r\nEND OBJECT\r\n") := by
  obtain ⟨out, h⟩ := (ExportFont_char_lines Sample.font).1 (by decide)
  refine ⟨out, h, ?_⟩
  rw [(ExportFont_char_lines Sample.font).2.1 out h]
  decide

/-- Claim C14. In whatever `ExportFont` returns, the line of a character that is not the
all-zero sentinel reads `Char<i>(StartU=a,StartV=b,USize=c,VSize=d)` followed by CR LF, where
`a` and `b` are the StartU and StartV of the character, `c` is its VSize field and `d` is its
USize field, each printed as a decimal integer; the sentinel entries have no line. -/
theorem ExportFont_char_fields (font : UFont) :
    ((∀ page ∈ font.Pages, page.Texture.isSome = true) →
      ∃ out, Exporter.ExportFont font = .returned out) ∧
    (∀ out, Exporter.ExportFont font = .returned out →
      out.data = fontBytes font (fun page => page.Characters.enum.flatMap (fun ic =>
        if ic.2.StartU = 0 ∧ ic.2.StartV = 0 ∧ ic.2.USize = 0 ∧ ic.2.VSize = 0 then []
        else strBytes ("\t\tChar" ++ toString ic.1 ++ "(StartU=" ++ toString ic.2.StartU
          ++ ",StartV=" ++ toString ic.2.StartV ++ ",USize=" ++ toString ic.2.VSize
          ++ ",VSize=" ++ toString ic.2.USize ++ ")\r\n")))) := by
  refine ⟨?_, ?_⟩
  · intro h
    refine ⟨_, ExportFont_returned font (fun page hp => ?_)⟩
    have := h page hp
    cases ht : page.Texture with
    | none => rw [ht] at this; simp at this
    | some t => exact ⟨t, rfl⟩
  · intro out h
    have hw := ExportFont_returned_inv font out h
    rw [ExportFont_returned font hw] at h
    injection h with h
    subst h
    show fontBytes font _ = fontBytes font _
    congr 1
    funext page
    apply List.flatMap_congr
    intro ic _
    exact fontCharBytes_explicit ic.1 ic.2

theorem ExportFont_char_fields_witness :
    ∃ out, Exporter.ExportFont Sample.font = .returned out ∧
      out.data = strBytes "BEGIN OBJECT CLASS=Font\r\n" ++ strBytes "\tBEGIN PAGE\r\n"
        ++ strBytes "\t\tTexture=\x27Tex\x27\r\n"
        ++ strBytes "\t\tChar1(StartU=1,StartV=2,USize=4,VSize=3)\r\n"
        ++ strBytes "\t\tChar3(StartU=0,StartV=0,USize=5,VSize=0)\r\n"
        ++ strBytes "\tEND PAGE\r\n" ++ strBytes "END OBJECT\r\n" := by
  obtain ⟨out, h⟩ := (ExportFont_char_fields Sample.font).1 (by decide)
  refine ⟨out, h, ?_⟩
  rw [(ExportFont_char_fields Sample.font).2 out h]
  decide

/-! ## Audio assets, classes and the properties of an object -/

/-- Claim C12. `ExportSound` and `ExportMusic` return, for every sound and every music asset, a
buffer whose bytes are the stored payload of the asset, of the same length, and for a null
asset they return the empty buffer; the two functions are total. -/
theorem ExportSound_ExportMusic_passthrough :
    (∀ sound : USound, (Exporter.ExportSound (some sound)).data = sound.Data ∧
      (Exporter.ExportSound (some sound)).data.length = sound.Data.length) ∧
    (∀ music : UMusic, (Exporter.ExportMusic (some music)).data = music.Data ∧
      (Exporter.ExportMusic (some music)).data.length = music.Data.length) ∧
    Exporter.ExportSound none = {} ∧ (Exporter.ExportSound none).data = [] ∧
    Exporter.ExportMusic none = {} ∧ (Exporter.ExportMusic none).data = [] :=
  ⟨fun _ => ⟨rfl, rfl⟩, fun _ => ⟨rfl, rfl⟩, rfl, rfl, rfl, rfl⟩

theorem String.join_cons_eq (s : String) (l : List String) :
    String.join (s :: l) = s ++ String.join l := by
  apply String.ext
  simp [String.join_eq]

theorem String.join_append_eq (l1 l2 : List String) :
    String.join (l1 ++ l2) = String.join l1 ++ String.join l2 := by
  apply String.ext
  simp [String.join_eq]

theorem String.join_nil_eq : String.join [] = "" := rfl

theorem elements_not_exported (obj : UObject) (tablevel : Nat) (prop : UProperty)
    (h : prop.Exported = false) :
    ∀ (count i : Nat) (txt : String),
      Exporter.ExportObject.elements obj tablevel prop count i txt = txt
  | 0, _, _ => rfl
  | count + 1, i, txt => by
    simp only [Exporter.ExportObject.elements, h, Bool.false_eq_true, if_false]
    exact elements_not_exported obj tablevel prop h count (i + 1) txt

theorem elements_suppressed (obj : UObject) (tablevel : Nat) (prop : UProperty)
    (h : prop.Name = "Tag" ∧ obj.ClassGetPropertyAsString prop.Name = obj.Name) :
    ∀ (count i : Nat) (txt : String),
      Exporter.ExportObject.elements obj tablevel prop count i txt = txt
  | 0, _, _ => rfl
  | count + 1, i, txt => by
    simp only [Exporter.ExportObject.elements]
    rw [if_pos h]
    simp only [elements_suppressed obj tablevel prop h count (i + 1) txt, ite_self]

theorem elements_exported (obj : UObject) (tablevel : Nat) (prop : UProperty)
    (he : prop.Exported = true)
    (h : ¬ (prop.Name = "Tag" ∧ obj.ClassGetPropertyAsString prop.Name = obj.Name)) :
    ∀ (count i : Nat) (txt : String),
      Exporter.ExportObject.elements obj tablevel prop count i txt
        = txt ++ String.join ((List.range' i count).map (fun j =>
            prop.GetExportText (String.mk (List.replicate tablevel '\t'))
              (if obj.ClassIsOwnClass then DefaultsFrom.baseStruct else DefaultsFrom.ownClass) j))
  | 0, _, txt => by simp [Exporter.ExportObject.elements, String.join_nil_eq]
  | count + 1, i, txt => by
    simp only [Exporter.ExportObject.elements, he, if_true]
    rw [if_neg h, elements_exported obj tablevel prop he h count (i + 1)]
    simp only [List.range'_succ, List.map_cons, String.join_cons_eq, String.append_assoc]

theorem foldl_elements (obj : UObject) (tablevel : Nat) :
    ∀ (props : List UProperty) (txt : String),
      props.foldl (fun txt prop =>
          Exporter.ExportObject.elements obj tablevel prop prop.ArrayDimension.toNat 0 txt) txt
        = txt ++ String.join ((props.flatMap (fun p =>
            if p.Exported = true ∧
                ¬ (p.Name = "Tag" ∧ obj.ClassGetPropertyAsString p.Name = obj.Name) then
              (List.range p.ArrayDimension.toNat).map (fun i => (p, i))
            else [])).map (fun pi =>
              pi.1.GetExportText (String.mk (List.replicate tablevel '\t'))
                (if obj.ClassIsOwnClass then DefaultsFrom.baseStruct else DefaultsFrom.ownClass)
                pi.2))
  | [], txt => by simp [String.join_nil_eq]
  | p :: ps, txt => by
    simp only [List.foldl_cons, List.flatMap_cons, List.map_append, String.join_append_eq]
    rw [foldl_elements obj tablevel ps, ← String.append_assoc]
    congr 1
    by_cases h : p.Exported = true ∧
        ¬ (p.Name = "Tag" ∧ obj.ClassGetPropertyAsString p.Name = obj.Name)
    · rw [if_pos h, elements_exported obj tablevel p h.1 h.2, List.range_eq_range']
      simp only [List.map_map]
      rfl
    · rw [if_neg h]
      simp only [List.map_nil, String.join_nil_eq, String.append_empty]
      by_cases he : p.Exported = true
      · have hs : p.Name = "Tag" ∧ obj.ClassGetPropertyAsString p.Name = obj.Name := by
          by_contra hc
          exact h ⟨he, hc⟩
        exact elements_suppressed obj tablevel p hs _ _ _
      · exact elements_not_exported obj tablevel p (by simpa using he) _ _ _

/-- Claim C16. The text `ExportObject` returns is the concatenation of the export texts of the
pairs (p, i), taken property by property in the order of the schema and by increasing element
index within a property, where p is flagged exported, 0 <= i < the array dimension of p, and p
is not the suppressed Tag property. Each text is produced with `tablevel` tab characters as
indent and with the defaults taken from the class of the object, or from the base structure of
the class when the class is its own class. -/
theorem ExportObject_concatenation (obj : UObject) (tablevel : Nat) (bInline : Bool) :
    Exporter.ExportObject obj tablevel bInline
      = String.join ((obj.Properties.flatMap (fun p =>
          if p.Exported = true ∧
              ¬ (p.Name = "Tag" ∧ obj.ClassGetPropertyAsString p.Name = obj.Name) then
            (List.range p.ArrayDimension.toNat).map (fun i => (p, i))
          else [])).map (fun pi =>
            pi.1.GetExportText (String.mk (List.replicate tablevel '\t'))
              (if obj.ClassIsOwnClass then DefaultsFrom.baseStruct else DefaultsFrom.ownClass)
              pi.2)) := by
  unfold Exporter.ExportObject
  rw [foldl_elements obj tablevel obj.Properties "", String.empty_append]

/-- The object named "Tex" whose own Tag is "Tex" has its Tag serialized, and the object named
"Tex" whose own Tag is "Lamp" has its Tag suppressed: in neither case is the Tag suppressed
exactly when the Tag value of the object equals the name of the object. -/
theorem ExportObject_tag_own_value_counterexample :
    ¬ (Exporter.ExportObject Sample.taggedObject 1 false = "" ↔
        Sample.taggedObject.GetPropertyAsString "Tag" = Sample.taggedObject.Name) ∧
    ¬ (Exporter.ExportObject Sample.retaggedObject 1 false = "" ↔
        Sample.retaggedObject.GetPropertyAsString "Tag" = Sample.retaggedObject.Name) := by
  constructor
  · intro h
    have h1 := h.2 (by decide)
    revert h1
    decide
  · intro h
    have h1 := h.1 (by decide)
    revert h1
    decide

/-- Claim C17, amended. The elements of an exported property named Tag contribute nothing to the
text of `ExportObject` when the string value of the Tag property read through the class of the
object (`obj->Class->GetPropertyAsString`) equals the name of the object, and otherwise they are
serialized in full, exactly as the elements of an exported property of any other name are. -/
theorem ExportObject_tag_suppression (obj : UObject) (tablevel : Nat) (prop : UProperty)
    (he : prop.Exported = true) (count i : Nat) (txt : String) :
    (prop.Name = "Tag" → obj.ClassGetPropertyAsString "Tag" = obj.Name →
      Exporter.ExportObject.elements obj tablevel prop count i txt = txt) ∧
    (prop.Name = "Tag" → obj.ClassGetPropertyAsString "Tag" ≠ obj.Name →
      Exporter.ExportObject.elements obj tablevel prop count i txt
        = txt ++ String.join ((List.range' i count).map (fun j =>
            prop.GetExportText (String.mk (List.replicate tablevel '\t'))
              (if obj.ClassIsOwnClass then DefaultsFrom.baseStruct
                else DefaultsFrom.ownClass) j))) ∧
    (prop.Name ≠ "Tag" →
      Exporter.ExportObject.elements obj tablevel prop count i txt
        = txt ++ String.join ((List.range' i count).map (fun j =>
            prop.GetExportText (String.mk (List.replicate tablevel '\t'))
              (if obj.ClassIsOwnClass then DefaultsFrom.baseStruct
                else DefaultsFrom.ownClass) j))) := by
  refine ⟨?_, ?_, ?_⟩
  · intro ht hc
    exact elements_suppressed obj tablevel prop ⟨ht, by rw [ht]; exact hc⟩ count i txt
  · intro ht hc
    exact elements_exported obj tablevel prop he (fun h => hc (by rw [← ht]; exact h.2)) count i txt
  · intro ht
    exact elements_exported obj tablevel prop he (fun h => ht h.1) count i txt

theorem ExportObject_tag_suppression_witness :
    Exporter.ExportObject.elements Sample.retaggedObject 1 Sample.lampTagProperty 1 0 "" = "" ∧
    Exporter.ExportObject.elements Sample.taggedObject 1 Sample.tagProperty 1 0 ""
      = "\tTag=Tex\r\n" :=
  ⟨(ExportObject_tag_suppression Sample.retaggedObject 1 Sample.lampTagProperty rfl 1 0 "").1
      rfl (by decide),
    ((ExportObject_tag_suppression Sample.taggedObject 1 Sample.tagProperty rfl 1 0 "").2.1
      rfl (by decide)).trans (by decide)⟩

theorem ExportClass_data (cls : UClass) (scriptText : UTextBuffer)
    (h : cls.ScriptText = some scriptText) :
    Exporter.ExportClass cls = MemoryStreamWriter.atEnd
      (strBytes scriptText.Text ++ strBytes "\r\ndefaultproperties\r\n\x7b\r\n"
        ++ strBytes (Exporter.ExportObject cls.DefaultObject 1 false)) 0 := by
  unfold Exporter.ExportClass
  simp only [h, MemoryStreamWriter.empty_eq_atEnd, MemoryStreamWriter.putStr_atEnd,
    List.nil_append]

/-- Claim C15, the code at a class with a script text. `ExportClass` returns the script text,
the line `defaultproperties`, the opening brace and the serialized properties of the default
object, and stops there: the closing brace is not written. A class without script text gives
the empty buffer. -/
theorem ExportClass_closing_brace_missing :
    (Exporter.ExportClass Sample.scriptClass).data
        = strBytes "class Lamp expands Actor;\r\ndefaultproperties\r\n\x7b\r\n" ∧
      (Exporter.ExportClass Sample.scriptClass).data
        ≠ strBytes ("class Lamp expands Actor;" ++ "\r\ndefaultproperties\r\n\x7b\r\n"
            ++ Exporter.ExportObject Sample.scriptClass.DefaultObject 1 false ++ "\x7d") ∧
      Exporter.ExportClass { Sample.scriptClass with ScriptText := none } = {} := by
  refine ⟨by decide, by decide, rfl⟩

/-! ## The text block of the procedural textures -/

theorem proceduralSample_succ (palette : UPalette) (k rgba : Nat)
    (h : palette.Colors[64 * k + 63]? = some rgba) (d : List Byte) (c : Nat) :
    Exporter.proceduralSample palette (k + 1) (MemoryStreamWriter.atEnd d c)
      = .returned (MemoryStreamWriter.atEnd (d ++ strBytes ("\tColor" ++ toString (k + 2)
          ++ "=(R=" ++ toString (UnpackRgba rgba).r ++ ",G=" ++ toString (UnpackRgba rgba).g
          ++ ",B=" ++ toString (UnpackRgba rgba).b ++ ",A=" ++ toString (UnpackRgba rgba).a
          ++ ")\r\n")) c) := by
  have hi : (((k + 1 : Nat) : Int) * 64 - 1) = ((64 * k + 63 : Nat) : Int) := by
    push_cast
    omega
  unfold Exporter.proceduralSample
  rw [hi, readAt_natCast, h]
  simp only [MemoryStreamWriter.putStr_atEnd]

theorem proceduralSample_zero (palette : UPalette) (data : MemoryStreamWriter) :
    Exporter.proceduralSample palette 0 data = .undefined data := by
  unfold Exporter.proceduralSample
  have hi : (((0 : Nat) : Int) * 64 - 1) = -1 := by decide
  rw [hi]
  rfl

theorem proceduralEntry_atEnd (paletteLabel : String) (palette : UPalette) (i rgba : Nat)
    (h : palette.Colors[i]? = some rgba) (d : List Byte) (c : Nat) :
    Exporter.proceduralEntry paletteLabel palette i (MemoryStreamWriter.atEnd d c)
      = .returned (MemoryStreamWriter.atEnd (d ++ strBytes (paletteLabel ++ toString (i + 1)
          ++ "=(R=" ++ toString (UnpackRgba rgba).r ++ ",G=" ++ toString (UnpackRgba rgba).g
          ++ ",B=" ++ toString (UnpackRgba rgba).b ++ ",A=" ++ toString (UnpackRgba rgba).a
          ++ ")\r\n")) c) := by
  unfold Exporter.proceduralEntry
  rw [readAt_natCast, h]
  simp only [MemoryStreamWriter.putStr_atEnd]

theorem proceduralDump_atEnd (paletteLabel : String) (palette : UPalette)
    (hp : 256 ≤ palette.Colors.length) (d : List Byte) (c : Nat) :
    Exporter.proceduralDump paletteLabel palette (MemoryStreamWriter.atEnd d c)
      = .returned (MemoryStreamWriter.atEnd (d ++ (List.range 256).flatMap (fun i =>
          strBytes (paletteLabel ++ toString (i + 1)
            ++ "=(R=" ++ toString (UnpackRgba (palette.Colors.getD i 0)).r
            ++ ",G=" ++ toString (UnpackRgba (palette.Colors.getD i 0)).g
            ++ ",B=" ++ toString (UnpackRgba (palette.Colors.getD i 0)).b
            ++ ",A=" ++ toString (UnpackRgba (palette.Colors.getD i 0)).a ++ ")\r\n"))
          ++ strBytes "END OBJECT\r\n") c) := by
  unfold Exporter.proceduralDump
  rw [forUp_atEnd _ (fun i =>
          strBytes (paletteLabel ++ toString (i + 1)
            ++ "=(R=" ++ toString (UnpackRgba (palette.Colors.getD i 0)).r
            ++ ",G=" ++ toString (UnpackRgba (palette.Colors.getD i 0)).g
            ++ ",B=" ++ toString (UnpackRgba (palette.Colors.getD i 0)).b
            ++ ",A=" ++ toString (UnpackRgba (palette.Colors.getD i 0)).a ++ ")\r\n")) c]
  · rw [Outcome.andThen_returned, MemoryStreamWriter.putStr_atEnd, List.range_eq_range']
  · intro i _ hi d1
    exact proceduralEntry_atEnd paletteLabel palette i _
      (getElem?_eq_some_getD palette.Colors i 0 (by omega)) d1 c

theorem exportProceduralTexture_eq (classTag paletteLabel : String) (tex : UTexture)
    (palette : UPalette) (h : tex.Palette = some palette) :
    Exporter.exportProceduralTexture classTag paletteLabel tex
      = (forUp (Exporter.proceduralSample palette) 5 0
          ((({} : MemoryStreamWriter).putStr ("BEGIN OBJECT CLASS=" ++ classTag ++ " USIZE="
              ++ toString tex.USize ++ " VSIZE=" ++ toString tex.VSize ++ "\r\n")).putStr
            (Exporter.ExportObject tex.toUObject 1 false))).andThen
          (Exporter.proceduralDump paletteLabel palette) := by
  unfold Exporter.exportProceduralTexture
  simp only [h]

theorem exportProceduralTexture_undefined (classTag paletteLabel : String) (tex : UTexture) :
    Exporter.exportProceduralTexture classTag paletteLabel tex
      = .undefined (MemoryStreamWriter.atEnd (strBytes ("BEGIN OBJECT CLASS=" ++ classTag
          ++ " USIZE=" ++ toString tex.USize ++ " VSIZE=" ++ toString tex.VSize ++ "\r\n")
          ++ strBytes (Exporter.ExportObject tex.toUObject 1 false)) 0) := by
  unfold Exporter.exportProceduralTexture
  simp only [MemoryStreamWriter.empty_eq_atEnd, MemoryStreamWriter.putStr_atEnd, List.nil_append]
  cases tex.Palette with
  | none => rfl
  | some palette =>
    simp only [forUp, proceduralSample_zero, Outcome.andThen_undefined]

theorem Sample.palette_getElem? (i : Nat) (h : i < 256) :
    Sample.palette.Colors[i]?
      = some (i + 256 * (2 * i % 256) + 65536 * (3 * i % 256) + 16777216 * (255 - i)) := by
  simp [Sample.palette, List.getElem?_range, h]

/-! ## The text block of a build, with the word in front of the palette -/

theorem colorAt_none (palette : UPalette) (index : Int) :
    Exporter.colorAt none palette index = readAt palette.Colors index := by
  unfold Exporter.colorAt
  by_cases h : index = -1
  · rw [if_pos h, h]
    rfl
  · rw [if_neg h]

theorem proceduralSampleWith_none (palette : UPalette) (i : Nat) (data : MemoryStreamWriter) :
    Exporter.proceduralSampleWith none palette i data = Exporter.proceduralSample palette i data := by
  unfold Exporter.proceduralSampleWith Exporter.proceduralSample
  rw [colorAt_none]

theorem exportProceduralTextureWith_none (classTag paletteLabel : String) (tex : UTexture) :
    Exporter.exportProceduralTextureWith none classTag paletteLabel tex
      = Exporter.exportProceduralTexture classTag paletteLabel tex := by
  unfold Exporter.exportProceduralTextureWith Exporter.exportProceduralTexture
  have h : Exporter.proceduralSampleWith none = Exporter.proceduralSample := by
    funext palette i data
    exact proceduralSampleWith_none palette i data
  simp only [h]

theorem proceduralSampleWith_zero (before : Nat) (palette : UPalette) (d : List Byte) (c : Nat) :
    Exporter.proceduralSampleWith (some before) palette 0 (MemoryStreamWriter.atEnd d c)
      = .returned (MemoryStreamWriter.atEnd (d ++ strBytes (colorLine "\tColor" 1 before)) c) := by
  have hi : (((0 : Nat) : Int) * 64 - 1) = -1 := by decide
  unfold Exporter.proceduralSampleWith Exporter.colorAt
  rw [hi, if_pos rfl]
  simp only [MemoryStreamWriter.putStr_atEnd]
  rfl

theorem proceduralSampleWith_succ (before : Option Nat) (palette : UPalette) (k rgba : Nat)
    (h : palette.Colors[64 * k + 63]? = some rgba) (d : List Byte) (c : Nat) :
    Exporter.proceduralSampleWith before palette (k + 1) (MemoryStreamWriter.atEnd d c)
      = .returned (MemoryStreamWriter.atEnd
          (d ++ strBytes (colorLine "\tColor" (k + 2) rgba)) c) := by
  have hi : (((k + 1 : Nat) : Int) * 64 - 1) = ((64 * k + 63 : Nat) : Int) := by
    push_cast
    omega
  have hne : ((64 * k + 63 : Nat) : Int) ≠ -1 := by omega
  unfold Exporter.proceduralSampleWith Exporter.colorAt
  rw [hi, if_neg hne, readAt_natCast, h]
  simp only [MemoryStreamWriter.putStr_atEnd]
  rfl

theorem forUp_proceduralSampleWith (before : Nat) (palette : UPalette)
    (hp : 256 ≤ palette.Colors.length) (d : List Byte) (c : Nat) :
    forUp (Exporter.proceduralSampleWith (some before) palette) 5 0
        (MemoryStreamWriter.atEnd d c)
      = .returned (MemoryStreamWriter.atEnd (d ++ proceduralSampleBytes palette before) c) := by
  have h1 := proceduralSampleWith_succ (some before) palette 0 _
    (getElem?_eq_some_getD palette.Colors (64 * 0 + 63) 0 (by omega))
  have h2 := proceduralSampleWith_succ (some before) palette 1 _
    (getElem?_eq_some_getD palette.Colors (64 * 1 + 63) 0 (by omega))
  have h3 := proceduralSampleWith_succ (some before) palette 2 _
    (getElem?_eq_some_getD palette.Colors (64 * 2 + 63) 0 (by omega))
  have h4 := proceduralSampleWith_succ (some before) palette 3 _
    (getElem?_eq_some_getD palette.Colors (64 * 3 + 63) 0 (by omega))
  simp only [forUp, proceduralSampleWith_zero, Outcome.andThen_returned, Nat.zero_add,
    Nat.reduceAdd, Nat.reduceMul] at h1 h2 h3 h4 ⊢
  rw [h1, Outcome.andThen_returned, h2, Outcome.andThen_returned, h3, Outcome.andThen_returned,
    h4, Outcome.andThen_returned]
  simp only [proceduralSampleBytes, List.range'_succ, List.range'_zero, List.flatMap_cons,
    List.flatMap_nil, List.append_assoc, List.append_nil, Nat.reduceAdd, Nat.reduceMul,
    Nat.reduceSub]

theorem proceduralDump_bytes (paletteLabel : String) (palette : UPalette)
    (hp : 256 ≤ palette.Colors.length) (d : List Byte) (c : Nat) :
    Exporter.proceduralDump paletteLabel palette (MemoryStreamWriter.atEnd d c)
      = .returned (MemoryStreamWriter.atEnd (d ++ proceduralDumpBytes paletteLabel palette) c) := by
  rw [proceduralDump_atEnd paletteLabel palette hp d c, List.append_assoc]
  rfl

theorem exportProceduralTextureWith_returned (before : Nat) (classTag paletteLabel : String)
    (tex : UTexture) (palette : UPalette) (h : tex.Palette = some palette)
    (hp : 256 ≤ palette.Colors.length) :
    Exporter.exportProceduralTextureWith (some before) classTag paletteLabel tex
      = .returned (MemoryStreamWriter.atEnd (proceduralHead classTag tex
          ++ proceduralSampleBytes palette before
          ++ proceduralDumpBytes paletteLabel palette) 0) := by
  unfold Exporter.exportProceduralTextureWith
  simp only [h, MemoryStreamWriter.empty_eq_atEnd, MemoryStreamWriter.putStr_atEnd,
    List.nil_append]
  rw [forUp_proceduralSampleWith before palette hp, Outcome.andThen_returned,
    proceduralDump_bytes paletteLabel palette hp]
  rfl

theorem proceduralDump_returned_inv (paletteLabel : String) (palette : UPalette)
    (s out : MemoryStreamWriter)
    (h : Exporter.proceduralDump paletteLabel palette s = .returned out) :
    256 ≤ palette.Colors.length := by
  unfold Exporter.proceduralDump at h
  obtain ⟨s1, h1, _⟩ := Outcome.andThen_eq_returned _ _ _ h
  obtain ⟨s2, s3, hb⟩ := forUp_returned_body _ _ _ _ _ h1 255 (Nat.zero_le _) (by omega)
  unfold Exporter.proceduralEntry at hb
  cases hr : readAt palette.Colors ((255 : Nat) : Int) with
  | none => rw [hr] at hb; simp at hb
  | some rgba =>
    have := readAt_lt palette.Colors 255 rgba hr
    omega

theorem exportProceduralTextureWith_returned_inv (before : Option Nat)
    (classTag paletteLabel : String) (tex : UTexture) (out : MemoryStreamWriter)
    (h : Exporter.exportProceduralTextureWith before classTag paletteLabel tex = .returned out) :
    ∃ palette, tex.Palette = some palette ∧ 256 ≤ palette.Colors.length := by
  unfold Exporter.exportProceduralTextureWith at h
  cases hp : tex.Palette with
  | none => rw [hp] at h; simp at h
  | some palette =>
    rw [hp] at h
    simp only [] at h
    obtain ⟨s1, _, h2⟩ := Outcome.andThen_eq_returned _ _ _ h
    exact ⟨palette, rfl, proceduralDump_returned_inv paletteLabel palette s1 out h2⟩

theorem Sample.palette_getD (i : Nat) (h : i < 256) :
    Sample.palette.Colors.getD i 0
      = i + 256 * (2 * i % 256) + 65536 * (3 * i % 256) + 16777216 * (255 - i) := by
  have := Sample.palette_getElem? i h
  simp [List.getD, this]

theorem append_ne_of_getElem? (a b r r' : List Byte) (k : Nat) (x y : Byte)
    (ha : a[k]? = some x) (hb : b[k]? = some y) (hxy : x ≠ y) : a ++ r ≠ b ++ r' := by
  intro h
  have hka : k < a.length := (List.getElem?_eq_some.mp ha).1
  have hkb : k < b.length := (List.getElem?_eq_some.mp hb).1
  have h1 : (a ++ r)[k]? = some x := by rw [List.getElem?_append_left hka, ha]
  have h2 : (b ++ r')[k]? = some y := by rw [List.getElem?_append_left hkb, hb]
  rw [h, h2] at h1
  exact hxy (Option.some.inj h1).symm

theorem unpack_packed (i a b c : Nat) (hi : i < 256) (ha : a < 256) (hb : b < 256)
    (hc : c < 256) :
    UnpackRgba (i + 256 * a + 65536 * b + 16777216 * c) = { r := i, g := a, b := b, a := c } := by
  rw [UnpackRgba_eq]
  have h1 : (i + 256 * a + 65536 * b + 16777216 * c) % 256 = i := by omega
  have h2 : (i + 256 * a + 65536 * b + 16777216 * c) / 256 % 256 = a := by omega
  have h3 : (i + 256 * a + 65536 * b + 16777216 * c) / 65536 % 256 = b := by omega
  have h4 : (i + 256 * a + 65536 * b + 16777216 * c) / 16777216 % 256 = c := by omega
  rw [h1, h2, h3, h4]

theorem Sample.colorLine_eq (label : String) (n i : Nat) (h : i < 256) (text : String)
    (ht : label ++ toString n ++ "=(R=" ++ toString i
        ++ ",G=" ++ toString (2 * i % 256) ++ ",B=" ++ toString (3 * i % 256)
        ++ ",A=" ++ toString (255 - i) ++ ")\r\n" = text) :
    colorLine label n (Sample.palette.Colors.getD i 0) = text := by
  rw [Sample.palette_getD i h, ← ht]
  unfold colorLine
  rw [unpack_packed i (2 * i % 256) (3 * i % 256) (255 - i) h (Nat.mod_lt _ (by decide))
    (Nat.mod_lt _ (by decide)) (by omega)]

theorem Sample.sampleBytes_zero :
    proceduralSampleBytes Sample.palette 0
      = strBytes "\tColor1=(R=0,G=0,B=0,A=0)\r\n"
        ++ strBytes "\tColor2=(R=63,G=126,B=189,A=192)\r\n"
        ++ strBytes "\tColor3=(R=127,G=254,B=125,A=128)\r\n"
        ++ strBytes "\tColor4=(R=191,G=126,B=61,A=64)\r\n"
        ++ strBytes "\tColor5=(R=255,G=254,B=253,A=0)\r\n" := by
  have l1 : colorLine "\tColor" 1 0 = "\tColor1=(R=0,G=0,B=0,A=0)\r\n" := by decide
  have l2 := Sample.colorLine_eq "\tColor" 2 63 (by omega)
    "\tColor2=(R=63,G=126,B=189,A=192)\r\n" (by decide)
  have l3 := Sample.colorLine_eq "\tColor" 3 127 (by omega)
    "\tColor3=(R=127,G=254,B=125,A=128)\r\n" (by decide)
  have l4 := Sample.colorLine_eq "\tColor" 4 191 (by omega)
    "\tColor4=(R=191,G=126,B=61,A=64)\r\n" (by decide)
  have l5 := Sample.colorLine_eq "\tColor" 5 255 (by omega)
    "\tColor5=(R=255,G=254,B=253,A=0)\r\n" (by decide)
  have hr : List.range' 2 4 = [2, 3, 4, 5] := rfl
  unfold proceduralSampleBytes
  rw [hr, l1]
  simp only [List.flatMap_cons, List.flatMap_nil, List.append_nil]
  have e2 : 64 * (2 - 1) - 1 = 63 := rfl
  have e3 : 64 * (3 - 1) - 1 = 127 := rfl
  have e4 : 64 * (4 - 1) - 1 = 191 := rfl
  have e5 : 64 * (5 - 1) - 1 = 255 := rfl
  rw [e2, e3, e4, e5, l2, l3, l4, l5]
  simp only [List.append_assoc]

theorem Sample.dumpBytes_first (paletteLabel : String) :
    ∃ rest, proceduralDumpBytes paletteLabel Sample.palette
      = strBytes (paletteLabel ++ "1=(R=0,G=0,B=0,A=255)\r\n") ++ rest := by
  refine ⟨(List.range' 1 255).flatMap (fun i =>
      strBytes (colorLine paletteLabel (i + 1) (Sample.palette.Colors.getD i 0)))
    ++ strBytes "END OBJECT\r\n", ?_⟩
  have h0 : colorLine paletteLabel (0 + 1) (Sample.palette.Colors.getD 0 0)
      = paletteLabel ++ "1=(R=0,G=0,B=0,A=255)\r\n" :=
    Sample.colorLine_eq paletteLabel (0 + 1) 0 (by omega) _ (by
      simp only [String.append_assoc]
      congr 1)
  have hr : List.range 256 = 0 :: List.range' 1 255 := by
    simp only [List.range_eq_range']
    exact List.range'_succ 0 255 1
  unfold proceduralDumpBytes
  rw [hr, List.flatMap_cons, h0, List.append_assoc]

/-- On the sample FireTexture the line labelled Color2 shows (63, 126, 189, 192), the palette
entry at index 63, and not (127, 254, 125, 128), the entry at index 64 * 2 - 1 = 127; the index
64 * 5 - 1 = 319 the claim gives for Color5 is no index of the 256-entry palette. The word in
front of the palette is 0 here. -/
theorem ProceduralTexture_sample_index_counterexample :
    ∃ out, Exporter.ExportFireTextureWith (some 0) Sample.fireTexture = .returned out ∧
      (∃ rest, out.data = strBytes "BEGIN OBJECT CLASS=FireTexture USIZE=2 VSIZE=2\r\n"
          ++ strBytes "\tColor1=(R=0,G=0,B=0,A=0)\r\n"
          ++ strBytes "\tColor2=(R=63,G=126,B=189,A=192)\r\n" ++ rest) ∧
      (¬ ∃ rest, out.data = strBytes "BEGIN OBJECT CLASS=FireTexture USIZE=2 VSIZE=2\r\n"
          ++ strBytes "\tColor1=(R=0,G=0,B=0,A=0)\r\n"
          ++ strBytes "\tColor2=(R=127,G=254,B=125,A=128)\r\n" ++ rest) ∧
      (∃ rgba, Sample.palette.Colors[64 * 2 - 1]? = some rgba ∧
        UnpackRgba rgba = { r := 127, g := 254, b := 125, a := 128 }) ∧
      Sample.palette.Colors[64 * 5 - 1]? = none := by
  have hret := exportProceduralTextureWith_returned 0 "FireTexture" "\tPaletteColor"
    Sample.fireTexture Sample.palette rfl Sample.length_palette
  have hhead : proceduralHead "FireTexture" Sample.fireTexture
      = strBytes "BEGIN OBJECT CLASS=FireTexture USIZE=2 VSIZE=2\r\n" := by decide
  rw [hhead, Sample.sampleBytes_zero] at hret
  refine ⟨_, hret, ⟨strBytes "\tColor3=(R=127,G=254,B=125,A=128)\r\n"
      ++ strBytes "\tColor4=(R=191,G=126,B=61,A=64)\r\n"
      ++ strBytes "\tColor5=(R=255,G=254,B=253,A=0)\r\n"
      ++ proceduralDumpBytes "\tPaletteColor" Sample.palette, ?_⟩, ?_,
    ⟨_, Sample.palette_getElem? 127 (by omega), ?_⟩, ?_⟩
  · simp only [MemoryStreamWriter.atEnd, List.append_assoc]
  · rintro ⟨rest, hr⟩
    simp only [MemoryStreamWriter.atEnd, List.append_assoc] at hr
    have h1 := List.append_cancel_left hr
    have h2 := List.append_cancel_left h1
    exact append_ne_of_getElem? _ _ _ _ 11 (toByte 54) (toByte 49) (by decide) (by decide)
      (by decide) h2
  · rw [UnpackRgba_eq]
  · simp [Sample.palette]

/-- Claim C18, amended. Each of the four procedural-texture writers returns its text block for
every texture whose palette has at least 256 entries, whatever word lies in front of the
palette, and whatever it returns is, in order: the line `BEGIN OBJECT` and the properties, the
line `Color1` (which shows the word in front of the palette), the lines `ColorN` for
N = 2, 3, 4, 5, each `ColorN=(R=r,G=g,B=b,A=a)` with the unpacked components in decimal of the
palette entry at index 64 * (N - 1) - 1 (that is 63, 127, 191, 255), then the dump of the
palette under the label of the writer and `END OBJECT`. With no word given for the place in
front of the palette, the writers are the ones of the strict reading. -/
theorem ProceduralTexture_sample_lines (tex : UTexture) (before : Nat) :
    (Exporter.ExportFireTextureWith none tex = Exporter.ExportFireTexture tex ∧
      Exporter.ExportWetTextureWith none tex = Exporter.ExportWetTexture tex ∧
      Exporter.ExportWaveTextureWith none tex = Exporter.ExportWaveTexture tex ∧
      Exporter.ExportIceTextureWith none tex = Exporter.ExportIceTexture tex) ∧
    ∀ x ∈ [(Exporter.ExportFireTextureWith, "FireTexture", "\tPaletteColor"),
           (Exporter.ExportWetTextureWith, "WetTexture", "\tPalette"),
           (Exporter.ExportWaveTextureWith, "WaveTexture", "\tPalette"),
           (Exporter.ExportIceTextureWith, "IceTexture", "\tPalette")],
      ((∃ palette, tex.Palette = some palette ∧ 256 ≤ palette.Colors.length) →
        ∃ out, x.1 (some before) tex = .returned out) ∧
      ∀ out, x.1 (some before) tex = .returned out →
        ∃ palette, tex.Palette = some palette ∧ 256 ≤ palette.Colors.length ∧
          out.data = proceduralHead x.2.1 tex
            ++ strBytes ("\tColor" ++ toString 1 ++ "=(R=" ++ toString (UnpackRgba before).r
                ++ ",G=" ++ toString (UnpackRgba before).g
                ++ ",B=" ++ toString (UnpackRgba before).b
                ++ ",A=" ++ toString (UnpackRgba before).a ++ ")\r\n")
            ++ (List.range' 2 4).flatMap (fun N =>
                strBytes ("\tColor" ++ toString N
                  ++ "=(R=" ++ toString (UnpackRgba (palette.Colors.getD (64 * (N - 1) - 1) 0)).r
                  ++ ",G=" ++ toString (UnpackRgba (palette.Colors.getD (64 * (N - 1) - 1) 0)).g
                  ++ ",B=" ++ toString (UnpackRgba (palette.Colors.getD (64 * (N - 1) - 1) 0)).b
                  ++ ",A=" ++ toString (UnpackRgba (palette.Colors.getD (64 * (N - 1) - 1) 0)).a
                  ++ ")\r\n"))
            ++ proceduralDumpBytes x.2.2 palette := by
  have key : ∀ (classTag paletteLabel : String),
      ((∃ palette, tex.Palette = some palette ∧ 256 ≤ palette.Colors.length) →
        ∃ out, Exporter.exportProceduralTextureWith (some before) classTag paletteLabel tex
          = .returned out) ∧
      ∀ out, Exporter.exportProceduralTextureWith (some before) classTag paletteLabel tex
          = .returned out →
        ∃ palette, tex.Palette = some palette ∧ 256 ≤ palette.Colors.length ∧
          out.data = proceduralHead classTag tex
            ++ strBytes (colorLine "\tColor" 1 before)
            ++ (List.range' 2 4).flatMap (fun N =>
                strBytes (colorLine "\tColor" N (palette.Colors.getD (64 * (N - 1) - 1) 0)))
            ++ proceduralDumpBytes paletteLabel palette := by
    intro classTag paletteLabel
    refine ⟨fun ⟨palette, hp, h256⟩ =>
      ⟨_, exportProceduralTextureWith_returned before classTag paletteLabel tex palette hp h256⟩,
      fun out ho => ?_⟩
    obtain ⟨palette, hp, h256⟩ :=
      exportProceduralTextureWith_returned_inv _ classTag paletteLabel tex out ho
    rw [exportProceduralTextureWith_returned before classTag paletteLabel tex palette hp h256]
      at ho
    refine ⟨palette, hp, h256, ?_⟩
    rw [← Outcome.returned.inj ho]
    simp only [MemoryStreamWriter.atEnd, proceduralSampleBytes, List.append_assoc]
  refine ⟨⟨exportProceduralTextureWith_none _ _ tex, exportProceduralTextureWith_none _ _ tex,
    exportProceduralTextureWith_none _ _ tex, exportProceduralTextureWith_none _ _ tex⟩, ?_⟩
  intro x hx
  simp only [List.mem_cons, List.mem_singleton, List.not_mem_nil, or_false] at hx
  rcases hx with rfl | rfl | rfl | rfl
  · exact key "FireTexture" "\tPaletteColor"
  · exact key "WetTexture" "\tPalette"
  · exact key "WaveTexture" "\tPalette"
  · exact key "IceTexture" "\tPalette"

theorem ProceduralTexture_sample_lines_witness :
    ∃ out palette, Exporter.ExportWaveTextureWith (some 4278190080)
          { Sample.texture with ClassName := "WaveTexture" } = .returned out ∧
      Sample.texture.Palette = some palette ∧ 256 ≤ palette.Colors.length ∧
      out.data = proceduralHead "WaveTexture" Sample.texture
        ++ strBytes "\tColor1=(R=0,G=0,B=0,A=255)\r\n"
        ++ (List.range' 2 4).flatMap (fun N =>
            strBytes ("\tColor" ++ toString N
              ++ "=(R=" ++ toString (UnpackRgba (palette.Colors.getD (64 * (N - 1) - 1) 0)).r
              ++ ",G=" ++ toString (UnpackRgba (palette.Colors.getD (64 * (N - 1) - 1) 0)).g
              ++ ",B=" ++ toString (UnpackRgba (palette.Colors.getD (64 * (N - 1) - 1) 0)).b
              ++ ",A=" ++ toString (UnpackRgba (palette.Colors.getD (64 * (N - 1) - 1) 0)).a
              ++ ")\r\n"))
        ++ proceduralDumpBytes "\tPalette" palette := by
  set_option maxRecDepth 10000 in
  have h := (ProceduralTexture_sample_lines { Sample.texture with ClassName := "WaveTexture" }
    4278190080).2 (Exporter.ExportWaveTextureWith, "WaveTexture", "\tPalette") (by simp)
  have hpal : ∃ palette, ({ Sample.texture with ClassName := "WaveTexture" } : UTexture).Palette
      = some palette ∧ 256 ≤ palette.Colors.length :=
    ⟨Sample.palette, rfl, Sample.length_palette⟩
  obtain ⟨out, ho⟩ := h.1 hpal
  obtain ⟨palette, hp, h256, hd⟩ := h.2 out ho
  exact ⟨out, palette, ho, hp, h256, hd⟩

/-- In the text block of the sample FireTexture the first line of the 256-entry dump is labelled
`PaletteColor1`, not `Color1`: the bytes after the five sample lines are those of
`PaletteColor1=(R=0,G=0,B=0,A=255)`. The word in front of the palette is 0 here. -/
theorem ProceduralTexture_fire_label_counterexample :
    ∃ out, Exporter.ExportFireTextureWith (some 0) Sample.fireTexture = .returned out ∧
      (∃ rest, out.data = strBytes "BEGIN OBJECT CLASS=FireTexture USIZE=2 VSIZE=2\r\n"
          ++ strBytes "\tColor1=(R=0,G=0,B=0,A=0)\r\n"
          ++ strBytes "\tColor2=(R=63,G=126,B=189,A=192)\r\n"
          ++ strBytes "\tColor3=(R=127,G=254,B=125,A=128)\r\n"
          ++ strBytes "\tColor4=(R=191,G=126,B=61,A=64)\r\n"
          ++ strBytes "\tColor5=(R=255,G=254,B=253,A=0)\r\n"
          ++ strBytes "\tPaletteColor1=(R=0,G=0,B=0,A=255)\r\n" ++ rest) ∧
      ¬ ∃ rest, out.data = strBytes "BEGIN OBJECT CLASS=FireTexture USIZE=2 VSIZE=2\r\n"
          ++ strBytes "\tColor1=(R=0,G=0,B=0,A=0)\r\n"
          ++ strBytes "\tColor2=(R=63,G=126,B=189,A=192)\r\n"
          ++ strBytes "\tColor3=(R=127,G=254,B=125,A=128)\r\n"
          ++ strBytes "\tColor4=(R=191,G=126,B=61,A=64)\r\n"
          ++ strBytes "\tColor5=(R=255,G=254,B=253,A=0)\r\n"
          ++ strBytes "\tColor1=(R=0,G=0,B=0,A=255)\r\n" ++ rest := by
  have hret := exportProceduralTextureWith_returned 0 "FireTexture" "\tPaletteColor"
    Sample.fireTexture Sample.palette rfl Sample.length_palette
  have hhead : proceduralHead "FireTexture" Sample.fireTexture
      = strBytes "BEGIN OBJECT CLASS=FireTexture USIZE=2 VSIZE=2\r\n" := by decide
  obtain ⟨rest, hrest⟩ := Sample.dumpBytes_first "\tPaletteColor"
  have hlab : "\tPaletteColor" ++ "1=(R=0,G=0,B=0,A=255)\r\n"
      = "\tPaletteColor1=(R=0,G=0,B=0,A=255)\r\n" := by decide
  rw [hhead, Sample.sampleBytes_zero, hrest, hlab] at hret
  refine ⟨_, hret, ⟨rest, ?_⟩, ?_⟩
  · simp only [MemoryStreamWriter.atEnd, List.append_assoc]
  · rintro ⟨rest1, hr⟩
    simp only [MemoryStreamWriter.atEnd, List.append_assoc] at hr
    have h1 := List.append_cancel_left hr
    have h2 := List.append_cancel_left h1
    have h3 := List.append_cancel_left h2
    have h4 := List.append_cancel_left h3
    have h5 := List.append_cancel_left h4
    have h6 := List.append_cancel_left h5
    exact append_ne_of_getElem? _ _ _ _ 1 (toByte 80) (toByte 67) (by decide) (by decide)
      (by decide) h6

/-- Claim C19, amended. In whatever a procedural-texture writer returns, the five sample lines
are followed by the dump of the 256 palette entries and by the line `END OBJECT` with CR LF,
which ends the block. The line of entry i (0-based) is `<label><i + 1>=(R=r,G=g,B=b,A=a)` with
the unpacked components of that entry in decimal and CR LF, where the label is `PaletteColor`
for `ExportFireTexture` and `Palette` for `ExportWetTexture`, `ExportWaveTexture` and
`ExportIceTexture`. Each writer returns for every texture whose palette has at least 256
entries, whatever word lies in front of the palette. -/
theorem ProceduralTexture_dump_lines (tex : UTexture) (before : Nat) :
    ∀ x ∈ [(Exporter.ExportFireTextureWith, "FireTexture", "\tPaletteColor"),
           (Exporter.ExportWetTextureWith, "WetTexture", "\tPalette"),
           (Exporter.ExportWaveTextureWith, "WaveTexture", "\tPalette"),
           (Exporter.ExportIceTextureWith, "IceTexture", "\tPalette")],
      ((∃ palette, tex.Palette = some palette ∧ 256 ≤ palette.Colors.length) →
        ∃ out, x.1 (some before) tex = .returned out) ∧
      ∀ out, x.1 (some before) tex = .returned out →
        ∃ palette, tex.Palette = some palette ∧ 256 ≤ palette.Colors.length ∧
          out.data = proceduralHead x.2.1 tex ++ proceduralSampleBytes palette before
            ++ (List.range 256).flatMap (fun i =>
                strBytes (x.2.2 ++ toString (i + 1)
                  ++ "=(R=" ++ toString (UnpackRgba (palette.Colors.getD i 0)).r
                  ++ ",G=" ++ toString (UnpackRgba (palette.Colors.getD i 0)).g
                  ++ ",B=" ++ toString (UnpackRgba (palette.Colors.getD i 0)).b
                  ++ ",A=" ++ toString (UnpackRgba (palette.Colors.getD i 0)).a ++ ")\r\n"))
            ++ strBytes "END OBJECT\r\n" := by
  have key : ∀ (classTag paletteLabel : String),
      ((∃ palette, tex.Palette = some palette ∧ 256 ≤ palette.Colors.length) →
        ∃ out, Exporter.exportProceduralTextureWith (some before) classTag paletteLabel tex
          = .returned out) ∧
      ∀ out, Exporter.exportProceduralTextureWith (some before) classTag paletteLabel tex
          = .returned out →
        ∃ palette, tex.Palette = some palette ∧ 256 ≤ palette.Colors.length ∧
          out.data = proceduralHead classTag tex ++ proceduralSampleBytes palette before
            ++ (List.range 256).flatMap (fun i =>
                strBytes (colorLine paletteLabel (i + 1) (palette.Colors.getD i 0)))
            ++ strBytes "END OBJECT\r\n" := by
    intro classTag paletteLabel
    refine ⟨fun ⟨palette, hp, h256⟩ =>
      ⟨_, exportProceduralTextureWith_returned before classTag paletteLabel tex palette hp h256⟩,
      fun out ho => ?_⟩
    obtain ⟨palette, hp, h256⟩ :=
      exportProceduralTextureWith_returned_inv _ classTag paletteLabel tex out ho
    rw [exportProceduralTextureWith_returned before classTag paletteLabel tex palette hp h256]
      at ho
    refine ⟨palette, hp, h256, ?_⟩
    rw [← Outcome.returned.inj ho]
    simp only [MemoryStreamWriter.atEnd, proceduralDumpBytes, List.append_assoc]
  intro x hx
  simp only [List.mem_cons, List.mem_singleton, List.not_mem_nil, or_false] at hx
  rcases hx with rfl | rfl | rfl | rfl
  · exact key "FireTexture" "\tPaletteColor"
  · exact key "WetTexture" "\tPalette"
  · exact key "WaveTexture" "\tPalette"
  · exact key "IceTexture" "\tPalette"

theorem ProceduralTexture_dump_lines_witness :
    ∃ out palette, Exporter.ExportFireTextureWith (some 0) Sample.fireTexture = .returned out ∧
      Sample.fireTexture.Palette = some palette ∧ 256 ≤ palette.Colors.length ∧
      out.data = proceduralHead "FireTexture" Sample.fireTexture
        ++ proceduralSampleBytes palette 0
        ++ (List.range 256).flatMap (fun i =>
            strBytes ("\tPaletteColor" ++ toString (i + 1)
              ++ "=(R=" ++ toString (UnpackRgba (palette.Colors.getD i 0)).r
              ++ ",G=" ++ toString (UnpackRgba (palette.Colors.getD i 0)).g
              ++ ",B=" ++ toString (UnpackRgba (palette.Colors.getD i 0)).b
              ++ ",A=" ++ toString (UnpackRgba (palette.Colors.getD i 0)).a ++ ")\r\n"))
        ++ strBytes "END OBJECT\r\n" := by
  set_option maxRecDepth 10000 in
  have h := ProceduralTexture_dump_lines Sample.fireTexture 0
    (Exporter.ExportFireTextureWith, "FireTexture", "\tPaletteColor") (by simp)
  have hpal : ∃ palette, Sample.fireTexture.Palette = some palette ∧
      256 ≤ palette.Colors.length := ⟨Sample.palette, rfl, Sample.length_palette⟩
  obtain ⟨out, ho⟩ := h.1 hpal
  obtain ⟨palette, hp, h256, hd⟩ := h.2 out ho
  exact ⟨out, palette, ho, hp, h256, hd⟩

/-! ## The layout of the geometry stream -/

theorem take_drop_flatMap_const {α β : Type} (f : α → List β) (n : Nat) :
    ∀ (l : List α), (∀ x ∈ l, (f x).length = n) → ∀ (i : Nat) (x : α), l[i]? = some x →
      ((l.flatMap f).drop (n * i)).take n = f x
  | [], _, i, x, hx => by simp at hx
  | y :: ys, h, 0, x, hx => by
    simp only [List.getElem?_cons_zero, Option.some.injEq] at hx
    subst hx
    have hl := h y (List.mem_cons_self _ _)
    simp only [List.flatMap_cons, Nat.mul_zero, List.drop_zero]
    rw [List.take_append_of_le_length (by omega), List.take_of_length_le (by omega)]
  | y :: ys, h, i + 1, x, hx => by
    simp only [List.getElem?_cons_succ] at hx
    have hl := h y (List.mem_cons_self _ _)
    have ih := take_drop_flatMap_const f n ys (fun z hz => h z (List.mem_cons_of_mem _ hz)) i x hx
    have hi : n * (i + 1) = (f y).length + n * i := by rw [hl, Nat.mul_add]; omega
    simp only [List.flatMap_cons]
    rw [hi, List.drop_append, ih]

theorem take_drop_header_records {α : Type} (hb : List Byte) (hh : hb.length = 48)
    (f : α → List Byte) (l : List α) (hf : ∀ x ∈ l, (f x).length = 16) (i : Nat) (x : α)
    (hx : l[i]? = some x) :
    ((hb ++ l.flatMap f).drop (48 + 16 * i)).take 16 = f x := by
  rw [← hh, List.drop_append]
  exact take_drop_flatMap_const f 16 l hf i x hx

theorem U3DDataHeader.bytes_fields (hdr : U3DDataHeader) :
    hdr.bytes = u16le hdr.NumPolygons ++ u16le hdr.NumVertices ++ u16le hdr.BogusRot
      ++ u16le hdr.BogusFrame ++ u32le hdr.BogusNormX ++ u32le hdr.BogusNormY
      ++ u32le hdr.BogusNormZ ++ u32le hdr.FixScale
      ++ (u32le (hdr.Unused 0) ++ u32le (hdr.Unused 1) ++ u32le (hdr.Unused 2))
      ++ [toByte (hdr.Unknown 0), toByte (hdr.Unknown 1), toByte (hdr.Unknown 2),
          toByte (hdr.Unknown 3), toByte (hdr.Unknown 4), toByte (hdr.Unknown 5),
          toByte (hdr.Unknown 6), toByte (hdr.Unknown 7), toByte (hdr.Unknown 8),
          toByte (hdr.Unknown 9), toByte (hdr.Unknown 10), toByte (hdr.Unknown 11)] := by
  unfold U3DDataHeader.bytes
  rfl

theorem readU16LE_header (hdr : U3DDataHeader) (rest : List Byte)
    (h1 : hdr.NumPolygons < 65536) (h2 : hdr.NumVertices < 65536) :
    readU16LE (hdr.bytes ++ rest) 0 = some hdr.NumPolygons ∧
      readU16LE (hdr.bytes ++ rest) 2 = some hdr.NumVertices := by
  rw [U3DDataHeader.bytes_fields]
  simp only [u16le, List.append_assoc, List.cons_append, List.nil_append]
  constructor
  · exact readU16LE_of_getElem _ 0 _ h1 rfl rfl
  · exact readU16LE_of_getElem _ 2 _ h2 rfl rfl

theorem take_header_append (hb rest : List Byte) (n : Nat) (h : hb.length = n) :
    List.take n (hb ++ rest) = hb := by
  subst h
  exact List.take_left hb rest

theorem toU16_lt (i : Int) : toU16 i < 65536 := by
  unfold toU16
  omega

theorem dataHeader_layout (hdr : U3DDataHeader) (n : Nat) (frameVerts : Int) (hn : n ≤ 65535)
    (rest : List Byte) :
    ((dataHeader hdr n frameVerts).bytes ++ rest).take 48
        = u16le n ++ u16le (toU16 frameVerts) ++ u16le hdr.BogusRot
          ++ u16le hdr.BogusFrame ++ u32le hdr.BogusNormX ++ u32le hdr.BogusNormY
          ++ u32le hdr.BogusNormZ ++ u32le hdr.FixScale
          ++ (u32le (hdr.Unused 0) ++ u32le (hdr.Unused 1) ++ u32le (hdr.Unused 2))
          ++ [toByte (hdr.Unknown 0), toByte (hdr.Unknown 1), toByte (hdr.Unknown 2),
              toByte (hdr.Unknown 3), toByte (hdr.Unknown 4), toByte (hdr.Unknown 5),
              toByte (hdr.Unknown 6), toByte (hdr.Unknown 7), toByte (hdr.Unknown 8),
              toByte (hdr.Unknown 9), toByte (hdr.Unknown 10), toByte (hdr.Unknown 11)] ∧
      readU16LE ((dataHeader hdr n frameVerts).bytes ++ rest) 0 = some n ∧
      readU16LE ((dataHeader hdr n frameVerts).bytes ++ rest) 2 = some (toU16 frameVerts) := by
  have e1 : (dataHeader hdr n frameVerts).NumPolygons = n := Nat.mod_eq_of_lt (by omega)
  have e2 : (dataHeader hdr n frameVerts).NumVertices = toU16 frameVerts := rfl
  have h := readU16LE_header (dataHeader hdr n frameVerts) rest
    (by rw [e1]; omega) (by rw [e2]; exact toU16_lt _)
  rw [e1, e2] at h
  refine ⟨?_, h⟩
  rw [take_header_append _ _ 48 (length_dataHeaderBytes _), U3DDataHeader.bytes_fields, e1, e2]
  rfl

/-- Claim C20. For a mesh that is not a skeletal mesh and has N <= 65535 polygons (the faces of
a LodMesh, the triangles of any other mesh), `ExportMeshData` returns whenever the indices of a
LodMesh lie inside its tables, and whatever it returns is 48 + 16 * N bytes long. Its first 48
bytes are the header: the polygon count and the vertex count as u16, two further u16, three
u32, one u32, three u32 and twelve u8, all in little-endian order; the first u16 reads N and the
second reads the per-frame vertex count of the mesh converted to u16. The 16 bytes at offset
48 + 16 * i are the record of polygon i in list order. -/
theorem ExportMeshData_layout (pf : PolyFlagMasks) (hdr : U3DDataHeader) (mesh : UMesh)
    (hs : mesh.ClassName ≠ "SkeletalMesh") (hN : mesh.polygonCount ≤ 65535) :
    ((mesh.ClassName = "LodMesh" → mesh.LodIndicesInRange) →
      ∃ out, ExportMeshData pf hdr (some mesh) = .returned out) ∧
    ∀ out, ExportMeshData pf hdr (some mesh) = .returned out →
      out.data.length = 48 + 16 * mesh.polygonCount ∧
      out.data.take 48
        = u16le mesh.polygonCount ++ u16le (toU16 mesh.FrameVerts) ++ u16le hdr.BogusRot
          ++ u16le hdr.BogusFrame ++ u32le hdr.BogusNormX ++ u32le hdr.BogusNormY
          ++ u32le hdr.BogusNormZ ++ u32le hdr.FixScale
          ++ (u32le (hdr.Unused 0) ++ u32le (hdr.Unused 1) ++ u32le (hdr.Unused 2))
          ++ [toByte (hdr.Unknown 0), toByte (hdr.Unknown 1), toByte (hdr.Unknown 2),
              toByte (hdr.Unknown 3), toByte (hdr.Unknown 4), toByte (hdr.Unknown 5),
              toByte (hdr.Unknown 6), toByte (hdr.Unknown 7), toByte (hdr.Unknown 8),
              toByte (hdr.Unknown 9), toByte (hdr.Unknown 10), toByte (hdr.Unknown 11)] ∧
      readU16LE out.data 0 = some mesh.polygonCount ∧
      readU16LE out.data 2 = some (toU16 mesh.FrameVerts) ∧
      ∀ i, i < mesh.polygonCount →
        ∃ tri : U3DDataTriangle,
          (if mesh.ClassName = "LodMesh" then lodRecord pf mesh i = some tri
            else ∃ mt, mesh.Tris[i]? = some mt ∧ tri = meshRecord pf mt) ∧
          (out.data.drop (48 + 16 * i)).take 16 = tri.bytes := by
  have hhdr := fun rest : List Byte =>
    dataHeader_layout hdr mesh.polygonCount mesh.FrameVerts hN rest
  by_cases hl : mesh.ClassName = "LodMesh"
  · have hpc : mesh.polygonCount = mesh.Faces.length := by simp [UMesh.polygonCount, hl]
    have hE : ExportMeshData pf hdr (some mesh) = ExportLodMesh pf hdr mesh := by
      simp [ExportMeshData, hl]
    rw [hE]
    rw [hpc] at hN
    refine ⟨fun hr => ⟨_, ExportLodMesh_returned pf hdr mesh hN
      (fun i hi => lodRecord_isSome pf mesh (hr hl) i hi)⟩, fun out hout => ?_⟩
    obtain ⟨_, hr⟩ := ExportLodMesh_returned_inv pf hdr mesh out hout
    rw [ExportLodMesh_returned pf hdr mesh hN hr] at hout
    simp only [Outcome.returned.injEq] at hout
    subst hout
    simp only [MemoryStreamWriter.atEnd]
    have hlen : ∀ x ∈ List.range mesh.Faces.length, (lodRecordBytes pf mesh x).length = 16 := by
      intro x hx
      obtain ⟨tri, ht⟩ := hr x (List.mem_range.mp hx)
      simp only [lodRecordBytes, ht]
      exact length_triangleBytes tri
    have h3 := hhdr ((List.range mesh.Faces.length).flatMap (lodRecordBytes pf mesh))
    rw [hpc] at h3 ⊢
    refine ⟨?_, h3.1, h3.2.1, h3.2.2, ?_⟩
    · rw [List.length_append, length_dataHeaderBytes,
        length_flatMap_const (lodRecordBytes pf mesh) 16 _ hlen, List.length_range]
    · intro i hi
      obtain ⟨tri, ht⟩ := hr i hi
      refine ⟨tri, by rw [if_pos hl]; exact ht, ?_⟩
      rw [take_drop_header_records _ (length_dataHeaderBytes _) _ _ hlen i i
        (by rw [List.getElem?_range hi])]
      simp only [lodRecordBytes, ht]
  · have hpc : mesh.polygonCount = mesh.Tris.length := by simp [UMesh.polygonCount, hl]
    rw [hpc] at hN
    have hG := ExportMeshData_generic pf hdr mesh hl hs hN
    refine ⟨fun _ => ⟨_, hG⟩, fun out hout => ?_⟩
    rw [hG] at hout
    simp only [Outcome.returned.injEq] at hout
    subst hout
    simp only [MemoryStreamWriter.atEnd]
    have hlen : ∀ x ∈ mesh.Tris, ((fun mt => (meshRecord pf mt).bytes) x).length = 16 :=
      fun x _ => length_triangleBytes _
    have h3 := hhdr (mesh.Tris.flatMap (fun mt => (meshRecord pf mt).bytes))
    rw [hpc] at h3 ⊢
    refine ⟨?_, h3.1, h3.2.1, h3.2.2, ?_⟩
    · rw [List.length_append, length_dataHeaderBytes,
        length_flatMap_const (fun mt => (meshRecord pf mt).bytes) 16 _ hlen]
    · intro i hi
      refine ⟨meshRecord pf (mesh.Tris[i]), by
        rw [if_neg hl]; exact ⟨_, List.getElem?_eq_getElem hi, rfl⟩, ?_⟩
      rw [take_drop_header_records _ (length_dataHeaderBytes _) _ _ hlen i _
        (List.getElem?_eq_getElem hi)]

theorem ExportMeshData_layout_witness :
    Sample.mesh.ClassName ≠ "SkeletalMesh" ∧ Sample.mesh.polygonCount ≤ 65535 ∧
      Sample.lodMesh.LodIndicesInRange ∧
      (∃ out, ExportMeshData Sample.polyFlags Sample.zeroHeader (some Sample.mesh)
          = .returned out ∧ out.data.length = 48 + 16 * 2 ∧
        readU16LE out.data 0 = some 2 ∧ readU16LE out.data 2 = some 1) ∧
      (∃ out, ExportMeshData Sample.polyFlags Sample.zeroHeader (some Sample.lodMesh)
          = .returned out ∧ out.data.length = 48 + 16 * 2 ∧
        readU16LE out.data 0 = some 2 ∧ readU16LE out.data 2 = some 3) := by
  have hm := ExportMeshData_layout Sample.polyFlags Sample.zeroHeader Sample.mesh
    (by decide) (by decide)
  have hl := ExportMeshData_layout Sample.polyFlags Sample.zeroHeader Sample.lodMesh
    (by decide) (by decide)
  refine ⟨by decide, by decide, by decide, ?_, ?_⟩
  · obtain ⟨out, h⟩ := hm.1 (fun h => absurd h (by decide))
    have h2 := hm.2 out h
    exact ⟨out, h, h2.1, h2.2.2.1, h2.2.2.2.1⟩
  · obtain ⟨out, h⟩ := hl.1 (fun _ => by decide)
    have h2 := hl.2 out h
    exact ⟨out, h, h2.1, h2.2.2.1, h2.2.2.2.1⟩

/-! ## The triangle records of the geometry stream -/

theorem ExportMeshData_returned_records (pf : PolyFlagMasks) (hdr : U3DDataHeader) (mesh : UMesh)
    (hs : mesh.ClassName ≠ "SkeletalMesh") (out : MemoryStreamWriter)
    (h : ExportMeshData pf hdr (some mesh) = .returned out) :
    mesh.polygonCount ≤ 65535 ∧
      ∃ recs : List U3DDataTriangle, recs.length = mesh.polygonCount ∧
        out.data = (dataHeader hdr mesh.polygonCount mesh.FrameVerts).bytes
          ++ recs.flatMap (fun tri => tri.bytes) ∧
        ∀ i tri, recs[i]? = some tri →
          if mesh.ClassName = "LodMesh" then lodRecord pf mesh i = some tri
          else ∃ mt, mesh.Tris[i]? = some mt ∧ tri = meshRecord pf mt := by
  by_cases hl : mesh.ClassName = "LodMesh"
  · have hpc : mesh.polygonCount = mesh.Faces.length := by simp [UMesh.polygonCount, hl]
    have hE : ExportMeshData pf hdr (some mesh) = ExportLodMesh pf hdr mesh := by
      simp [ExportMeshData, hl]
    rw [hE] at h
    obtain ⟨hN, hr⟩ := ExportLodMesh_returned_inv pf hdr mesh out h
    rw [ExportLodMesh_returned pf hdr mesh hN hr] at h
    simp only [Outcome.returned.injEq] at h
    subst h
    rw [hpc]
    refine ⟨hN, (List.range mesh.Faces.length).map
      (fun i => (lodRecord pf mesh i).getD (meshRecord pf ⟨fun _ => 0, fun _ => ⟨0, 0⟩, 0, 0⟩)),
      by simp, ?_, ?_⟩
    · simp only [MemoryStreamWriter.atEnd, List.flatMap_map]
      congr 1
      apply List.flatMap_congr
      intro i hi
      obtain ⟨tri, ht⟩ := hr i (List.mem_range.mp hi)
      simp only [lodRecordBytes, ht, Option.getD_some]
    · intro i tri hi
      rw [if_pos hl]
      rw [List.getElem?_map] at hi
      have hlt : i < mesh.Faces.length := by
        by_contra hc
        rw [List.getElem?_eq_none (by simp only [List.length_range]; omega)] at hi
        simp at hi
      rw [List.getElem?_range hlt] at hi
      obtain ⟨tri1, ht⟩ := hr i hlt
      simp only [Option.map_some', ht, Option.getD_some, Option.some.injEq] at hi
      rw [← hi]
      exact ht
  · have hpc : mesh.polygonCount = mesh.Tris.length := by simp [UMesh.polygonCount, hl]
    have hN : mesh.Tris.length ≤ 65535 := by
      by_contra hc
      have hn1 : mesh.Tris.length > UINT16_MAX := by simp [UINT16_MAX]; omega
      simp [ExportMeshData, hl, hs, hn1] at h
    rw [ExportMeshData_generic pf hdr mesh hl hs hN] at h
    simp only [Outcome.returned.injEq] at h
    subst h
    rw [hpc]
    refine ⟨hN, mesh.Tris.map (meshRecord pf), by simp, ?_, ?_⟩
    · simp only [MemoryStreamWriter.atEnd, List.flatMap_map]
    · intro i tri hi
      rw [if_neg hl]
      rw [List.getElem?_map] at hi
      cases hm : mesh.Tris[i]? with
      | none => rw [hm] at hi; simp at hi
      | some mt =>
        rw [hm] at hi
        simp only [Option.map_some', Option.some.injEq] at hi
        exact ⟨mt, rfl, hi.symm⟩

theorem ExportMeshData_returns (pf : PolyFlagMasks) (hdr : U3DDataHeader) (mesh : UMesh)
    (hs : mesh.ClassName ≠ "SkeletalMesh") (hN : mesh.polygonCount ≤ 65535)
    (hr : mesh.ClassName = "LodMesh" → mesh.LodIndicesInRange) :
    ∃ out, ExportMeshData pf hdr (some mesh) = .returned out := by
  by_cases hl : mesh.ClassName = "LodMesh"
  · have hpc : mesh.polygonCount = mesh.Faces.length := by simp [UMesh.polygonCount, hl]
    have hE : ExportMeshData pf hdr (some mesh) = ExportLodMesh pf hdr mesh := by
      simp [ExportMeshData, hl]
    rw [hE]
    rw [hpc] at hN
    exact ⟨_, ExportLodMesh_returned pf hdr mesh hN
      (fun i hi => lodRecord_isSome pf mesh (hr hl) i hi)⟩
  · have hpc : mesh.polygonCount = mesh.Tris.length := by simp [UMesh.polygonCount, hl]
    rw [hpc] at hN
    exact ⟨_, ExportMeshData_generic pf hdr mesh hl hs hN⟩

theorem lodRecord_color_flags (pf : PolyFlagMasks) (mesh : UMesh) (i : Nat)
    (tri : U3DDataTriangle) (ht : lodRecord pf mesh i = some tri) :
    tri.Color = 127 ∧ tri.Flags = 0 := by
  unfold lodRecord at ht
  split at ht
  · simp at ht
  · split at ht
    · simp only [Option.some.injEq] at ht
      rw [← ht]
      exact ⟨rfl, rfl⟩
    · simp at ht

/-- Claim C21. In every stream `ExportMeshData` returns for a generic mesh, the 16 bytes at
offset 48 + 16 * i are the record of triangle i: its three vertex indices as little-endian u16,
the type code, the colour byte 127, the six UV bytes u0, v0, u1, v1, u2, v2, each the source
component reduced to 8 bits, the texture index byte and the flags byte 0. In every stream
returned for a generic or a LOD mesh, the colour byte of every record is 127 and its flags byte
is 0. A stream is returned whenever there are at most 65535 polygons and the indices of a
LodMesh lie inside its tables. -/
theorem ExportMeshData_record_layout (pf : PolyFlagMasks) (hdr : U3DDataHeader) (mesh : UMesh)
    (hs : mesh.ClassName ≠ "SkeletalMesh") :
    (mesh.polygonCount ≤ 65535 → (mesh.ClassName = "LodMesh" → mesh.LodIndicesInRange) →
      ∃ out, ExportMeshData pf hdr (some mesh) = .returned out) ∧
    ∀ out, ExportMeshData pf hdr (some mesh) = .returned out →
      (mesh.ClassName ≠ "LodMesh" → ∀ i mt, mesh.Tris[i]? = some mt →
        (out.data.drop (48 + 16 * i)).take 16
          = u16le (mt.Indices 0 % 65536) ++ u16le (mt.Indices 1 % 65536)
            ++ u16le (mt.Indices 2 % 65536)
            ++ [toByte (meshRecord pf mt).Type_, 127,
                toByte (mt.UV 0).s, toByte (mt.UV 0).t, toByte (mt.UV 1).s, toByte (mt.UV 1).t,
                toByte (mt.UV 2).s, toByte (mt.UV 2).t,
                toByte mt.TextureIndex, 0]) ∧
      (∀ i, i < mesh.polygonCount →
        out.data[48 + 16 * i + 7]? = some 127 ∧ out.data[48 + 16 * i + 15]? = some 0) := by
  refine ⟨ExportMeshData_returns pf hdr mesh hs, fun out hout => ?_⟩
  obtain ⟨_, recs, hlen, hdata, hrec⟩ := ExportMeshData_returned_records pf hdr mesh hs out hout
  have h16 : ∀ x ∈ recs, ((fun tri : U3DDataTriangle => tri.bytes) x).length = 16 :=
    fun x _ => length_triangleBytes x
  refine ⟨fun hl i mt hi => ?_, fun i hi => ?_⟩
  · have hilt : i < recs.length := by
      rw [hlen]
      have := (List.getElem?_eq_some.mp hi).1
      simp [UMesh.polygonCount, hl]
      exact this
    have hri : recs[i]? = some recs[i] := List.getElem?_eq_getElem hilt
    have hspec := hrec i _ hri
    rw [if_neg hl] at hspec
    obtain ⟨mt1, hm1, htri⟩ := hspec
    rw [hi] at hm1
    injection hm1 with hm1
    subst hm1
    rw [hdata, take_drop_header_records _ (length_dataHeaderBytes _) _ recs h16 i _ hri]
    show (recs[i]).bytes = _
    rw [htri, U3DDataTriangle.bytes_eq]
    simp only [meshRecord, u16le, List.cons_append, List.nil_append, toByte_mod]
    simp
    refine ⟨rfl, ?_, ?_, ?_, ?_, ?_, ?_, rfl⟩ <;> exact toByte_mod _
  · have hilt : i < recs.length := by rw [hlen]; exact hi
    have hri : recs[i]? = some recs[i] := List.getElem?_eq_getElem hilt
    have hcf : recs[i].Color = 127 ∧ recs[i].Flags = 0 := by
      have hspec := hrec i _ hri
      by_cases hl : mesh.ClassName = "LodMesh"
      · rw [if_pos hl] at hspec
        exact lodRecord_color_flags pf mesh i _ hspec
      · rw [if_neg hl] at hspec
        obtain ⟨mt, _, htri⟩ := hspec
        rw [htri]
        exact ⟨rfl, rfl⟩
    rw [hdata]
    rw [getElem?_header_records _ (length_dataHeaderBytes _) _ recs h16 i 7 _ hri (by omega),
      getElem?_header_records _ (length_dataHeaderBytes _) _ recs h16 i 15 _ hri (by omega)]
    rw [U3DDataTriangle.bytes_eq, hcf.1, hcf.2]
    exact ⟨rfl, rfl⟩

theorem ExportMeshData_record_layout_witness :
    Sample.mesh.ClassName ≠ "SkeletalMesh" ∧
      ∃ out, ExportMeshData Sample.polyFlags Sample.zeroHeader (some Sample.mesh)
          = .returned out ∧
        (out.data.drop (48 + 16 * 1)).take 16
          = [0, 0, 1, 0, 2, 0, 4, 127, 10, 11, 12, 13, 14, 15, 5, 0] ∧
        out.data[48 + 16 * 1 + 7]? = some 127 ∧ out.data[48 + 16 * 1 + 15]? = some 0 := by
  have hm := ExportMeshData_record_layout Sample.polyFlags Sample.zeroHeader Sample.mesh
    (by decide)
  obtain ⟨out, h⟩ := hm.1 (by decide) (fun h => absurd h (by decide))
  have h2 := hm.2 out h
  refine ⟨by decide, out, h, ?_, h2.2 1 (by decide)⟩
  rw [h2.1 (by decide) 1 Sample.triangle rfl]
  decide

/-! ## The layout of the vertex-animation stream -/

theorem toU16_natCast (n : Nat) : toU16 (n : Int) = n % 65536 := by
  unfold toU16
  omega

theorem readU16LE_anivHeader (a b : Nat) (rest : List Byte) (h1 : a < 65536) (h2 : b < 65536) :
    readU16LE (({ NumFrames := a, FrameSize := b } : U3DAnivHeader).bytes ++ rest) 0 = some a ∧
      readU16LE (({ NumFrames := a, FrameSize := b } : U3DAnivHeader).bytes ++ rest) 2
        = some b := by
  simp only [U3DAnivHeader.bytes, u16le, List.append_assoc, List.cons_append, List.nil_append]
  constructor
  · exact readU16LE_of_getElem _ 0 _ h1 rfl rfl
  · exact readU16LE_of_getElem _ 2 _ h2 (by simp) (by simp)

theorem length_anivHeaderBytes (hdr : U3DAnivHeader) : hdr.bytes.length = 4 := rfl

theorem length_words (g : Nat → Nat) (F V : Nat) :
    ((List.range F).flatMap (fun i => (List.range V).flatMap (fun k =>
        u32le (g (i * V + k))))).length = 4 * F * V := by
  rw [length_flatMap_const (fun i => (List.range V).flatMap (fun k => u32le (g (i * V + k))))
    (4 * V) _ (fun i _ => by
      rw [length_flatMap_const (fun k => u32le (g (i * V + k))) 4 _ (fun _ _ => rfl),
        List.length_range]),
    List.length_range]
  ring

/-- The mesh of one frame and 16384 vertices is exported with the frame size 0 in its header,
not 16384 * 4 = 65536. -/
theorem ExportMeshAnim_frameSize_counterexample :
    Sample.wideMesh.AnimFrames = 1 ∧ Sample.wideMesh.FrameVerts = 16384 ∧
      Sample.wideMesh.Verts.length = 16384 ∧
      ∃ out, Exporter.ExportMeshAnim (some Sample.wideMesh) = .returned out ∧
        readU16LE out.data 2 = some 0 ∧ readU16LE out.data 2 ≠ some (16384 * 4) := by
  have hlen : Sample.wideMesh.Verts.length = 16384 := List.length_replicate _ _
  refine ⟨rfl, rfl, hlen, ?_⟩
  have hok := vertices_ok_of_length Sample.wideMesh (by rw [hlen]; decide)
    (fun v hv => by
      have := List.eq_of_mem_replicate hv
      rw [this]
      decide)
  refine ⟨_, ExportMeshAnim_returned Sample.wideMesh (by decide) hok, ?_⟩
  have h := (readU16LE_anivHeader (toU16 Sample.wideMesh.AnimFrames)
    (toU16 (Sample.wideMesh.FrameVerts * 4))
    ((List.range Sample.wideMesh.AnimFrames.toNat).flatMap (fun i =>
      (List.range Sample.wideMesh.FrameVerts.toNat).flatMap (fun k =>
        u32le (vertexWord Sample.wideMesh.Verts (i * Sample.wideMesh.FrameVerts.toNat + k)))))
    (by decide) (by decide)).2
  have h0 : toU16 (Sample.wideMesh.FrameVerts * 4) = 0 := by decide
  rw [h0] at h
  dsimp only [MemoryStreamWriter.atEnd]
  rw [h0, h]
  exact ⟨rfl, by decide⟩

/-- Claim C22, amended. For a mesh that is not a skeletal mesh, with F animation frames and V
vertices per frame, `ExportMeshAnim` returns whenever the vertex buffer holds F * V entries and
the coordinates convert to `int`, and whatever it returns is 4 + 4 * F * V bytes long. The
header is two little-endian u16: the frame count F and the frame size V * 4, each reduced
modulo 65536 by the conversion to `uint16_t`, hence equal to F when F <= 65535 and to V * 4
when V <= 16383. The packed word of vertex k of frame i is read at offset
4 + 4 * (i * V + k). -/
theorem ExportMeshAnim_layout (mesh : UMesh) (hs : mesh.ClassName ≠ "SkeletalMesh")
    (F V : Nat) (hF : mesh.AnimFrames = F) (hV : mesh.FrameVerts = V) :
    (F * V ≤ mesh.Verts.length → (∀ v ∈ mesh.Verts, v.FitsInt) →
      ∃ out, Exporter.ExportMeshAnim (some mesh) = .returned out) ∧
    ∀ out, Exporter.ExportMeshAnim (some mesh) = .returned out →
      out.data.length = 4 + 4 * F * V ∧
      readU16LE out.data 0 = some (F % 65536) ∧
      readU16LE out.data 2 = some (V * 4 % 65536) ∧
      (F ≤ 65535 → readU16LE out.data 0 = some F) ∧
      (V ≤ 16383 → readU16LE out.data 2 = some (V * 4)) ∧
      ∀ i k, i < F → k < V →
        ∃ v word, mesh.Verts[i * V + k]? = some v ∧ Exporter.packVertex v = some word ∧
          readU32LE out.data (4 + 4 * (i * V + k)) = some word := by
  have hFn : mesh.AnimFrames.toNat = F := by rw [hF]; rfl
  have hVn : mesh.FrameVerts.toNat = V := by rw [hV]; rfl
  refine ⟨fun hlen hfit => ⟨_, ExportMeshAnim_returned mesh hs
    (vertices_ok_of_length mesh (by rw [hFn, hVn]; exact hlen) hfit)⟩, fun out hr => ?_⟩
  have hok := ExportMeshAnim_returned_inv mesh hs out hr
  rw [ExportMeshAnim_returned mesh hs hok] at hr
  have e := Outcome.returned.inj hr
  subst e
  rw [hFn, hVn] at hok ⊢
  dsimp only [MemoryStreamWriter.atEnd]
  have e1 : toU16 mesh.AnimFrames = F % 65536 := by rw [hF]; exact toU16_natCast F
  have e2 : toU16 (mesh.FrameVerts * 4) = V * 4 % 65536 := by
    rw [hV]
    have : ((V : Int) * 4) = ((V * 4 : Nat) : Int) := by push_cast; rfl
    rw [this]
    exact toU16_natCast _
  rw [e1, e2]
  have hh := readU16LE_anivHeader (F % 65536) (V * 4 % 65536)
    ((List.range F).flatMap (fun i => (List.range V).flatMap (fun k =>
      u32le (vertexWord mesh.Verts (i * V + k)))))
    (Nat.mod_lt _ (by decide)) (Nat.mod_lt _ (by decide))
  refine ⟨?_, hh.1, hh.2, ?_, ?_, ?_⟩
  · rw [List.length_append, length_anivHeaderBytes, length_words]
  · intro hle
    rw [hh.1, Nat.mod_eq_of_lt (by omega)]
  · intro hle
    rw [hh.2, Nat.mod_eq_of_lt (by omega)]
  · intro i k hi hk
    obtain ⟨v, hv, hfit⟩ := hok i k hi hk
    have hw := vertexWord_eq mesh.Verts _ v hv hfit
    obtain ⟨f1, f2, f3, f4, f5⟩ := packedWord_fields (v.x.neg.scale 3).trunc
      (v.y.neg.scale 3).trunc (v.z.scale 2).trunc
    refine ⟨v, _, hv, packVertex_eq v hfit, ?_⟩
    have key : ∀ j, j < 4 →
        (({ NumFrames := F % 65536, FrameSize := V * 4 % 65536 } : U3DAnivHeader).bytes
          ++ (List.range F).flatMap (fun i => (List.range V).flatMap (fun k =>
              u32le (vertexWord mesh.Verts (i * V + k)))))[4 + 4 * (i * V + k) + j]?
        = (u32le (packedWord (v.x.neg.scale 3).trunc (v.y.neg.scale 3).trunc
            (v.z.scale 2).trunc))[j]? := by
      intro j hj
      rw [getElem?_words (U3DAnivHeader.bytes _) rfl (vertexWord mesh.Verts) _ _ i k j hi hk hj,
        hw]
    have k0 := key 0 (by omega)
    rw [Nat.add_zero] at k0
    exact readU32LE_of_getElem _ _ _ f2 k0 (key 1 (by omega)) (key 2 (by omega))
      (key 3 (by omega))

theorem ExportMeshAnim_layout_witness :
    Sample.mesh.ClassName ≠ "SkeletalMesh" ∧ Sample.mesh.AnimFrames = (1 : Nat) ∧
      Sample.mesh.FrameVerts = (1 : Nat) ∧
      ∃ out, Exporter.ExportMeshAnim (some Sample.mesh) = .returned out ∧
        out.data.length = 4 + 4 * 1 * 1 ∧ readU16LE out.data 0 = some 1 ∧
        readU16LE out.data 2 = some (1 * 4) := by
  have h := ExportMeshAnim_layout Sample.mesh (by decide) 1 1 rfl rfl
  obtain ⟨out, ho⟩ := h.1 (by decide) (by decide)
  have h2 := h.2 out ho
  exact ⟨by decide, rfl, rfl, out, ho, h2.1, h2.2.2.2.1 (by decide), h2.2.2.2.2.1 (by decide)⟩

/-! ## Skeletal assets, the leftover header and the LOD indirection -/

/-- Claim C23. `ExportMeshAnim` and `ExportMeshData` return the empty buffer for every mesh
whose class name is SkeletalMesh, whatever the mesh holds, and for a null mesh, and
`ExportSkeletalAnim` returns the empty buffer for every animation and for a null animation. The
empty buffer has length zero; none of these calls throws or is undefined. -/
theorem skeletal_exports_empty :
    (∀ mesh : UMesh, mesh.ClassName = "SkeletalMesh" →
      Exporter.ExportMeshAnim (some mesh) = .returned {} ∧
      ∀ (pf : PolyFlagMasks) (hdr : U3DDataHeader),
        Exporter.ExportMeshData pf hdr (some mesh) = .returned {}) ∧
    Exporter.ExportMeshAnim none = .returned {} ∧
    (∀ (pf : PolyFlagMasks) (hdr : U3DDataHeader),
      Exporter.ExportMeshData pf hdr none = .returned {}) ∧
    (∀ anim : Option UAnimation, Exporter.ExportSkeletalAnim anim = {}) ∧
    ({} : MemoryStreamWriter).data.length = 0 := by
  refine ⟨fun mesh h => ⟨?_, fun pf hdr => ?_⟩, rfl, fun _ _ => rfl, fun _ => rfl, rfl⟩
  · simp [Exporter.ExportMeshAnim, h]
  · simp [Exporter.ExportMeshData, h, Exporter.ExportSkeletalMesh]

theorem skeletal_exports_empty_witness :
    Sample.skeletalMesh.ClassName = "SkeletalMesh" ∧ Sample.skeletalMesh.Tris.length = 2 ∧
      Exporter.ExportMeshAnim (some Sample.skeletalMesh) = .returned {} ∧
      Exporter.ExportMeshData Sample.polyFlags Sample.staleHeader (some Sample.skeletalMesh)
        = .returned {} :=
  ⟨rfl, rfl, (skeletal_exports_empty.1 Sample.skeletalMesh rfl).1,
    (skeletal_exports_empty.1 Sample.skeletalMesh rfl).2 Sample.polyFlags Sample.staleHeader⟩

theorem getElem?_dataHeader_four (hdr : U3DDataHeader) (rest : List Byte) :
    (hdr.bytes ++ rest)[4]? = some (toByte hdr.BogusRot) := by
  rw [U3DDataHeader.bytes_fields]
  simp [u16le]

/-- Claim C24, the code on the sample mesh. Two calls of `ExportMeshData` on the same mesh that
find different leftover contents in the local header return different buffers: the reserved
byte at offset 4 is 0 in one and 255 in the other. The same holds for the sample LOD mesh,
whose header `ExportLodMesh` writes in the same way. -/
theorem ExportMeshData_reserved_bytes_vary :
    (∃ out1 out2,
      Exporter.ExportMeshData Sample.polyFlags Sample.zeroHeader (some Sample.mesh)
        = .returned out1 ∧
      Exporter.ExportMeshData Sample.polyFlags Sample.staleHeader (some Sample.mesh)
        = .returned out2 ∧
      out1.data[4]? = some 0 ∧ out2.data[4]? = some 255 ∧ out1.data ≠ out2.data) ∧
    (∃ out1 out2,
      Exporter.ExportMeshData Sample.polyFlags Sample.zeroHeader (some Sample.lodMesh)
        = .returned out1 ∧
      Exporter.ExportMeshData Sample.polyFlags Sample.staleHeader (some Sample.lodMesh)
        = .returned out2 ∧
      out1.data[4]? = some 0 ∧ out2.data[4]? = some 255 ∧ out1.data ≠ out2.data) := by
  have key : ∀ (mesh : UMesh), mesh.ClassName ≠ "SkeletalMesh" → mesh.polygonCount ≤ 65535 →
      (mesh.ClassName = "LodMesh" → mesh.LodIndicesInRange) →
      ∃ out1 out2,
        Exporter.ExportMeshData Sample.polyFlags Sample.zeroHeader (some mesh)
          = .returned out1 ∧
        Exporter.ExportMeshData Sample.polyFlags Sample.staleHeader (some mesh)
          = .returned out2 ∧
        out1.data[4]? = some 0 ∧ out2.data[4]? = some 255 ∧ out1.data ≠ out2.data := by
    intro mesh hs hN hr
    obtain ⟨out1, h1⟩ := ExportMeshData_returns Sample.polyFlags Sample.zeroHeader mesh hs hN hr
    obtain ⟨out2, h2⟩ := ExportMeshData_returns Sample.polyFlags Sample.staleHeader mesh hs hN hr
    obtain ⟨_, r1, _, d1, _⟩ :=
      ExportMeshData_returned_records Sample.polyFlags Sample.zeroHeader mesh hs out1 h1
    obtain ⟨_, r2, _, d2, _⟩ :=
      ExportMeshData_returned_records Sample.polyFlags Sample.staleHeader mesh hs out2 h2
    have e1 : out1.data[4]? = some (toByte 0) := by
      rw [d1]
      exact getElem?_dataHeader_four _ _
    have e2 : out2.data[4]? = some (toByte 65535) := by
      rw [d2]
      exact getElem?_dataHeader_four _ _
    have hne : toByte 0 ≠ toByte 65535 := by decide
    refine ⟨out1, out2, h1, h2, e1, e2, fun he => ?_⟩
    rw [he, e2] at e1
    exact hne (Option.some.inj e1).symm
  exact ⟨key Sample.mesh (by decide) (by decide) (fun h => absurd h (by decide)),
    key Sample.lodMesh (by decide) (by decide) (fun _ => by decide)⟩

theorem lodRecord_eq_meshRecord (pf : PolyFlagMasks) (mesh : UMesh) (i : Nat)
    (tri : U3DDataTriangle) (ht : lodRecord pf mesh i = some tri)
    (hw : ¬ (mesh.SpecialFaces.length = 1 ∧ i = toSizeT ((mesh.Faces.length : Int) - 1))) :
    ∃ face mt, mesh.Faces[i]? = some face ∧ lodFaceTriangle mesh face = some mt ∧
      tri = meshRecord pf mt := by
  unfold lodRecord at ht
  cases hf : mesh.Faces[i]? with
  | none => rw [hf] at ht; simp at ht
  | some face =>
    rw [hf] at ht
    simp only [] at ht
    cases h0 : mesh.Wedges[face.Indices 0]? with
    | none => rw [h0] at ht; simp at ht
    | some w0 =>
      cases h1 : mesh.Wedges[face.Indices 1]? with
      | none => rw [h0, h1] at ht; simp at ht
      | some w1 =>
        cases h2 : mesh.Wedges[face.Indices 2]? with
        | none => rw [h0, h1, h2] at ht; simp at ht
        | some w2 =>
          cases h3 : mesh.Materials[face.MaterialIndex]? with
          | none => rw [h0, h1, h2, h3] at ht; simp at ht
          | some mat =>
            rw [h0, h1, h2, h3] at ht
            simp only [Option.some.injEq, if_neg hw] at ht
            refine ⟨face,
              { Indices := fun k => (![w0, w1, w2] k).Vertex
                UV := fun k => ⟨(![w0, w1, w2] k).U, (![w0, w1, w2] k).V⟩
                PolyFlags := mat.PolyFlags
                TextureIndex := mat.TextureIndex }, rfl, ?_, ?_⟩
            · unfold lodFaceTriangle
              rw [h0, h1, h2, h3]
            · rw [← ht]
              rfl

/-- Claim C25. For a LOD mesh with at most 65535 faces whose wedge and material indices are in
range, `ExportMeshData` returns, and in whatever it returns the record of every face i that is
not overridden as the weapon triangle (the number of special faces is not 1, or i is not the
last face) is the record of the generic exporter for the triangle that the specification
describes: vertex index k `Wedges[face.Indices[k]].Vertex`, UV k the `U` and `V` of that wedge,
polygon flags and texture index those of `Materials[face.MaterialIndex]`. The same 16 bytes
stand at the same offset of every stream the generic path returns for a mesh that has this
triangle at position i, and the two streams have headers of the same 48 bytes when the meshes
have the same polygon count and per-frame vertex count and the calls find the same leftover
header, and the same length. -/
theorem ExportLodMesh_agrees_with_generic (pf : PolyFlagMasks) (hdr : U3DDataHeader)
    (lod : UMesh) (hl : lod.ClassName = "LodMesh") :
    (lod.Faces.length ≤ 65535 → lod.LodIndicesInRange →
      ∃ out, ExportMeshData pf hdr (some lod) = .returned out) ∧
    ∀ out, ExportMeshData pf hdr (some lod) = .returned out →
      (∀ i, i < lod.Faces.length →
        ¬ (lod.SpecialFaces.length = 1 ∧ i = lod.Faces.length - 1) →
        ∃ face mt, lod.Faces[i]? = some face ∧ lodFaceTriangle lod face = some mt ∧
          (out.data.drop (48 + 16 * i)).take 16 = (meshRecord pf mt).bytes ∧
          ∀ (generic : UMesh) (outg : MemoryStreamWriter),
            generic.ClassName ≠ "LodMesh" → generic.ClassName ≠ "SkeletalMesh" →
            generic.Tris[i]? = some mt →
            ExportMeshData pf hdr (some generic) = .returned outg →
            (outg.data.drop (48 + 16 * i)).take 16 = (out.data.drop (48 + 16 * i)).take 16) ∧
      (∀ (generic : UMesh) (outg : MemoryStreamWriter),
        generic.ClassName ≠ "LodMesh" → generic.ClassName ≠ "SkeletalMesh" →
        generic.Tris.length = lod.Faces.length → generic.FrameVerts = lod.FrameVerts →
        ExportMeshData pf hdr (some generic) = .returned outg →
        outg.data.take 48 = out.data.take 48 ∧ outg.data.length = out.data.length) := by
  have hs : lod.ClassName ≠ "SkeletalMesh" := by rw [hl]; decide
  have hpc : lod.polygonCount = lod.Faces.length := by simp [UMesh.polygonCount, hl]
  refine ⟨fun hN hr => ExportMeshData_returns pf hdr lod hs (by rw [hpc]; exact hN)
    (fun _ => hr), fun out hout => ?_⟩
  obtain ⟨hN, recs, hlen, hdata, hrec⟩ := ExportMeshData_returned_records pf hdr lod hs out hout
  rw [hpc] at hN hlen hdata
  have h16 : ∀ x ∈ recs, ((fun tri : U3DDataTriangle => tri.bytes) x).length = 16 :=
    fun x _ => length_triangleBytes x
  have hgen : ∀ (generic : UMesh) (outg : MemoryStreamWriter),
      generic.ClassName ≠ "LodMesh" → generic.ClassName ≠ "SkeletalMesh" →
      ExportMeshData pf hdr (some generic) = .returned outg →
      generic.Tris.length ≤ 65535 ∧
        outg.data = (dataHeader hdr generic.Tris.length generic.FrameVerts).bytes
          ++ generic.Tris.flatMap (fun mt => (meshRecord pf mt).bytes) := by
    intro generic outg hgl hgs hg
    have hgN : generic.Tris.length ≤ 65535 := by
      by_contra hc
      have hn1 : generic.Tris.length > UINT16_MAX := by simp [UINT16_MAX]; omega
      simp [ExportMeshData, hgl, hgs, hn1] at hg
    rw [ExportMeshData_generic pf hdr generic hgl hgs hgN] at hg
    simp only [Outcome.returned.injEq] at hg
    exact ⟨hgN, by rw [← hg]; rfl⟩
  refine ⟨fun i hi hw => ?_, fun generic outg hgl hgs hnum hfv hg => ?_⟩
  · have hilt : i < recs.length := by rw [hlen]; exact hi
    have hri : recs[i]? = some recs[i] := List.getElem?_eq_getElem hilt
    have hspec := hrec i _ hri
    rw [if_pos hl] at hspec
    have hlast : toSizeT ((lod.Faces.length : Int) - 1) = lod.Faces.length - 1 := by
      unfold toSizeT; omega
    obtain ⟨face, mt, hface, hmt, htri⟩ := lodRecord_eq_meshRecord pf lod i _ hspec
      (by rw [hlast]; exact hw)
    have hbytes : (out.data.drop (48 + 16 * i)).take 16 = (meshRecord pf mt).bytes := by
      rw [hdata, take_drop_header_records _ (length_dataHeaderBytes _) _ recs h16 i _ hri]
      show (recs[i]).bytes = _
      rw [htri]
    refine ⟨face, mt, hface, hmt, hbytes, fun generic outg hgl hgs hgi hg => ?_⟩
    obtain ⟨_, hgd⟩ := hgen generic outg hgl hgs hg
    rw [hbytes, hgd, take_drop_header_records _ (length_dataHeaderBytes _) _ generic.Tris
      (fun x _ => length_triangleBytes _) i mt hgi]
  · obtain ⟨_, hgd⟩ := hgen generic outg hgl hgs hg
    rw [hgd, hdata, hnum, hfv]
    refine ⟨?_, ?_⟩
    · rw [take_header_append _ _ 48 (length_dataHeaderBytes _),
        take_header_append _ _ 48 (length_dataHeaderBytes _)]
    · rw [List.length_append, List.length_append, length_dataHeaderBytes,
        length_flatMap_const (fun mt => (meshRecord pf mt).bytes) 16 _
          (fun x _ => length_triangleBytes _),
        length_flatMap_const (fun tri : U3DDataTriangle => tri.bytes) 16 _ h16, hnum, hlen]

theorem ExportLodMesh_agrees_with_generic_witness :
    Sample.lodMesh.ClassName = "LodMesh" ∧ Sample.lodMesh.Faces.length ≤ 65535 ∧
      Sample.lodMesh.LodIndicesInRange ∧
      ∃ out, ExportMeshData Sample.polyFlags Sample.zeroHeader (some Sample.lodMesh)
          = .returned out ∧
        (out.data.drop (48 + 16 * 0)).take 16
          = [0, 0, 1, 0, 2, 0, 1, 127, 1, 2, 3, 4, 5, 6, 7, 0] := by
  have h := ExportLodMesh_agrees_with_generic Sample.polyFlags Sample.zeroHeader Sample.lodMesh
    rfl
  obtain ⟨out, ho⟩ := h.1 (by decide) (by decide)
  refine ⟨rfl, by decide, by decide, out, ho, ?_⟩
  obtain ⟨face, mt, hface, hmt, hb, -⟩ := (h.2 out ho).1 0 (by decide) (by decide)
  rw [hb]
  have hf : face = ⟨![0, 1, 2], 0⟩ := by
    have : Sample.lodMesh.Faces[0]? = some ⟨![0, 1, 2], 0⟩ := rfl
    rw [this] at hface
    exact (Option.some.inj hface).symm
  subst hf
  have hm : lodFaceTriangle Sample.lodMesh ⟨![0, 1, 2], 0⟩
      = some { Indices := ![0, 1, 2], UV := ![⟨1, 2⟩, ⟨3, 4⟩, ⟨5, 6⟩], PolyFlags := 0x100,
               TextureIndex := 7 } := by
    unfold lodFaceTriangle
    simp [Sample.lodMesh]
    constructor <;> funext k <;> fin_cases k <;> rfl
  rw [hm] at hmt
  rw [← Option.some.inj hmt]
  decide

/-! ## The RGBA image of a paletted texture -/

theorem getElem?_rows (g : Nat → Nat) (F V i k j : Nat) (hi : i < F) (hk : k < V)
    (hj : j < 4) :
    ((List.range F).flatMap (fun i => (List.range V).flatMap (fun k =>
        u32le (g (i * V + k)))))[4 * (i * V + k) + j]?
      = (u32le (g (i * V + k)))[j]? := by
  have h := getElem?_words [0, 0, 0, 0] rfl g F V i k j hi hk hj
  rw [← h, List.getElem?_append_right (by simp; omega)]
  congr 1
  simp only [List.length_cons, List.length_nil]
  omega

theorem GetImageP8_returned (tex : UTexture) (w h : Nat) (hw : tex.USize = w)
    (hh : tex.VSize = h) (mip : UnrealMipmap) (hm : tex.Mipmaps[0]? = some mip)
    (hok : ∀ y x, y < h → x < w → ∃ color palette rgba,
      mip.Data[y * w + x]? = some color ∧ tex.Palette = some palette ∧
        palette.Colors[color.val]? = some rgba) :
    Exporter.GetImageP8 tex = .returned (MemoryStreamWriter.atEnd
      ((List.range h).flatMap (fun y => (List.range w).flatMap (fun x =>
        u32le (p8Color tex (y * w + x))))) 0) := by
  unfold Exporter.GetImageP8
  simp only [hm, hw, hh, Int.toNat_ofNat, MemoryStreamWriter.empty_eq_atEnd]
  rw [forUp_atEnd _ (fun y => (List.range w).flatMap (fun x =>
    u32le (p8Color tex (y * w + x)))) 0]
  · simp only [List.nil_append, List.range_eq_range']
  · intro y _ hy d1
    rw [forUp_atEnd _ (fun x => u32le (p8Color tex (y * w + x))) 0]
    · simp only [List.range_eq_range']
    · intro x _ hx d2
      obtain ⟨color, palette, rgba, hc, hp, hr⟩ := hok y x (by omega) (by omega)
      have hidx : (y : Int) * (w : Int) + (x : Int) = ((y * w + x : Nat) : Int) := by
        push_cast; rfl
      have hcol : p8Color tex (y * w + x) = rgba := by
        unfold p8Color
        simp only [hm, hp, hc]
        simp [List.getD, hr]
      rw [hidx, readAt_natCast, hc]
      simp only [hp]
      rw [readAt_natCast, hr, hcol]
      simp only [MemoryStreamWriter.putU32_atEnd]

theorem GetImageP8_returned_inv (tex : UTexture) (w h : Nat) (hw : tex.USize = w)
    (hh : tex.VSize = h) (out : MemoryStreamWriter)
    (hr : Exporter.GetImageP8 tex = .returned out) :
    ∃ mip, tex.Mipmaps[0]? = some mip ∧
      ∀ y x, y < h → x < w → ∃ color palette rgba,
        mip.Data[y * w + x]? = some color ∧ tex.Palette = some palette ∧
          palette.Colors[color.val]? = some rgba := by
  unfold Exporter.GetImageP8 at hr
  cases hm : tex.Mipmaps[0]? with
  | none => rw [hm] at hr; simp at hr
  | some mip =>
    rw [hm] at hr
    simp only [hw, hh, Int.toNat_ofNat] at hr
    refine ⟨mip, rfl, fun y x hy hx => ?_⟩
    obtain ⟨s1, s2, hrow⟩ := forUp_returned_body _ _ _ _ _ hr y (Nat.zero_le _) (by omega)
    obtain ⟨s3, s4, hpix⟩ := forUp_returned_body _ _ _ _ _ hrow x (Nat.zero_le _) (by omega)
    have hidx : (y : Int) * (w : Int) + (x : Int) = ((y * w + x : Nat) : Int) := by
      push_cast; rfl
    rw [hidx, readAt_natCast] at hpix
    cases hc : mip.Data[y * w + x]? with
    | none => rw [hc] at hpix; simp at hpix
    | some color =>
      rw [hc] at hpix
      cases hp : tex.Palette with
      | none => rw [hp] at hpix; simp at hpix
      | some palette =>
        rw [hp] at hpix
        simp only [] at hpix
        rw [readAt_natCast] at hpix
        cases hrg : palette.Colors[color.val]? with
        | none => rw [hrg] at hpix; simp at hpix
        | some rgba => exact ⟨color, palette, rgba, rfl, rfl, hrg⟩

/-- Claim C26. For a texture of width w and height h, `GetImageP8` returns whenever mip level 0
holds w * h index bytes and the palette has 256 entries, and whatever it returns is 4 * w * h
bytes long; for y < h and x < w the four bytes at offset 4 * (y * w + x) are the R, G, B and A
components of the palette entry selected by the index byte at y * w + x of mip level 0, so the
rows run from top to bottom. For a texture of the 8-bit paletted format this buffer is the
image `ExportPng` hands to the compressor with the width and the height. -/
theorem GetImageP8_layout (tex : UTexture) (w h : Nat) (hw : tex.USize = w)
    (hh : tex.VSize = h) :
    ((∃ mip palette, tex.Mipmaps[0]? = some mip ∧ w * h ≤ mip.Data.length ∧
        tex.Palette = some palette ∧ 256 ≤ palette.Colors.length) →
      ∃ out, Exporter.GetImageP8 tex = .returned out) ∧
    ∀ out, Exporter.GetImageP8 tex = .returned out →
      out.data.length = 4 * w * h ∧
      (∀ y x, y < h → x < w →
        ∃ mip color palette rgba, tex.Mipmaps[0]? = some mip ∧
          mip.Data[y * w + x]? = some color ∧ tex.Palette = some palette ∧
          palette.Colors[color.val]? = some rgba ∧
          out.data[4 * (y * w + x)]? = some (toByte (UnpackRgba rgba).r) ∧
          out.data[4 * (y * w + x) + 1]? = some (toByte (UnpackRgba rgba).g) ∧
          out.data[4 * (y * w + x) + 2]? = some (toByte (UnpackRgba rgba).b) ∧
          out.data[4 * (y * w + x) + 3]? = some (toByte (UnpackRgba rgba).a)) ∧
      (tex.ActualFormat = TextureFormat.P8 →
        ∀ compress : List Byte → Int → Int → List Byte,
          Exporter.ExportPng compress tex
            = .returned (({} : MemoryStreamWriter).Write (compress out.data w h))) := by
  refine ⟨?_, fun out hr => ?_⟩
  · rintro ⟨mip, palette, hm, hlen, hp, h256⟩
    refine ⟨_, GetImageP8_returned tex w h hw hh mip hm (fun y x hy hx => ?_)⟩
    have hlt : y * w + x < mip.Data.length := by
      have : y * w + x < h * w := by nlinarith
      rw [Nat.mul_comm h w] at this
      omega
    have hc : (mip.Data[y * w + x]).val < palette.Colors.length := by
      have := (mip.Data[y * w + x]).isLt
      omega
    exact ⟨mip.Data[y * w + x], palette, palette.Colors[(mip.Data[y * w + x]).val],
      List.getElem?_eq_getElem hlt, hp, List.getElem?_eq_getElem hc⟩
  · obtain ⟨mip, hm, hok⟩ := GetImageP8_returned_inv tex w h hw hh out hr
    have hret := GetImageP8_returned tex w h hw hh mip hm hok
    rw [hret] at hr
    have e := Outcome.returned.inj hr
    subst e
    refine ⟨?_, fun y x hy hx => ?_, fun hf compress => ?_⟩
    · dsimp only [MemoryStreamWriter.atEnd]
      rw [length_words]
      ring
    · obtain ⟨color, palette, rgba, hc, hp, hrg⟩ := hok y x hy hx
      have hcol : p8Color tex (y * w + x) = rgba := by
        unfold p8Color
        simp only [hm, hp, hc]
        simp [List.getD, hrg]
      have key : ∀ j, j < 4 → (MemoryStreamWriter.atEnd
          ((List.range h).flatMap (fun y => (List.range w).flatMap (fun x =>
            u32le (p8Color tex (y * w + x))))) 0).data[4 * (y * w + x) + j]?
          = [toByte (UnpackRgba rgba).r, toByte (UnpackRgba rgba).g,
              toByte (UnpackRgba rgba).b, toByte (UnpackRgba rgba).a][j]? := by
        intro j hj
        dsimp only [MemoryStreamWriter.atEnd]
        rw [getElem?_rows (p8Color tex) h w y x j hy hx hj, hcol, UnpackRgba_u32le]
      have k0 := key 0 (by omega)
      rw [Nat.add_zero] at k0
      exact ⟨mip, color, palette, rgba, hm, hc, hp, hrg, k0, key 1 (by omega),
        key 2 (by omega), key 3 (by omega)⟩
    · unfold Exporter.ExportPng Exporter.GetImage
      rw [hf]
      simp only [hret, Outcome.andThen_returned, hw, hh]

theorem GetImageP8_layout_witness :
    Sample.texture.USize = (2 : Nat) ∧ Sample.texture.VSize = (2 : Nat) ∧
      ∃ out, Exporter.GetImageP8 Sample.texture = .returned out ∧
        out.data.length = 4 * 2 * 2 ∧
        out.data[4 * (1 * 2 + 0)]? = some 3 ∧ out.data[4 * (1 * 2 + 0) + 1]? = some 6 ∧
        out.data[4 * (1 * 2 + 0) + 2]? = some 9 ∧ out.data[4 * (1 * 2 + 0) + 3]? = some 252 := by
  have h := GetImageP8_layout Sample.texture 2 2 rfl rfl
  obtain ⟨out, ho⟩ := h.1 ⟨⟨[1, 2, 3, 4]⟩, Sample.palette, rfl, by decide, rfl,
    Sample.length_palette⟩
  have h2 := h.2 out ho
  refine ⟨rfl, rfl, out, ho, h2.1, ?_⟩
  obtain ⟨mip, color, palette, rgba, hm, hc, hp, hrg, b0, b1, b2, b3⟩ :=
    h2.2.1 1 0 (by decide) (by decide)
  have e1 : mip = ⟨[1, 2, 3, 4]⟩ := (Option.some.inj hm).symm
  subst e1
  have e2 : color = 3 := (Option.some.inj hc).symm
  subst e2
  have e3 : palette = Sample.palette := (Option.some.inj hp).symm
  subst e3
  have e4 : Sample.palette.Colors[(3 : Byte).val]? = some (3 + 256 * (2 * 3 % 256)
      + 65536 * (3 * 3 % 256) + 16777216 * (255 - 3)) := Sample.palette_getElem? 3 (by omega)
  rw [e4] at hrg
  have e5 := (Option.some.inj hrg).symm
  subst e5
  rw [UnpackRgba_eq] at b0 b1 b2 b3
  exact ⟨b0, b1, b2, b3⟩

/-! ## The palette reads of the procedural textures and the export commandlet -/

/-- Claim C27, the code on every procedural texture. The first palette index the four writers
read is (0 * 64) - 1 = -1, which lies outside every palette, also one of exactly 256 entries:
the first iteration of the sample loop is undefined behaviour, and each writer ends there with
only its first line and the properties written. -/
theorem procedural_palette_read_out_of_range :
    Sample.palette.Colors.length = 256 ∧
    ((0 : Nat) : Int) * 64 - 1 = -1 ∧
    (∀ palette : UPalette, readAt palette.Colors (((0 : Nat) : Int) * 64 - 1) = none) ∧
    (∀ (palette : UPalette) (data : MemoryStreamWriter),
      Exporter.proceduralSample palette 0 data = .undefined data) ∧
    (∀ tex : UTexture,
      (∃ w, Exporter.ExportFireTexture tex = .undefined w) ∧
      (∃ w, Exporter.ExportWaveTexture tex = .undefined w) ∧
      (∃ w, Exporter.ExportWetTexture tex = .undefined w) ∧
      (∃ w, Exporter.ExportIceTexture tex = .undefined w)) ∧
    Exporter.ExportTexture Sample.noCompress (some Sample.fireTexture) "bmp"
      = .undefined (MemoryStreamWriter.atEnd
          (strBytes "BEGIN OBJECT CLASS=FireTexture USIZE=2 VSIZE=2\r\n") 0) := by
  refine ⟨by simp [Sample.palette], by decide, fun palette => rfl,
    fun palette data => proceduralSample_zero palette data,
    fun tex => ⟨⟨_, exportProceduralTexture_undefined _ _ tex⟩,
      ⟨_, exportProceduralTexture_undefined _ _ tex⟩,
      ⟨_, exportProceduralTexture_undefined _ _ tex⟩,
      ⟨_, exportProceduralTexture_undefined _ _ tex⟩⟩, ?_⟩
  have h : Exporter.ExportTexture Sample.noCompress (some Sample.fireTexture) "bmp"
      = Exporter.exportProceduralTexture "FireTexture" "\tPaletteColor" Sample.fireTexture := rfl
  rw [h, exportProceduralTexture_undefined]
  decide

theorem compareChars_eq_zero : ∀ (as bs : List Char),
    StdString.compareChars as bs = 0 ↔ as = bs
  | [], [] => by simp [StdString.compareChars]
  | [], _ :: _ => by simp [StdString.compareChars]
  | _ :: _, [] => by simp [StdString.compareChars]
  | a :: as, b :: bs => by
    have ih := compareChars_eq_zero as bs
    by_cases h : a = b
    · simp [StdString.compareChars, h, ih]
    · by_cases hl : a < b
      · simp [StdString.compareChars, h, hl]
      · simp [StdString.compareChars, h, hl]

theorem compare_ne_zero (a b : String) : StdString.compare a b ≠ 0 ↔ a ≠ b := by
  unfold StdString.compare
  rw [ne_eq, compareChars_eq_zero, ne_eq, String.ext_iff]

theorem validExt_formats (desiredExt : String) :
    ExportCommandlet.validExt desiredExt ExportCommandlet.formats = true := by
  unfold ExportCommandlet.formats
  by_cases h : "bmp" = desiredExt
  · have h2 : StdString.compare "png" desiredExt ≠ 0 := by
      rw [compare_ne_zero, ← h]
      decide
    have h1 : ¬ (StdString.compare "bmp" desiredExt ≠ 0) := by
      rw [compare_ne_zero]
      exact fun k => k h
    simp only [ExportCommandlet.validExt, if_neg h1, if_pos h2]
  · have h1 : StdString.compare "bmp" desiredExt ≠ 0 := (compare_ne_zero _ _).mpr h
    simp only [ExportCommandlet.validExt, if_pos h1]

/-- Claim C28, the code on the answer "JPG". The test `format.compare(desiredExt)` is true when
the two strings differ, so that `validExt` is set for every answer: no answer is reported as an
unknown format. On the answer "JPG", `ExportTextures` goes on to call
`Exporter::ExportTexture` with the extension "jpg", and `ExportFonts` calls
`Exporter::ExportFont`, writes the font file and calls `Exporter::ExportTexture` with "jpg";
both runs end in the exception of the exporter. -/
theorem ExportCommandlet_format_not_validated :
    (∀ desiredExt : String,
      ExportCommandlet.validExt desiredExt ExportCommandlet.formats = true) ∧
    ExportCommandlet.ExportTextures Sample.env ["Pkg"] [Sample.texturePackage] "JPG"
      = ⟨[.WriteOutput "Input desired texture format:\n", .WriteOutput "\tbmp\n",
          .WriteOutput "\tpng\n", .WriteOutput "Exporting textures from Pkg\n",
          .ExportTexture "Tex" "jpg"],
         .thrown (.unknownTextureFormat "jpg")⟩ ∧
    ExportCommandlet.ExportFonts Sample.env ["Pkg"] [Sample.fontPackage] "JPG"
      = ⟨[.WriteOutput "Input desired texture format:\n", .WriteOutput "\tbmp\n",
          .WriteOutput "\tpng\n", .WriteOutput "Exporting fonts from Pkg\n",
          .ExportFont "Font", .make_directory "Game/Pkg", .make_directory "Game/Pkg/Fonts",
          .write_all_bytes "Game/Pkg/Fonts/Font.ufnt"
            (strBytes ("BEGIN OBJECT CLASS=Font\r\n\tBEGIN PAGE\r\n\t\tTexture=\x27Tex\x27\r\n"
              ++ "\t\tChar1(StartU=1,StartV=2,USize=4,VSize=3)\r\n"
              ++ "\t\tChar3(StartU=0,StartV=0,USize=5,VSize=0)\r\n"
              ++ "\tEND PAGE\r\nEND OBJECT\r\n")),
          .ExportTexture "Tex" "jpg"],
         .thrown (.unknownTextureFormat "jpg")⟩ := by
  refine ⟨validExt_formats, by decide, ?_⟩
  set_option maxRecDepth 20000 in decide

theorem splitLoop_none (sep : Nat) : ∀ (fuel : Nat) (s : SplitState),
    ExportCommandlet.OnCommand.splitLoop (some sep) fuel s = none
  | 0, _ => rfl
  | fuel + 1, s => by
    simp only [ExportCommandlet.OnCommand.splitLoop, ne_eq, not_false_eq_true, if_true,
      reduceCtorEq]
    exact splitLoop_none sep fuel _

theorem splitLoop_npos (fuel : Nat) (s : SplitState) :
    ExportCommandlet.OnCommand.splitLoop none (fuel + 1) s
      = some (ExportCommandlet.OnCommand.splitBody none s) := by
  simp [ExportCommandlet.OnCommand.splitLoop]

theorem splitBody_iterate : ∀ n : Nat,
    Nat.iterate (ExportCommandlet.OnCommand.splitBody (some 4)) (n + 1)
        { cmdArgs := "Core Engine", packages := [] }
      = { cmdArgs := "Core", packages := List.replicate (n + 1) "Core" }
  | 0 => by decide
  | n + 1 => by
    rw [Function.iterate_succ_apply', splitBody_iterate n]
    simp only [ExportCommandlet.OnCommand.splitBody]
    have h : StdString.substr "Core" 0 (some 4) = "Core" := by decide
    rw [h]
    congr 1
    exact (List.replicate_succ' ..).symm

/-- Claim C29, the code on the arguments "scripts Core Engine". The loop
`do { ... } while (sep != std::string::npos)` never assigns `sep`: when the text after the
command holds a space, the condition stays true, the loop does not end within any number of
iterations, and each iteration appends the first package name once more. With a single
package name, or none, `sep` is `npos` or the loop is skipped, and `OnCommand` reaches its
`switch`. -/
theorem OnCommand_split_loop_never_ends :
    (∀ fuel : Nat, ExportCommandlet.OnCommand fuel "Game" "scripts Core Engine" = none) ∧
    (∀ (sep fuel : Nat) (s : SplitState),
      ExportCommandlet.OnCommand.splitLoop (some sep) fuel s = none) ∧
    (∀ n : Nat,
      Nat.iterate (ExportCommandlet.OnCommand.splitBody (some 4)) (n + 1)
          { cmdArgs := "Core Engine", packages := [] }
        = { cmdArgs := "Core", packages := List.replicate (n + 1) "Core" }) ∧
    ExportCommandlet.OnCommand 1 "Game" "scripts Core"
      = some (.dispatch .Scripts ["Core"]) ∧
    ExportCommandlet.OnCommand 0 "Game" "scripts" = some (.dispatch .Scripts []) := by
  refine ⟨fun fuel => ?_, splitLoop_none, splitBody_iterate, by decide, by decide⟩
  have h : ExportCommandlet.OnCommand fuel "Game" "scripts Core Engine"
      = (ExportCommandlet.OnCommand.splitLoop (some 4) fuel
          { cmdArgs := "Core Engine", packages := [] }).map
          (fun s => .dispatch .Scripts s.packages) := by
    rfl
  rw [h, splitLoop_none]
  rfl
end UTEngine
